import Mathlib

/-!
# Room booking front end: session store, request gateway and access guard

A shallow embedding of `src/context/AuthContext.js` (the `AuthProvider` with its
mount effect, `fetchWithAuth`, `login`, `logout`, `isAuthenticated`, `isAdmin`),
of `src/components/ProtectedRoute.js`, of the booking form of
`src/app/user/bookings/[room_id]/page.js` (`calculateEndTime`,
`formatDateForAPI`, `handleSubmit`, the duration control and the total price),
of the filtered views of the listings `src/app/rooms/page.js`,
`src/app/admin/rooms/page.js` and `src/app/admin/bookings/page.js`, of the
handlers of the screens that delete, cancel or toggle an element
(`src/app/admin/rooms/page.js`, `src/app/admin/bookings/page.js`,
`src/app/user/bookings/page.js`, `src/app/admin/users/page.js`,
`src/app/admin/users/[user_id]/page.js`), of the edit form of a room
(`src/app/admin/rooms/[room_id]/page.js`), of the recent bookings of
`src/app/admin/page.js` and of the menus of `src/components/Navbar.js`.

The React state of the provider, the single `localStorage` record `"user"` and
the calls made on the router, the toaster, the console and `fetch` are gathered
in one record, `World`; every function of the provider maps a world to the next
one, and what the network answers is an argument of the function.  Calls are
logged in the order in which they are made.

Conventions of the model:

* `JVal` is a JavaScript value as far as the session code can hold one: the
  JSON values and `undefined`.  Its numbers are whole numbers.  Strings are Lean
  strings.  The members of an object are kept in the order in which they were
  written; a name written twice reads as its last binding.
* Reading a property of `null` or `undefined` throws (`getProp`); only own
  properties are modelled, which covers every name the source reads
  (`token`, `role`, `headers`, `user`, `message`).
* `JText` is a string stored in `localStorage`, told apart by the two things
  the source does with it: testing whether it is empty and handing it to
  `JSON.parse`.  A JSON text is represented by the value it denotes: that
  `JSON.parse` reads back what `JSON.stringify` wrote is the contract of the
  platform, and is built into the representation.  What `JSON.stringify` writes
  for a value (`toJSONValue`) is modelled in full.
* `JSNum` is a Number where the source computes with one (the duration and the
  price of a booking, the numeric fields of the edit form): a rational that is
  a double, the two infinities or NaN.  `JSNum.ofRat` rounds a rational to the
  nearest double, ties to even, and `parseInt` and `toNumber` read a string as
  the language does.  The two zeros are one value.
* A `Date` is its time value, clipped to the range of dates.  The offset of
  local time from UTC is a function of the time (`Clock.localTZA`), so a clock
  may change during the day; `fixedZone` is a zone that never changes and
  `newYork2026` the zone of New York in the year 2026.
* The records of a listing (`Room`, `Booking`, `User`) have the typed fields of
  the data model; a numeric field of the edit form is the Number the loaded
  room had or the text of its control.  A call of `confirm` is logged in the
  state of the screen (`asked`), its answer is an argument of the handler.
  `toLowerCase` follows the Unicode tables (version 14) with the rule for the
  final sigma and without locale tailoring, and `Array.prototype.sort` is the
  stable sort.
-/

namespace RoomBooking

/-! ## JavaScript values -/

/-- A JavaScript value: `undefined`, `null`, a boolean, a number, a string, an
array or a plain object given by its members in order. -/
inductive JVal where
  | undefined
  | null
  | bool (b : Bool)
  | num (n : Int)
  | str (s : String)
  | arr (xs : List JVal)
  | obj (ms : List (String × JVal))

/-- An exception value: an `Error`, a `TypeError` raised by reading the named
property of `null` or `undefined`, or a `SyntaxError` raised by a JSON reader. -/
inductive JSError where
  | error (message : String)
  | typeError (reading : String)
  | syntaxError (message : String)
  deriving DecidableEq, Repr

namespace JVal

/-- The abstract operation ToBoolean: `undefined`, `null`, `false`, `0` and the
empty string are falsy, everything else (every array and object) is truthy. -/
def truthy : JVal → Bool
  | undefined => false
  | null => false
  | bool b => b
  | num n => decide (n ≠ 0)
  | str s => decide (s ≠ "")
  | arr _ => true
  | obj _ => true

/-- Whether a member list binds the name `k`. -/
def hasKey (k : String) (ms : List (String × JVal)) : Bool :=
  ms.any fun p => decide (p.1 = k)

/-- The value bound to `k` in a member list, `undefined` when there is none; a
name written more than once reads as its last binding, as in an object
literal. -/
def lookup (k : String) : List (String × JVal) → JVal
  | [] => undefined
  | p :: ms =>
    if hasKey k ms then lookup k ms else if p.1 = k then p.2 else undefined

/-- Array elements with their index names, counting from `i`. -/
def indexed (i : Nat) : List JVal → List (String × JVal)
  | [] => []
  | x :: xs => (toString i, x) :: indexed (i + 1) xs

/-- The own enumerable properties of a value, as object spread copies them:
the members of an object, the indexed elements of an array, the indexed
characters of a string, nothing for any other value. -/
def ownEntries : JVal → List (String × JVal)
  | obj ms => ms
  | arr xs => indexed 0 xs
  | str s => indexed 0 (s.toList.map fun c => str (String.singleton c))
  | _ => []

/-- The property `k` of `v` where reading it cannot throw; `undefined` when
`v` has no such property (in particular when `v` is `null` or `undefined`). -/
def member (v : JVal) (k : String) : JVal :=
  lookup k (ownEntries v)

/-- The expression `v.k`: a `TypeError` on `null` and `undefined`, the property
otherwise. -/
def getProp (v : JVal) (k : String) : Except JSError JVal :=
  match v with
  | undefined => .error (.typeError k)
  | null => .error (.typeError k)
  | w => .ok (member w k)

/-- Writing `k: v` in an object under construction: a name already bound keeps
its place and takes the new value, a new name is added at the end. -/
def objSet (ms : List (String × JVal)) (k : String) (v : JVal) : List (String × JVal) :=
  if hasKey k ms then ms.map fun p => (p.1, if p.1 = k then v else p.2)
  else ms ++ [(k, v)]

/-- Writing `...src` in an object under construction. -/
def objSpread (ms : List (String × JVal)) (src : JVal) : List (String × JVal) :=
  (ownEntries src).foldl (fun acc kv => objSet acc kv.1 kv.2) ms

/-- The comparison `v === "s"` against a string literal. -/
def strictEqStr : JVal → String → Bool
  | str t, s => decide (t = s)
  | _, _ => false

/-- The expression `a || b`. -/
def orElse (a b : JVal) : JVal :=
  if truthy a then a else b

mutual
/-- The abstract operation ToString, as a template literal and the `Error`
constructor apply it. -/
def toStr : JVal → String
  | undefined => "undefined"
  | null => "null"
  | bool true => "true"
  | bool false => "false"
  | num n => toString n
  | str s => s
  | arr xs => ",".intercalate (elemStrs xs)
  | obj _ => "[object Object]"
/-- The pieces that `Array.prototype.join` glues: the empty string for
`null` and `undefined`, the string of the element otherwise. -/
def elemStrs : List JVal → List String
  | [] => []
  | undefined :: xs => "" :: elemStrs xs
  | null :: xs => "" :: elemStrs xs
  | x :: xs => toStr x :: elemStrs xs
end

mutual
/-- The value that `JSON.stringify` writes for a value that is not
`undefined`: members whose value is `undefined` are left out of objects,
`undefined` array elements are written as `null`. -/
def toJSONValue : JVal → JVal
  | arr xs => arr (toJSONElems xs)
  | obj ms => obj (toJSONMembers ms)
  | v => v
/-- The array elements that `JSON.stringify` writes. -/
def toJSONElems : List JVal → List JVal
  | [] => []
  | undefined :: xs => null :: toJSONElems xs
  | x :: xs => toJSONValue x :: toJSONElems xs
/-- The object members that `JSON.stringify` writes. -/
def toJSONMembers : List (String × JVal) → List (String × JVal)
  | [] => []
  | (_, undefined) :: ms => toJSONMembers ms
  | (k, v) :: ms => (k, toJSONValue v) :: toJSONMembers ms
end

mutual
/-- A value is a JSON value when `undefined` occurs nowhere in it. -/
def isJSON : JVal → Bool
  | undefined => false
  | arr xs => isJSONElems xs
  | obj ms => isJSONMembers ms
  | _ => true
/-- Every array element is a JSON value. -/
def isJSONElems : List JVal → Bool
  | [] => true
  | x :: xs => isJSON x && isJSONElems xs
/-- Every member value is a JSON value. -/
def isJSONMembers : List (String × JVal) → Bool
  | [] => true
  | (_, v) :: ms => isJSON v && isJSONMembers ms
end

end JVal

/-! ## Strings in durable storage -/

/-- A string as `localStorage` holds it.  `json v` is a JSON text, which
`JSON.parse` reads as `v`; `invalid raw` is the string `raw`, which is not a
JSON text (`invalid ""` is the empty string). -/
inductive JText where
  | invalid (raw : String)
  | json (v : JVal)

namespace JText

/-- Truthiness of a string: only the empty string is falsy; a JSON text is
never empty. -/
def truthy : JText → Bool
  | invalid raw => decide (raw ≠ "")
  | json _ => true

end JText

/-- The call `JSON.parse(t)`: the value of a JSON text, a `SyntaxError` for any
other string. -/
def JSONparse : JText → Except JSError JVal
  | .json v => .ok v
  | .invalid _ => .error (.syntaxError "Unexpected token or end of JSON input")

/-- The call `JSON.stringify(v)`: `undefined` (no string) for `undefined`, the
JSON text of the written value otherwise. -/
def JSONstringify : JVal → Option JText
  | .undefined => none
  | v => some (.json (JVal.toJSONValue v))

/-- The string that `localStorage.setItem` stores for the result of
`JSON.stringify`: the text itself, or the string `undefined` when there is
none. -/
def storedString : Option JText → JText
  | some t => t
  | none => .invalid "undefined"

/-! ## The world of the provider -/

/-- A notification shown by the toaster. -/
inductive Toast where
  | success (message : String)
  | error (message : String)
  deriving DecidableEq, Repr

/-- A call of `fetch`: `plain url init` is `fetch(url, init)`; `jsonPost url
body` is the call made by `login`, with method `POST`, the one header
`Content-Type: application/json` and the given body. -/
inductive HttpCall where
  | plain (url : String) (init : JVal)
  | jsonPost (url : String) (body : Option JText)

/-- An HTTP response: its status and its body as `response.json()` reads it
(`none` when the body is not a JSON text). -/
structure Response where
  status : Nat
  body : Option JVal

/-- The property `response.ok`: the status is in the range 200 to 299. -/
def Response.ok (r : Response) : Bool :=
  decide (200 ≤ r.status ∧ r.status ≤ 299)

/-- The call `response.json()`. -/
def Response.json (r : Response) : Except JSError JVal :=
  match r.body with
  | some v => .ok v
  | none => .error (.syntaxError "Unexpected token or end of JSON input")

/-- What one call of `fetch` comes to: a response, or a rejection (network
failure). -/
inductive FetchOutcome where
  | responds (r : Response)
  | rejects (e : JSError)

/-- The property `error.message` of an exception value. -/
def JSError.message : JSError → String
  | .error m => m
  | .typeError k => "Cannot read properties of undefined or null: " ++ k
  | .syntaxError m => m

/-- The new entries of a log that grew from `before` to `after`. -/
def newSince (before after : List α) : List α :=
  after.drop before.length

/-- Something the provider does to its surroundings: a call of `router.push`,
of the toaster, of `fetch` or of `console.error`. -/
inductive Effect where
  | push (path : String)
  | toast (t : Toast)
  | fetch (c : HttpCall)
  | consoleError (label : String)

/-- The state of `AuthProvider` and everything it has done to its
surroundings: the React state `user` and `loading`, the `localStorage` record
`"user"` (`none` when there is no such record), and the calls made so far on the
router, the toaster, `fetch` and the console, oldest first. -/
structure World where
  user : JVal
  loading : Bool
  storage : Option JText
  effects : List Effect

/-- The fixed origin of the remote service. -/
def origin : String := "http://0.0.0.0:3000"

/-- The paths pushed on the router among some effects, in order. -/
def navigationsOf : List Effect → List String
  | [] => []
  | .push path :: es => path :: navigationsOf es
  | _ :: es => navigationsOf es

/-- The notifications among some effects, in order. -/
def toastsOf : List Effect → List Toast
  | [] => []
  | .toast t :: es => t :: toastsOf es
  | _ :: es => toastsOf es

/-- The calls of `fetch` among some effects, in order. -/
def requestsOf : List Effect → List HttpCall
  | [] => []
  | .fetch c :: es => c :: requestsOf es
  | _ :: es => requestsOf es

namespace World

/-- The provider at process start: `useState(null)`, `useState(true)`, nothing
done yet, and whatever the browser kept in storage. -/
def start (stored : Option JText) : World :=
  { user := .null, loading := true, storage := stored, effects := [] }

/-- The call `router.push(path)`. -/
def push (w : World) (path : String) : World :=
  { w with effects := w.effects ++ [.push path] }

/-- A call on the toaster. -/
def toast (w : World) (t : Toast) : World :=
  { w with effects := w.effects ++ [.toast t] }

/-- A call of `fetch`. -/
def call (w : World) (c : HttpCall) : World :=
  { w with effects := w.effects ++ [.fetch c] }

/-- A call of `console.error` with the given label. -/
def consoleError (w : World) (label : String) : World :=
  { w with effects := w.effects ++ [.consoleError label] }

/-- The paths pushed on the router so far. -/
def navigations (w : World) : List String :=
  navigationsOf w.effects

/-- The notifications shown so far. -/
def toasts (w : World) : List Toast :=
  toastsOf w.effects

/-- The calls of `fetch` made so far. -/
def requests (w : World) : List HttpCall :=
  requestsOf w.effects

end World

/-! ## AuthProvider -/

/-- The mount effect of `AuthProvider` (AuthContext.js, lines 27 to 38). -/
def initEffect (w : World) : World :=
  match w.storage with
  | none => { w with loading := false }
  | some storedUser =>
    if storedUser.truthy then
      match JSONparse storedUser with
      | .ok v => { w with user := v, loading := false }
      | .error _ =>
        { (w.consoleError "Failed to parse stored user data:") with
          storage := none, loading := false }
    else { w with loading := false }

/-- The function `logout` (lines 152 to 157). -/
def logout (w : World) : World :=
  (({ w with user := .null, storage := none }).toast
    (.success "Logged out successfully")).push "/"

/-- The function `isAuthenticated` (lines 160 to 162):
`!!user && !!user.token`. -/
def isAuthenticated (user : JVal) : Except JSError Bool :=
  if user.truthy then
    match JVal.getProp user "token" with
    | .ok token => .ok token.truthy
    | .error e => .error e
  else .ok false

/-- The function `isAdmin` (lines 165 to 167):
`isAuthenticated() && user.role === "admin"`. -/
def isAdmin (user : JVal) : Except JSError Bool :=
  match isAuthenticated user with
  | .error e => .error e
  | .ok false => .ok false
  | .ok true =>
    match JVal.getProp user "role" with
    | .ok role => .ok (role.strictEqStr "admin")
    | .error e => .error e

/-- The guard `!user || !user.token` of `fetchWithAuth` (line 42). -/
def lacksToken (user : JVal) : Except JSError Bool :=
  if !user.truthy then .ok true
  else
    match JVal.getProp user "token" with
    | .ok token => .ok (!token.truthy)
    | .error e => .error e

/-- The default parameter `options = {}` of `fetchWithAuth`: an empty object
in place of `undefined`, any other argument as given. -/
def optionsOrDefault : JVal → JVal
  | .undefined => .obj []
  | o => o

/-- The object literal `headers` of `fetchWithAuth` (lines 46 to 50): the JSON
content type, the bearer token, then the spread of the caller's headers. -/
def authHeaders (token callerHeaders : JVal) : List (String × JVal) :=
  JVal.objSpread
    [("Content-Type", .str "application/json"),
     ("Authorization", .str ("Bearer " ++ token.toStr))] callerHeaders

/-- The second argument of `fetch` in `fetchWithAuth` (lines 54 to 55): the
spread of the options, then `headers`. -/
def requestInit (options : JVal) (headers : List (String × JVal)) : JVal :=
  .obj (JVal.objSet (JVal.objSpread [] options) "headers" (.obj headers))

/-- The part of `fetchWithAuth` that runs before `fetch` (lines 41 to 56): the
default of `options`, the guard, the merged headers and the arguments of the
call. -/
def fetchWithAuthRequest (user : JVal) (url : String) (options : JVal) :
    Except JSError HttpCall :=
  let options := optionsOrDefault options
  match lacksToken user with
  | .error e => .error e
  | .ok true => .error (.error "No authentication token available")
  | .ok false =>
    match JVal.getProp user "token" with
    | .error e => .error e
    | .ok token =>
      match JVal.getProp options "headers" with
      | .error e => .error e
      | .ok callerHeaders =>
        .ok (.plain (origin ++ url) (requestInit options (authHeaders token callerHeaders)))

/-- The function `fetchWithAuth` (lines 41 to 71); `net` is what `fetch` comes
to if it is called. -/
def fetchWithAuth (w : World) (url : String) (options : JVal) (net : FetchOutcome) :
    Except JSError Response × World :=
  match fetchWithAuthRequest w.user url options with
  | .error e => (.error e, w)
  | .ok request =>
    let w1 := w.call request
    match net with
    | .rejects e => (.error e, w1.consoleError "API request failed:")
    | .responds response =>
      if response.status = 401 then
        let w2 := logout w1
        let w3 := w2.toast (.error "Your session has expired. Please login again.")
        let w4 := w3.push "/login"
        (.error (.error "Authentication token expired"),
          w4.consoleError "API request failed:")
      else (.ok response, w1)

/-- The object literal `userData` of `login` (lines 94 to 98): the spread of
`data.user`, then `token`, then `role`. -/
def userDataOf (dataUser dataToken role : JVal) : JVal :=
  .obj (JVal.objSet (JVal.objSet (JVal.objSpread [] dataUser) "token" dataToken) "role" role)

/-- The body of the `try` block of `login` (lines 77 to 112). -/
def loginTry (w : World) (credentials role : JVal) (net : FetchOutcome) :
    Except JSError JVal × World :=
  let endpoint := if role.strictEqStr "admin" then "/login/admin" else "/login/user"
  let w1 := w.call (.jsonPost (origin ++ endpoint) (JSONstringify credentials))
  match net with
  | .rejects e => (.error e, w1)
  | .responds response =>
    if !response.ok then
      match response.json with
      | .error e => (.error e, w1)
      | .ok errorData =>
        match JVal.getProp errorData "message" with
        | .error e => (.error e, w1)
        | .ok message =>
          (.error (.error (message.orElse (.str "Login failed")).toStr), w1)
    else
      match response.json with
      | .error e => (.error e, w1)
      | .ok data =>
        match JVal.getProp data "user" with
        | .error e => (.error e, w1)
        | .ok dataUser =>
          match JVal.getProp data "token" with
          | .error e => (.error e, w1)
          | .ok dataToken =>
            let userData := userDataOf dataUser dataToken role
            let w2 := { w1 with user := userData }
            let w3 := { w2 with storage := some (storedString (JSONstringify userData)) }
            let w4 := w3.toast (.success "Login successful!")
            let w5 := if role.strictEqStr "admin" then w4.push "/admin/dashboard"
              else w4.push "/user/dashboard"
            (.ok userData, w5)

/-- The function `login` (lines 74 to 119): the `try` block, the `catch` that
notifies and rethrows, the `finally` that ends the loading state. -/
def login (w : World) (credentials role : JVal) (net : FetchOutcome) :
    Except JSError JVal × World :=
  match loginTry { w with loading := true } credentials role net with
  | (.ok userData, w1) => (.ok userData, { w1 with loading := false })
  | (.error e, w1) =>
    let shown := if e.message ≠ "" then e.message else "Login failed"
    (.error e, { (w1.toast (.error shown)) with loading := false })

/-! ## ProtectedRoute -/

/-- What `ProtectedRoute` returns from a render. -/
inductive Rendered where
  | spinner
  | nothing
  | children
  deriving DecidableEq, Repr

/-- One run of the effect of `ProtectedRoute` (ProtectedRoute.js, lines 12 to
20): the paths it pushes on the router. -/
def ProtectedRoute.effect (user : JVal) (loading adminOnly : Bool) :
    Except JSError (List String) :=
  if !loading then
    match isAuthenticated user with
    | .error e => .error e
    | .ok false => .ok ["/login"]
    | .ok true =>
      if adminOnly then
        match isAdmin user with
        | .error e => .error e
        | .ok false => .ok ["/user/dashboard"]
        | .ok true => .ok []
      else .ok []
  else .ok []

/-- One render of `ProtectedRoute` (lines 22 to 34). -/
def ProtectedRoute.render (user : JVal) (loading adminOnly : Bool) :
    Except JSError Rendered :=
  if loading then .ok .spinner
  else
    match isAuthenticated user with
    | .error e => .error e
    | .ok false => .ok .nothing
    | .ok true =>
      if adminOnly then
        match isAdmin user with
        | .error e => .error e
        | .ok false => .ok .nothing
        | .ok true => .ok .children
      else .ok .children

/-! ## The session invariant and the reachable states -/

/-- A value that is given: neither `undefined` nor `null`. -/
def JVal.isGiven : JVal → Bool
  | .undefined => false
  | .null => false
  | _ => true

/-- A fully populated session: the identity (`id`, `username`, `email`) is
given and there is a truthy token. -/
def fullyPopulated (user : JVal) : Bool :=
  (user.member "id").isGiven && (user.member "username").isGiven &&
    (user.member "email").isGiven && (user.member "token").truthy

/-- The session invariant of the data model: absent, or fully populated. -/
def absentOrFull : JVal → Bool
  | .null => true
  | user => fullyPopulated user

/-- A storage whose record, when it is a JSON text, reads as an absent or
fully populated session. -/
def storedAbsentOrFull : Option JText → Bool
  | some (.json v) => absentOrFull v
  | _ => true

/-- A login response body that carries a user with `id`, `username` and
`email`, and a truthy token. -/
def loginBodyComplete (data : JVal) : Bool :=
  ((data.member "user").member "id").isGiven &&
    ((data.member "user").member "username").isGiven &&
    ((data.member "user").member "email").isGiven && (data.member "token").truthy

/-- A network outcome that, when it is an ok response with a JSON body, carries
a complete login body. -/
def completeLogin : FetchOutcome → Bool
  | .responds r =>
    match r.ok, r.body with
    | true, some data => loginBodyComplete data
    | _, _ => true
  | .rejects _ => true

/-- The worlds reachable from process start with the record `stored` in
storage: the start itself, the mount of the provider, a reload of the page
(a fresh provider over the storage left behind), and any `login`, `logout` or
gateway call with any outcome of the network; `served` says which outcomes the
network gives to a login. -/
inductive Reachable (stored : Option JText) (served : FetchOutcome → Bool) : World → Prop
  | start : Reachable stored served (World.start stored)
  | mount : Reachable stored served (initEffect (World.start stored))
  | reload (w : World) :
      Reachable stored served w → Reachable stored served (initEffect (World.start w.storage))
  | login (w : World) (credentials role : JVal) (net : FetchOutcome) :
      Reachable stored served w → served net = true →
      Reachable stored served (login w credentials role net).2
  | logout (w : World) : Reachable stored served w → Reachable stored served (logout w)
  | gateway (w : World) (url : String) (options : JVal) (net : FetchOutcome) :
      Reachable stored served w → Reachable stored served (fetchWithAuth w url options net).2

/-! ## Numbers -/

/-- A JavaScript Number: a finite value, an infinity, or `NaN`. The finite
values that arise are the doubles, held as the rationals they are; the two
zeros are held as one, which no comparison, `||`, `Math.max` or product of the
source tells apart. -/
inductive JSNum where
  | finite (q : ℚ)
  | posInf
  | negInf
  | nan
  deriving DecidableEq

namespace JSNum

instance : OfNat JSNum n := ⟨.finite n⟩

/-- Rounding to the nearest whole number, a tie to the even one. -/
def roundHalfEven (q : ℚ) : ℤ :=
  if q - ⌊q⌋ < 1 / 2 then ⌊q⌋
  else if 1 / 2 < q - ⌊q⌋ then ⌊q⌋ + 1
  else if ⌊q⌋ % 2 = 0 then ⌊q⌋ else ⌊q⌋ + 1

/-- The Number value for a rational: the nearest double, a tie to the one with
an even significand (53 bits, the exponent of the last bit not below -1074),
and an infinity from 2^1024 on. -/
def ofRat (q : ℚ) : JSNum :=
  if q = 0 then .finite 0
  else
    let k : ℤ := max (Int.log 2 |q| - 52) (-1074)
    let v : ℚ := roundHalfEven (|q| / 2 ^ k) * 2 ^ k
    if (2 : ℚ) ^ (1024 : ℕ) ≤ v then (if 0 < q then .posInf else .negInf)
    else .finite (if 0 < q then v else -v)

/-- The comparison `a < b` of two Numbers: false when either is `NaN`. -/
def lt : JSNum → JSNum → Bool
  | finite a, finite b => decide (a < b)
  | finite _, posInf => true
  | negInf, finite _ => true
  | negInf, posInf => true
  | _, _ => false

/-- The comparison `a <= b` of two Numbers: false when either is `NaN`. -/
def le : JSNum → JSNum → Bool
  | finite a, finite b => decide (a ≤ b)
  | finite _, posInf => true
  | negInf, finite _ => true
  | negInf, posInf => true
  | posInf, posInf => true
  | negInf, negInf => true
  | _, _ => false

instance : LT JSNum := ⟨fun a b => lt a b = true⟩

instance : LE JSNum := ⟨fun a b => le a b = true⟩

instance (a b : JSNum) : Decidable (a < b) :=
  inferInstanceAs (Decidable (lt a b = true))

instance (a b : JSNum) : Decidable (a ≤ b) :=
  inferInstanceAs (Decidable (le a b = true))

/-- The sum `a + b` of two Numbers. -/
def add : JSNum → JSNum → JSNum
  | nan, _ => nan
  | _, nan => nan
  | finite a, finite b => ofRat (a + b)
  | posInf, negInf => nan
  | negInf, posInf => nan
  | posInf, _ => posInf
  | _, posInf => posInf
  | negInf, _ => negInf
  | _, negInf => negInf

/-- The product `a * b` of two Numbers. -/
def mul : JSNum → JSNum → JSNum
  | nan, _ => nan
  | _, nan => nan
  | finite a, finite b => ofRat (a * b)
  | finite a, posInf => if a = 0 then nan else if 0 < a then posInf else negInf
  | finite a, negInf => if a = 0 then nan else if 0 < a then negInf else posInf
  | posInf, finite b => if b = 0 then nan else if 0 < b then posInf else negInf
  | negInf, finite b => if b = 0 then nan else if 0 < b then negInf else posInf
  | posInf, posInf => posInf
  | negInf, negInf => posInf
  | posInf, negInf => negInf
  | negInf, posInf => negInf

/-- The abstract operation ToBoolean on a Number: zero and `NaN` are falsy. -/
def truthy : JSNum → Bool
  | finite q => decide (q ≠ 0)
  | nan => false
  | _ => true

/-- The expression `a || b` on Numbers. -/
def orElse (a b : JSNum) : JSNum :=
  if a.truthy then a else b

/-- The call `Math.max(a, b)`: `NaN` when either is, the larger otherwise. -/
def mathMax : JSNum → JSNum → JSNum
  | nan, _ => nan
  | _, nan => nan
  | a, b => if lt a b then b else a

/-- The whole number nearest to a rational between it and zero. -/
def truncate (q : ℚ) : ℤ :=
  if 0 ≤ q then ⌊q⌋ else ⌈q⌉

/-- A Number that is whole, as `JSON.stringify` writes it; `Infinity` and `NaN`
are written `null`. Used for the results of `parseInt`, which are whole. -/
def toJSON : JSNum → JVal
  | finite q => .num ⌊q⌋
  | _ => .null

/-- A time value as a Number: `NaN` for `none`. -/
def ofTime : Option Int → JSNum
  | some t => finite t
  | none => nan

end JSNum

/-- Whether a character is white space or a line end for `trim`, `parseInt`
and the reading of a string as a Number: the characters of the classes
WhiteSpace and LineTerminator of the language. -/
def isWhiteSpace (c : Char) : Bool :=
  c.toNat = 9 || c.toNat = 10 || c.toNat = 11 || c.toNat = 12 || c.toNat = 13 ||
    c.toNat = 32 || c.toNat = 160 || c.toNat = 5760 ||
    (decide (8192 ≤ c.toNat) && decide (c.toNat ≤ 8202)) ||
    c.toNat = 8232 || c.toNat = 8233 || c.toNat = 8239 || c.toNat = 8287 ||
    c.toNat = 12288 || c.toNat = 65279

/-- The call `s.trim()`. -/
def trim (s : String) : String :=
  String.mk ((s.toList.dropWhile isWhiteSpace).reverse.dropWhile isWhiteSpace).reverse

/-! ## Strings and numbers of the booking form -/

/-- The call `s.split(sep)` for a one-character separator, on the characters of
`s`: the pieces between the separators, one piece for a string without any. -/
def splitOn (sep : Char) : List Char → List (List Char)
  | [] => [[]]
  | c :: cs =>
    if c = sep then [] :: splitOn sep cs
    else
      match splitOn sep cs with
      | [] => [[c]]
      | p :: ps => (c :: p) :: ps

/-- The value of a string of decimal digits read from the left, starting from
`acc`; `none` when a character is not a digit. -/
def digitsValue (acc : Nat) : List Char → Option Nat
  | [] => some acc
  | c :: cs =>
    if c.isDigit then digitsValue (acc * 10 + (c.toNat - '0'.toNat)) cs else none

/-- The call `Number(s)` on a string of decimal digits, the empty string
included (which is 0); `none` stands for `NaN`. Every other string reads as
`NaN` here: signs, fractions, exponents, blanks and hexadecimal forms, which a
time control does not produce, are not modelled. -/
def numberOf (s : List Char) : Option Nat :=
  digitsValue 0 s

/-- The element `i` of the destructured array `parts.map(Number)`: `NaN` both
for an element that is `NaN` and for a missing element. -/
def numberAt (parts : List (List Char)) (i : Nat) : Option Nat :=
  match parts.get? i with
  | some p => numberOf p
  | none => none

/-- The element `i` of a destructured array of strings inside a template
literal: the text `undefined` for a missing element. -/
def textAt (parts : List (List Char)) (i : Nat) : String :=
  match parts.get? i with
  | some p => String.mk p
  | none => "undefined"

/-- The call `n.toString()` on a number; `none` is `NaN`. -/
def numberText : Option Int → String
  | some n => toString n
  | none => "NaN"

/-- The call `s.padStart(2, "0")`. -/
def padStart2 (s : String) : String :=
  match s.toList with
  | [] => "00"
  | [c] => String.mk ['0', c]
  | _ => s

/-- The value of a hexadecimal digit. -/
def hexDigit (c : Char) : Option Nat :=
  if c.isDigit then some (c.toNat - '0'.toNat)
  else if 'a' ≤ c ∧ c ≤ 'f' then some (c.toNat - 'a'.toNat + 10)
  else if 'A' ≤ c ∧ c ≤ 'F' then some (c.toNat - 'A'.toNat + 10)
  else none

/-- The number written by the longest run of digits of the given radix (10 or
16) at the front of the characters; `none` when there is no digit. -/
def leadingDigits (radix : Nat) : Option Nat → List Char → Option Nat
  | acc, [] => acc
  | acc, c :: cs =>
    match hexDigit c with
    | some d => if d < radix then leadingDigits radix (some (acc.getD 0 * radix + d)) cs else acc
    | none => acc

/-- The sign and the whole number that `Number.parseInt(s)` reads with no radix
given: leading white space is skipped, a sign is read, then hexadecimal digits
after `0x` or `0X` and decimal digits otherwise, up to the first character that
is none; `none` when there is no digit. -/
def parseIntDigits (s : String) : Option (Bool × Nat) :=
  let cs := s.toList.dropWhile isWhiteSpace
  let signed : Bool × List Char :=
    match cs with
    | '-' :: rest => (true, rest)
    | '+' :: rest => (false, rest)
    | rest => (false, rest)
  let magnitude :=
    match signed.2 with
    | '0' :: 'x' :: rest => leadingDigits 16 none rest
    | '0' :: 'X' :: rest => leadingDigits 16 none rest
    | rest => leadingDigits 10 none rest
  match magnitude with
  | some n => some (signed.1, n)
  | none => none

/-- The call `Number.parseInt(s)` with no radix: the Number value for the signed
whole number read, `NaN` when there is no digit. -/
def parseInt (s : String) : JSNum :=
  match parseIntDigits s with
  | some (negative, n) => JSNum.ofRat (if negative then -(n : ℚ) else (n : ℚ))
  | none => .nan

/-- The value of a string of digits of the given radix (2, 8 or 16) that stands
after the prefix of a literal; `NaN` when it is empty or holds another
character. -/
def radixLiteral (radix : Nat) (cs : List Char) : JSNum :=
  if cs.all fun c =>
      match hexDigit c with
      | some d => decide (d < radix)
      | none => false
  then
    match leadingDigits radix none cs with
    | some n => JSNum.ofRat n
    | none => .nan
  else .nan

/-- The power of ten that the text after the digits of a decimal literal
stands for: 0 for no text, the signed exponent for an exponent part, `none` for
anything else. -/
def exponentOf : List Char → Option Int
  | [] => some 0
  | c :: rest =>
    if c = 'e' ∨ c = 'E' then
      let signed : Bool × List Char :=
        match rest with
        | '-' :: r => (true, r)
        | '+' :: r => (false, r)
        | r => (false, r)
      match signed.2, digitsValue 0 signed.2 with
      | _ :: _, some n => some (if signed.1 then -(n : Int) else (n : Int))
      | _, _ => none
    else none

/-- The value of a decimal literal (the production StrDecimalLiteral): an
optional sign, then `Infinity`, or digits with an optional fraction and an
optional exponent, of which the digits before or after the point may be missing
but not both; `NaN` for any other text. -/
def strDecimalLiteral (cs : List Char) : JSNum :=
  let signed : Bool × List Char :=
    match cs with
    | '-' :: r => (true, r)
    | '+' :: r => (false, r)
    | r => (false, r)
  if signed.2 = "Infinity".toList then (if signed.1 then .negInf else .posInf)
  else
    let whole := signed.2.takeWhile Char.isDigit
    let afterWhole := signed.2.dropWhile Char.isDigit
    let fraction :=
      match afterWhole with
      | '.' :: r => r.takeWhile Char.isDigit
      | _ => []
    let afterFraction :=
      match afterWhole with
      | '.' :: r => r.dropWhile Char.isDigit
      | r => r
    if whole = [] ∧ fraction = [] then .nan
    else
      match exponentOf afterFraction, digitsValue 0 (whole ++ fraction) with
      | some x, some n =>
        JSNum.ofRat ((if signed.1 then -(n : ℚ) else (n : ℚ)) *
          10 ^ (x - (fraction.length : Int)))
      | _, _ => .nan

/-- The abstract operation ToNumber on a string: white space and line ends are
trimmed off both ends; the empty string is 0; a literal with the prefix `0x`,
`0o` or `0b` (in either case) is read in its radix; every other text is read
as a decimal literal. -/
def toNumber (s : String) : JSNum :=
  match (trim s).toList with
  | [] => 0
  | '0' :: 'x' :: rest => radixLiteral 16 rest
  | '0' :: 'X' :: rest => radixLiteral 16 rest
  | '0' :: 'o' :: rest => radixLiteral 8 rest
  | '0' :: 'O' :: rest => radixLiteral 8 rest
  | '0' :: 'b' :: rest => radixLiteral 2 rest
  | '0' :: 'B' :: rest => radixLiteral 2 rest
  | cs => strDecimalLiteral cs

/-! ## The text of a JSON value -/

/-- The digit of a value below 16 in lower-case hexadecimal. -/
def hexChar (n : Nat) : Char :=
  if n < 10 then Char.ofNat ('0'.toNat + n) else Char.ofNat ('a'.toNat + (n - 10))

/-- The way `JSON.stringify` writes one character of a string. -/
def escapeChar (c : Char) : List Char :=
  if c = '"' then ['\\', '"']
  else if c = '\\' then ['\\', '\\']
  else if c = '\n' then ['\\', 'n']
  else if c = '\r' then ['\\', 'r']
  else if c = '\t' then ['\\', 't']
  else if c.toNat = 8 then ['\\', 'b']
  else if c.toNat = 12 then ['\\', 'f']
  else if c.toNat < 32 then ['\\', 'u', '0', '0', hexChar (c.toNat / 16), hexChar (c.toNat % 16)]
  else [c]

/-- The way `JSON.stringify` writes a string: quoted, with escapes. -/
def quoteText (s : String) : String :=
  String.mk ('"' :: (s.toList.flatMap escapeChar ++ ['"']))

mutual
/-- The characters of the JSON text of a JSON value. -/
def jsonText : JVal → String
  | .undefined => "null"
  | .null => "null"
  | .bool true => "true"
  | .bool false => "false"
  | .num n => toString n
  | .str s => quoteText s
  | .arr xs => "[" ++ ",".intercalate (jsonTextElems xs) ++ "]"
  | .obj ms => "\x7b" ++ ",".intercalate (jsonTextMembers ms) ++ "\x7d"
/-- The texts of the elements of an array. -/
def jsonTextElems : List JVal → List String
  | [] => []
  | x :: xs => jsonText x :: jsonTextElems xs
/-- The texts of the members of an object. -/
def jsonTextMembers : List (String × JVal) → List String
  | [] => []
  | (k, v) :: ms => (quoteText k ++ ":" ++ jsonText v) :: jsonTextMembers ms
end

/-- The characters of a stored string: those of the JSON text of the value it
denotes, or the string itself when it is not a JSON text. -/
def JText.text : JText → String
  | .json v => jsonText v
  | .invalid raw => raw

/-- The result of `JSON.stringify(v)` as a JavaScript value: a string, or
`undefined`. -/
def stringifyValue (v : JVal) : JVal :=
  match JSONstringify v with
  | some t => .str t.text
  | none => .undefined

/-! ## Dates -/

/-- The surroundings that a `Date` reads: the time value of `new Date()`, in
milliseconds since the epoch, and the local time zone adjustment of the host.
`localTZA t true` is the offset of local time from UTC, in milliseconds, at the
instant `t`; `localTZA t false` is the offset at the local time `t`, where a
local time that the clocks skip or repeat reads with the offset before the
change, as the language requires. -/
structure Clock where
  now : Int
  localTZA : Int → Bool → Int

/-- The zone of a host whose local time keeps one offset from UTC. -/
def fixedZone (offset : Int) : Int → Bool → Int :=
  fun _ _ => offset

/-- The zone of New York in 2026: five hours behind UTC, four hours from the
8th of March, 07:00 UTC, to the 1st of November, 06:00 UTC. The local times from
02:00 to 03:00 of the 8th of March, which the clocks skip, read with the offset
before the change, and so do the local times from 01:00 to 02:00 of the 1st of
November, which come twice. -/
def newYork2026 : Int → Bool → Int :=
  fun t isUTC =>
    if isUTC then
      if 1772953200000 ≤ t ∧ t < 1793512800000 then -14400000 else -18000000
    else
      if 1772953200000 - 14400000 ≤ t ∧ t < 1793512800000 - 14400000 then -14400000
      else -18000000

/-- The abstract operation LocalTime: the local time value of an instant. -/
def Clock.localTime (clock : Clock) (t : Int) : Int :=
  t + clock.localTZA t true

/-- The abstract operation UTC: the instant of a local time value. -/
def Clock.utc (clock : Clock) (t : Int) : Int :=
  t - clock.localTZA t false

/-- The zone of the clock keeps the offset `o` for every instant and every local
time from `lo` to `hi`: no change of the clocks falls there. -/
def Clock.keepsOffset (clock : Clock) (o lo hi : Int) : Prop :=
  ∀ (t : Int) (isUTC : Bool), lo ≤ t → t ≤ hi → clock.localTZA t isUTC = o

/-- Milliseconds in a minute. -/
def msPerMinute : Int := 60000

/-- Milliseconds in an hour. -/
def msPerHour : Int := 3600000

/-- Milliseconds in a day. -/
def msPerDay : Int := 86400000

/-- The largest time value of a `Date`: 100,000,000 days. -/
def maxTime : Int := 8640000000000000

/-- The abstract operation TimeClip: a time value out of range is `NaN`
(`none`), which makes the date an Invalid Date. -/
def timeClip (t : Int) : Option Int :=
  if -maxTime ≤ t ∧ t ≤ maxTime then some t else none

/-- The call `date.getHours()`; `none` is `NaN`. -/
def getHours (clock : Clock) (date : Option Int) : Option Int :=
  date.map fun t => clock.localTime t / msPerHour % 24

/-- The call `date.getMinutes()`; `none` is `NaN`. -/
def getMinutes (clock : Clock) (date : Option Int) : Option Int :=
  date.map fun t => clock.localTime t / msPerMinute % 60

/-- The call `date.setHours(hours, minutes, 0)`: the local day and the
milliseconds are kept, hour, minute and second are replaced, and the instant of
the new local time is clipped. The sums are those of whole numbers, which is
what the code computes as long as they stay below 2^53 in magnitude. -/
def setHoursMinutes (clock : Clock) (date : Option Int) (hours minutes : Option Int) :
    Option Int :=
  match date, hours, minutes with
  | some t, some h, some m =>
    timeClip (clock.utc (clock.localTime t / msPerDay * msPerDay + h * msPerHour +
      m * msPerMinute + clock.localTime t % 1000))
  | _, _, _ => none

/-- The call `date.setHours(hours)`: the local day, the minute, the second and
the milliseconds are kept, the hour is replaced by the whole part of `hours`,
and the instant of the new local time is clipped; an hour that is not finite
makes the date invalid. The sums are those of whole numbers, as above. -/
def setHours (clock : Clock) (date : Option Int) (hours : JSNum) : Option Int :=
  match date, hours with
  | some t, .finite q =>
    timeClip (clock.utc (clock.localTime t / msPerDay * msPerDay +
      JSNum.truncate q * msPerHour + clock.localTime t % msPerHour))
  | _, _ => none

/-! ## BookRoom -/

namespace BookRoom

/-- The state of the booking page that `handleSubmit` reads and writes, and the
`room_id` of the route. -/
structure State where
  bookingDate : String
  startTime : String
  duration : JSNum
  submitting : Bool
  room_id : String

/-- The function `calculateEndTime` (page.js of user/bookings/[room_id],
lines 28 to 39). -/
def calculateEndTime (clock : Clock) (startTime : String) (duration : JSNum) : String :=
  if startTime = "" then ""
  else
    let parts := splitOn ':' startTime.toList
    let hours := (numberAt parts 0).map Int.ofNat
    let minutes := (numberAt parts 1).map Int.ofNat
    let startDate := setHoursMinutes clock (some clock.now) hours minutes
    let endDate := setHours clock startDate
      ((JSNum.ofTime (getHours clock startDate)).add duration)
    padStart2 (numberText (getHours clock endDate)) ++ ":" ++
      padStart2 (numberText (getMinutes clock endDate))

/-- The function `formatDateForAPI` (lines 42 to 47). -/
def formatDateForAPI (date time : String) : String :=
  if date = "" ∨ time = "" then ""
  else
    let d := splitOn '-' date.toList
    let t := splitOn ':' time.toList
    textAt d 0 ++ "-" ++ textAt d 1 ++ "-" ++ textAt d 2 ++ "T" ++ textAt t 0 ++ ":" ++
      textAt t 1 ++ ":00"

/-- The object that `handleSubmit` hands to `JSON.stringify` (lines 99 to 103);
a `room_id` that is `NaN` or infinite is held as `null`, which is how it is
written. -/
def bookingPayload (clock : Clock) (s : State) : JVal :=
  .obj [("room_id", (parseInt s.room_id).toJSON),
        ("start_time", .str (formatDateForAPI s.bookingDate s.startTime)),
        ("end_time", .str (formatDateForAPI s.bookingDate
          (calculateEndTime clock s.startTime s.duration)))]

/-- The `catch` block of `handleSubmit` (lines 113 to 115). -/
def submitFailed (w : World) (e : JSError) : World :=
  (w.consoleError "Error booking room:").toast
    (.error (if e.message ≠ "" then e.message
      else "Failed to book room. Please try again later."))

/-- The function `handleSubmit` (lines 83 to 119); `net` is what `fetch` comes
to if the gateway calls it. -/
def handleSubmit (clock : Clock) (s : State) (w : World) (net : FetchOutcome) :
    State × World :=
  if s.bookingDate = "" ∨ s.startTime = "" ∨ s.duration < 1 then
    (s, w.toast (.error "Please fill in all booking details"))
  else
    let options := JVal.obj [("method", .str "POST"),
      ("body", stringifyValue (bookingPayload clock s))]
    let done : State := { s with submitting := false }
    match fetchWithAuth w "/bookings" options net with
    | (.error e, w1) => (done, submitFailed w1 e)
    | (.ok response, w1) =>
      if !response.ok then
        match response.json with
        | .error e => (done, submitFailed w1 e)
        | .ok errorData =>
          match JVal.getProp errorData "message" with
          | .error e => (done, submitFailed w1 e)
          | .ok message =>
            (done, submitFailed w1
              (.error (message.orElse (.str "Failed to create booking")).toStr))
      else
        (done, ((w1.toast (.success "Room booked successfully!")).push "/user/dashboard"))

end BookRoom

/-- The value of a time control for hour `h` and minute `m`: `HH:MM`, each padded
to two digits. -/
def timeText (h m : Nat) : String :=
  padStart2 (toString h) ++ ":" ++ padStart2 (toString m)

/-- Whether the date-time `a` is before the date-time `b`, both written in the
one shape `YYYY-MM-DDTHH:MM:SS`, where the order of the instants is the order of
the characters. -/
def earlierText (a b : String) : Bool :=
  decide (a.toList < b.toList)

/-! ## The lower-case form of a string -/

/-- The lower-case mappings of single characters to single characters (Unicode
14.0), as runs `(first, last, step, shift)`: every character from `first` to
`last` whose distance from `first` is a multiple of `step` maps to the character
`shift` code points further on. -/
def lowerRuns : List (Nat × Nat × Nat × Int) :=
 [(65, 90, 1, 32), (192, 214, 1, 32), (216, 222, 1, 32), (256, 302, 2, 1), (306, 310, 2, 1),
  (313, 327, 2, 1), (330, 374, 2, 1), (376, 376, 1, -121), (377, 381, 2, 1), (385, 385, 1, 210),
  (386, 388, 2, 1), (390, 390, 1, 206), (391, 391, 1, 1), (393, 394, 1, 205), (395, 395, 1, 1),
  (398, 398, 1, 79), (399, 399, 1, 202), (400, 400, 1, 203), (401, 401, 1, 1),
  (403, 403, 1, 205), (404, 404, 1, 207), (406, 406, 1, 211), (407, 407, 1, 209),
  (408, 408, 1, 1), (412, 412, 1, 211), (413, 413, 1, 213), (415, 415, 1, 214), (416, 420, 2, 1),
  (422, 422, 1, 218), (423, 423, 1, 1), (425, 425, 1, 218), (428, 428, 1, 1), (430, 430, 1, 218),
  (431, 431, 1, 1), (433, 434, 1, 217), (435, 437, 2, 1), (439, 439, 1, 219), (440, 440, 1, 1),
  (444, 444, 1, 1), (452, 452, 1, 2), (453, 453, 1, 1), (455, 455, 1, 2), (456, 456, 1, 1),
  (458, 458, 1, 2), (459, 475, 2, 1), (478, 494, 2, 1), (497, 497, 1, 2), (498, 500, 2, 1),
  (502, 502, 1, -97), (503, 503, 1, -56), (504, 542, 2, 1), (544, 544, 1, -130),
  (546, 562, 2, 1), (570, 570, 1, 10795), (571, 571, 1, 1), (573, 573, 1, -163),
  (574, 574, 1, 10792), (577, 577, 1, 1), (579, 579, 1, -195), (580, 580, 1, 69),
  (581, 581, 1, 71), (582, 590, 2, 1), (880, 882, 2, 1), (886, 886, 1, 1), (895, 895, 1, 116),
  (902, 902, 1, 38), (904, 906, 1, 37), (908, 908, 1, 64), (910, 911, 1, 63), (913, 929, 1, 32),
  (931, 939, 1, 32), (975, 975, 1, 8), (984, 1006, 2, 1), (1012, 1012, 1, -60),
  (1015, 1015, 1, 1), (1017, 1017, 1, -7), (1018, 1018, 1, 1), (1021, 1023, 1, -130),
  (1024, 1039, 1, 80), (1040, 1071, 1, 32), (1120, 1152, 2, 1), (1162, 1214, 2, 1),
  (1216, 1216, 1, 15), (1217, 1229, 2, 1), (1232, 1326, 2, 1), (1329, 1366, 1, 48),
  (4256, 4293, 1, 7264), (4295, 4295, 1, 7264), (4301, 4301, 1, 7264), (5024, 5103, 1, 38864),
  (5104, 5109, 1, 8), (7312, 7354, 1, -3008), (7357, 7359, 1, -3008), (7680, 7828, 2, 1),
  (7838, 7838, 1, -7615), (7840, 7934, 2, 1), (7944, 7951, 1, -8), (7960, 7965, 1, -8),
  (7976, 7983, 1, -8), (7992, 7999, 1, -8), (8008, 8013, 1, -8), (8025, 8031, 2, -8),
  (8040, 8047, 1, -8), (8072, 8079, 1, -8), (8088, 8095, 1, -8), (8104, 8111, 1, -8),
  (8120, 8121, 1, -8), (8122, 8123, 1, -74), (8124, 8124, 1, -9), (8136, 8139, 1, -86),
  (8140, 8140, 1, -9), (8152, 8153, 1, -8), (8154, 8155, 1, -100), (8168, 8169, 1, -8),
  (8170, 8171, 1, -112), (8172, 8172, 1, -7), (8184, 8185, 1, -128), (8186, 8187, 1, -126),
  (8188, 8188, 1, -9), (8486, 8486, 1, -7517), (8490, 8490, 1, -8383), (8491, 8491, 1, -8262),
  (8498, 8498, 1, 28), (8544, 8559, 1, 16), (8579, 8579, 1, 1), (9398, 9423, 1, 26),
  (11264, 11311, 1, 48), (11360, 11360, 1, 1), (11362, 11362, 1, -10743),
  (11363, 11363, 1, -3814), (11364, 11364, 1, -10727), (11367, 11371, 2, 1),
  (11373, 11373, 1, -10780), (11374, 11374, 1, -10749), (11375, 11375, 1, -10783),
  (11376, 11376, 1, -10782), (11378, 11378, 1, 1), (11381, 11381, 1, 1),
  (11390, 11391, 1, -10815), (11392, 11490, 2, 1), (11499, 11501, 2, 1), (11506, 11506, 1, 1),
  (42560, 42604, 2, 1), (42624, 42650, 2, 1), (42786, 42798, 2, 1), (42802, 42862, 2, 1),
  (42873, 42875, 2, 1), (42877, 42877, 1, -35332), (42878, 42886, 2, 1), (42891, 42891, 1, 1),
  (42893, 42893, 1, -42280), (42896, 42898, 2, 1), (42902, 42920, 2, 1),
  (42922, 42922, 1, -42308), (42923, 42923, 1, -42319), (42924, 42924, 1, -42315),
  (42925, 42925, 1, -42305), (42926, 42926, 1, -42308), (42928, 42928, 1, -42258),
  (42929, 42929, 1, -42282), (42930, 42930, 1, -42261), (42931, 42931, 1, 928),
  (42932, 42946, 2, 1), (42948, 42948, 1, -48), (42949, 42949, 1, -42307),
  (42950, 42950, 1, -35384), (42951, 42953, 2, 1), (42960, 42960, 1, 1), (42966, 42968, 2, 1),
  (42997, 42997, 1, 1), (65313, 65338, 1, 32), (66560, 66599, 1, 40), (66736, 66771, 1, 40),
  (66928, 66938, 1, 39), (66940, 66954, 1, 39), (66956, 66962, 1, 39), (66964, 66965, 1, 39),
  (68736, 68786, 1, 64), (71840, 71871, 1, 32), (93760, 93791, 1, 32), (125184, 125217, 1, 34)]

/-- The characters that the rule for the final sigma skips (the property
Case_Ignorable), as ranges of code points. -/
def caseIgnorableRanges : List (Nat × Nat) :=
 [(39, 39), (46, 46), (58, 58), (94, 94), (96, 96), (168, 168), (173, 173), (175, 175),
  (180, 180), (183, 184), (688, 879), (884, 885), (890, 890), (900, 901), (903, 903),
  (1155, 1161), (1369, 1369), (1375, 1375), (1425, 1469), (1471, 1471), (1473, 1474),
  (1476, 1477), (1479, 1479), (1524, 1524), (1536, 1541), (1552, 1562), (1564, 1564),
  (1600, 1600), (1611, 1631), (1648, 1648), (1750, 1757), (1759, 1768), (1770, 1773),
  (1807, 1807), (1809, 1809), (1840, 1866), (1958, 1968), (2027, 2037), (2042, 2042),
  (2045, 2045), (2070, 2093), (2137, 2139), (2184, 2184), (2192, 2193), (2200, 2207),
  (2249, 2306), (2362, 2362), (2364, 2364), (2369, 2376), (2381, 2381), (2385, 2391),
  (2402, 2403), (2417, 2417), (2433, 2433), (2492, 2492), (2497, 2500), (2509, 2509),
  (2530, 2531), (2558, 2558), (2561, 2562), (2620, 2620), (2625, 2626), (2631, 2632),
  (2635, 2637), (2641, 2641), (2672, 2673), (2677, 2677), (2689, 2690), (2748, 2748),
  (2753, 2757), (2759, 2760), (2765, 2765), (2786, 2787), (2810, 2815), (2817, 2817),
  (2876, 2876), (2879, 2879), (2881, 2884), (2893, 2893), (2901, 2902), (2914, 2915),
  (2946, 2946), (3008, 3008), (3021, 3021), (3072, 3072), (3076, 3076), (3132, 3132),
  (3134, 3136), (3142, 3144), (3146, 3149), (3157, 3158), (3170, 3171), (3201, 3201),
  (3260, 3260), (3263, 3263), (3270, 3270), (3276, 3277), (3298, 3299), (3328, 3329),
  (3387, 3388), (3393, 3396), (3405, 3405), (3426, 3427), (3457, 3457), (3530, 3530),
  (3538, 3540), (3542, 3542), (3633, 3633), (3636, 3642), (3654, 3662), (3761, 3761),
  (3764, 3772), (3782, 3782), (3784, 3789), (3864, 3865), (3893, 3893), (3895, 3895),
  (3897, 3897), (3953, 3966), (3968, 3972), (3974, 3975), (3981, 3991), (3993, 4028),
  (4038, 4038), (4141, 4144), (4146, 4151), (4153, 4154), (4157, 4158), (4184, 4185),
  (4190, 4192), (4209, 4212), (4226, 4226), (4229, 4230), (4237, 4237), (4253, 4253),
  (4348, 4348), (4957, 4959), (5906, 5908), (5938, 5939), (5970, 5971), (6002, 6003),
  (6068, 6069), (6071, 6077), (6086, 6086), (6089, 6099), (6103, 6103), (6109, 6109),
  (6155, 6159), (6211, 6211), (6277, 6278), (6313, 6313), (6432, 6434), (6439, 6440),
  (6450, 6450), (6457, 6459), (6679, 6680), (6683, 6683), (6742, 6742), (6744, 6750),
  (6752, 6752), (6754, 6754), (6757, 6764), (6771, 6780), (6783, 6783), (6823, 6823),
  (6832, 6862), (6912, 6915), (6964, 6964), (6966, 6970), (6972, 6972), (6978, 6978),
  (7019, 7027), (7040, 7041), (7074, 7077), (7080, 7081), (7083, 7085), (7142, 7142),
  (7144, 7145), (7149, 7149), (7151, 7153), (7212, 7219), (7222, 7223), (7288, 7293),
  (7376, 7378), (7380, 7392), (7394, 7400), (7405, 7405), (7412, 7412), (7416, 7417),
  (7468, 7530), (7544, 7544), (7579, 7679), (8125, 8125), (8127, 8129), (8141, 8143),
  (8157, 8159), (8173, 8175), (8189, 8190), (8203, 8207), (8216, 8217), (8228, 8228),
  (8231, 8231), (8234, 8238), (8288, 8292), (8294, 8303), (8305, 8305), (8319, 8319),
  (8336, 8348), (8400, 8432), (11388, 11389), (11503, 11505), (11631, 11631), (11647, 11647),
  (11744, 11775), (11823, 11823), (12293, 12293), (12330, 12333), (12337, 12341), (12347, 12347),
  (12441, 12446), (12540, 12542), (40981, 40981), (42232, 42237), (42508, 42508), (42607, 42610),
  (42612, 42621), (42623, 42623), (42652, 42655), (42736, 42737), (42752, 42785), (42864, 42864),
  (42888, 42890), (42994, 42996), (43000, 43001), (43010, 43010), (43014, 43014), (43019, 43019),
  (43045, 43046), (43052, 43052), (43204, 43205), (43232, 43249), (43263, 43263), (43302, 43309),
  (43335, 43345), (43392, 43394), (43443, 43443), (43446, 43449), (43452, 43453), (43471, 43471),
  (43493, 43494), (43561, 43566), (43569, 43570), (43573, 43574), (43587, 43587), (43596, 43596),
  (43632, 43632), (43644, 43644), (43696, 43696), (43698, 43700), (43703, 43704), (43710, 43711),
  (43713, 43713), (43741, 43741), (43756, 43757), (43763, 43764), (43766, 43766), (43867, 43871),
  (43881, 43883), (44005, 44005), (44008, 44008), (44013, 44013), (64286, 64286), (64434, 64450),
  (65024, 65039), (65043, 65043), (65056, 65071), (65106, 65106), (65109, 65109), (65279, 65279),
  (65287, 65287), (65294, 65294), (65306, 65306), (65342, 65342), (65344, 65344), (65392, 65392),
  (65438, 65439), (65507, 65507), (65529, 65531), (66045, 66045), (66272, 66272), (66422, 66426),
  (67456, 67461), (67463, 67504), (67506, 67514), (68097, 68099), (68101, 68102), (68108, 68111),
  (68152, 68154), (68159, 68159), (68325, 68326), (68900, 68903), (69291, 69292), (69446, 69456),
  (69506, 69509), (69633, 69633), (69688, 69702), (69744, 69744), (69747, 69748), (69759, 69761),
  (69811, 69814), (69817, 69818), (69821, 69821), (69826, 69826), (69837, 69837), (69888, 69890),
  (69927, 69931), (69933, 69940), (70003, 70003), (70016, 70017), (70070, 70078), (70089, 70092),
  (70095, 70095), (70191, 70193), (70196, 70196), (70198, 70199), (70206, 70206), (70367, 70367),
  (70371, 70378), (70400, 70401), (70459, 70460), (70464, 70464), (70502, 70508), (70512, 70516),
  (70712, 70719), (70722, 70724), (70726, 70726), (70750, 70750), (70835, 70840), (70842, 70842),
  (70847, 70848), (70850, 70851), (71090, 71093), (71100, 71101), (71103, 71104), (71132, 71133),
  (71219, 71226), (71229, 71229), (71231, 71232), (71339, 71339), (71341, 71341), (71344, 71349),
  (71351, 71351), (71453, 71455), (71458, 71461), (71463, 71467), (71727, 71735), (71737, 71738),
  (71995, 71996), (71998, 71998), (72003, 72003), (72148, 72151), (72154, 72155), (72160, 72160),
  (72193, 72202), (72243, 72248), (72251, 72254), (72263, 72263), (72273, 72278), (72281, 72283),
  (72330, 72342), (72344, 72345), (72752, 72758), (72760, 72765), (72767, 72767), (72850, 72871),
  (72874, 72880), (72882, 72883), (72885, 72886), (73009, 73014), (73018, 73018), (73020, 73021),
  (73023, 73029), (73031, 73031), (73104, 73105), (73109, 73109), (73111, 73111), (73459, 73460),
  (78896, 78904), (92912, 92916), (92976, 92982), (92992, 92995), (94031, 94031), (94095, 94111),
  (94176, 94177), (94179, 94180), (110576, 110579), (110581, 110587), (110589, 110590),
  (113821, 113822), (113824, 113827), (118528, 118573), (118576, 118598), (119143, 119145),
  (119155, 119170), (119173, 119179), (119210, 119213), (119362, 119364), (121344, 121398),
  (121403, 121452), (121461, 121461), (121476, 121476), (121499, 121503), (121505, 121519),
  (122880, 122886), (122888, 122904), (122907, 122913), (122915, 122916), (122918, 122922),
  (123184, 123197), (123566, 123566), (123628, 123631), (125136, 125142), (125252, 125259),
  (127995, 127999), (917505, 917505), (917536, 917631), (917760, 917999)]

/-- The cased letters (the property Cased) that are not skipped by the rule for
the final sigma, as ranges of code points. -/
def casedRanges : List (Nat × Nat) :=
 [(65, 90), (97, 122), (170, 170), (181, 181), (186, 186), (192, 214), (216, 246), (248, 442),
  (444, 447), (452, 659), (661, 687), (880, 883), (886, 887), (891, 893), (895, 895), (902, 902),
  (904, 906), (908, 908), (910, 929), (931, 1013), (1015, 1153), (1162, 1327), (1329, 1366),
  (1376, 1416), (4256, 4293), (4295, 4295), (4301, 4301), (4304, 4346), (4349, 4351),
  (5024, 5109), (5112, 5117), (7296, 7304), (7312, 7354), (7357, 7359), (7424, 7467),
  (7531, 7543), (7545, 7578), (7680, 7957), (7960, 7965), (7968, 8005), (8008, 8013),
  (8016, 8023), (8025, 8025), (8027, 8027), (8029, 8029), (8031, 8061), (8064, 8116),
  (8118, 8124), (8126, 8126), (8130, 8132), (8134, 8140), (8144, 8147), (8150, 8155),
  (8160, 8172), (8178, 8180), (8182, 8188), (8450, 8450), (8455, 8455), (8458, 8467),
  (8469, 8469), (8473, 8477), (8484, 8484), (8486, 8486), (8488, 8488), (8490, 8493),
  (8495, 8500), (8505, 8505), (8508, 8511), (8517, 8521), (8526, 8526), (8544, 8575),
  (8579, 8580), (9398, 9449), (11264, 11387), (11390, 11492), (11499, 11502), (11506, 11507),
  (11520, 11557), (11559, 11559), (11565, 11565), (42560, 42605), (42624, 42651), (42786, 42863),
  (42865, 42887), (42891, 42894), (42896, 42954), (42960, 42961), (42963, 42963), (42965, 42969),
  (42997, 42998), (43002, 43002), (43824, 43866), (43872, 43880), (43888, 43967), (64256, 64262),
  (64275, 64279), (65313, 65338), (65345, 65370), (66560, 66639), (66736, 66771), (66776, 66811),
  (66928, 66938), (66940, 66954), (66956, 66962), (66964, 66965), (66967, 66977), (66979, 66993),
  (66995, 67001), (67003, 67004), (68736, 68786), (68800, 68850), (71840, 71903), (93760, 93823),
  (119808, 119892), (119894, 119964), (119966, 119967), (119970, 119970), (119973, 119974),
  (119977, 119980), (119982, 119993), (119995, 119995), (119997, 120003), (120005, 120069),
  (120071, 120074), (120077, 120084), (120086, 120092), (120094, 120121), (120123, 120126),
  (120128, 120132), (120134, 120134), (120138, 120144), (120146, 120485), (120488, 120512),
  (120514, 120538), (120540, 120570), (120572, 120596), (120598, 120628), (120630, 120654),
  (120656, 120686), (120688, 120712), (120714, 120744), (120746, 120770), (120772, 120779),
  (122624, 122633), (122635, 122654), (125184, 125251), (127280, 127305), (127312, 127337),
  (127344, 127369)]

/-- Whether a code point lies in one of the ranges. -/
def inRanges (n : Nat) (ranges : List (Nat × Nat)) : Bool :=
  ranges.any fun r => decide (r.1 ≤ n) && decide (n ≤ r.2)

/-- The code point of the lower-case form of a character that has one of a
single character; the code point itself otherwise. -/
def lowerCode (n : Nat) : Nat :=
  match lowerRuns.find? fun r =>
      decide (r.1 ≤ n) && decide (n ≤ r.2.1) && decide ((n - r.1) % r.2.2.1 = 0) with
  | some r => ((n : Int) + r.2.2.2).toNat
  | none => n

/-- The lower-case form of a character apart from its context: the capital I
with a dot above (U+0130) becomes i followed by the combining dot above, every
other character the single character of its mapping. -/
def lowerOf (c : Char) : List Char :=
  if c.toNat = 304 then [Char.ofNat 105, Char.ofNat 775] else [Char.ofNat (lowerCode c.toNat)]

/-- Whether the first character that the rule for the final sigma does not skip
is a cased letter. -/
def casedNext : List Char → Bool
  | [] => false
  | c :: cs =>
    if inRanges c.toNat caseIgnorableRanges then casedNext cs
    else inRanges c.toNat casedRanges

/-- The lower-case form of the characters that follow `before`, where `before`
holds the characters already passed, the nearest first: a capital sigma
(U+03A3) that ends a word, one that has a cased letter before it and none after
it, becomes the final sigma (U+03C2), any other the small sigma (U+03C3). -/
def lowerFrom (before : List Char) : List Char → List Char
  | [] => []
  | c :: cs =>
    (if c.toNat = 931 then
      (if casedNext before && !casedNext cs then [Char.ofNat 962] else [Char.ofNat 963])
    else lowerOf c) ++ lowerFrom (c :: before) cs

/-- The call `s.toLowerCase()`: the lower-case mappings of the Unicode
character database, without regard to the language of the host. -/
def toLowerCase (s : String) : String :=
  String.mk (lowerFrom [] s.toList)

/-- Whether the lower-casing of a string cannot tell two characters apart: they
have the same lower-case form, both or neither are the capital sigma, and the
rule for the final sigma treats them alike. -/
def sameLetter (a b : Char) : Bool :=
  decide (lowerOf a = lowerOf b) && decide (a.toNat = 931 ↔ b.toNat = 931) &&
    (inRanges a.toNat caseIgnorableRanges == inRanges b.toNat caseIgnorableRanges) &&
    (inRanges a.toNat casedRanges == inRanges b.toNat casedRanges)

/-! ## Listings -/

/-- Whether the characters `t` occur as one run inside the characters given. -/
def infixOf (t : List Char) : List Char → Bool
  | [] => t.isPrefixOf []
  | c :: cs => t.isPrefixOf (c :: cs) || infixOf t cs

/-- The call `s.includes(t)`. -/
def includes (s t : String) : Bool :=
  infixOf t.toList s.toList

/-- The call `list.sort(compare)`: the stable sort that puts `a` before `b` when
`compare(a, b)` is negative and keeps their order when it is zero. -/
def sortBy (compare : α → α → Int) (l : List α) : List α :=
  l.insertionSort fun a b => compare a b ≤ 0

/-- A room as the listings read it. -/
structure Room where
  id : Int
  name : String
  description : String
  capacity : Int
  price_per_hour : Int
  is_active : Bool
  deriving DecidableEq, Repr

/-- The search test shared by the Rooms and the AdminRooms listings
(rooms/page.js, lines 43 to 45; admin/rooms/page.js, lines 96 to 98). -/
def matchesSearch (searchTerm : String) (room : Room) : Bool :=
  includes (toLowerCase room.name) (toLowerCase searchTerm) ||
    includes (toLowerCase room.description) (toLowerCase searchTerm)

namespace Rooms

/-- The capacity test of the Rooms listing (rooms/page.js, lines 48 to 52). -/
def matchesCapacity (capacityFilter : String) (room : Room) : Bool :=
  decide (capacityFilter = "") ||
    (decide (capacityFilter = "1-5") && decide (room.capacity ≤ 5)) ||
    (decide (capacityFilter = "6-10") && decide (room.capacity > 5) &&
      decide (room.capacity ≤ 10)) ||
    (decide (capacityFilter = "10+") && decide (room.capacity > 10))

/-- The comparison function of the price sort (lines 56 to 64). -/
def comparePrice (priceSort : String) (a b : Room) : Int :=
  if priceSort = "low-to-high" then a.price_per_hour - b.price_per_hour
  else if priceSort = "high-to-low" then b.price_per_hour - a.price_per_hour
  else 0

/-- The value `filteredRooms` of the Rooms listing (lines 40 to 64). -/
def filteredRooms (rooms : List Room) (searchTerm capacityFilter priceSort : String) :
    List Room :=
  sortBy (comparePrice priceSort)
    (rooms.filter fun room =>
      matchesSearch searchTerm room && matchesCapacity capacityFilter room)

end Rooms

namespace AdminRooms

/-- The status test of the AdminRooms listing (admin/rooms/page.js, lines 101
to 102). -/
def matchesFilter (filter : String) (room : Room) : Bool :=
  decide (filter = "all") || (decide (filter = "active") && room.is_active) ||
    (decide (filter = "inactive") && !room.is_active)

/-- The value `filteredRooms` of the AdminRooms listing (lines 94 to 105). -/
def filteredRooms (rooms : List Room) (searchTerm filter : String) : List Room :=
  rooms.filter fun room => matchesSearch searchTerm room && matchesFilter filter room

end AdminRooms

/-- A booking as the AdminBookings listing reads it: `end_time` is the time
value of `new Date(booking.end_time)` (`none` for an Invalid Date), `username` is
`booking.user?.username` and `roomName` is `booking.room?.name` (`none` when the
snapshot or the name is missing). -/
structure Booking where
  id : Int
  room_id : Int
  end_time : Option Int
  username : Option String
  roomName : Option String
  deriving DecidableEq, Repr

namespace AdminBookings

/-- The time test (admin/bookings/page.js, lines 96 to 97); a comparison with an
Invalid Date is false. -/
def matchesTimeFilter (now : Int) (filter : String) (booking : Booking) : Bool :=
  decide (filter = "all") ||
    (decide (filter = "upcoming") &&
      match booking.end_time with
      | some bookingEnd => decide (bookingEnd ≥ now)
      | none => false) ||
    (decide (filter = "past") &&
      match booking.end_time with
      | some bookingEnd => decide (bookingEnd < now)
      | none => false)

/-- The room test (line 100). -/
def matchesRoomFilter (roomFilter : String) (booking : Booking) : Bool :=
  decide (roomFilter = "") || decide (toString booking.room_id = roomFilter)

/-- One disjunct of the search test: the name is there, is not empty and
includes the term, both in lower case. -/
def nameIncludes (name : Option String) (searchTerm : String) : Bool :=
  match name with
  | some n => decide (n ≠ "") && includes (toLowerCase n) (toLowerCase searchTerm)
  | none => false

/-- The search test (lines 103 to 106). -/
def matchesSearch (searchTerm : String) (booking : Booking) : Bool :=
  decide (searchTerm = "") || nameIncludes booking.username searchTerm ||
    nameIncludes booking.roomName searchTerm

/-- The value `filteredBookings` of the AdminBookings listing (lines 91 to
109); `now` is the instant of the render. -/
def filteredBookings (now : Int) (bookings : List Booking)
    (searchTerm filter roomFilter : String) : List Booking :=
  bookings.filter fun booking =>
    matchesTimeFilter now filter booking && matchesRoomFilter roomFilter booking &&
      matchesSearch searchTerm booking

end AdminBookings

/-! ## Screens that change their collection -/

/-- The state of a listing screen that its handlers write: the collection, the
loading flag, and the questions it has put to the user with `confirm`, oldest
first. -/
structure Listing (α : Type) where
  collection : List α
  loading : Bool
  asked : List String

/-- The body shared by the delete and cancel handlers of the listings: the call
of `confirm`, whose answer is `confirmed`; the gateway call with method
`DELETE`; on an ok response the collection without the elements that `keep`
rejects and the success notification; on any failure the console entry and the
failure notification; the loading flag cleared at the end. -/
def removeAfterConfirm (question url success label failure : String) (keep : α → Bool)
    (confirmed : Bool) (s : Listing α) (w : World) (net : FetchOutcome) :
    Listing α × World :=
  let s1 : Listing α := { s with asked := s.asked ++ [question] }
  if !confirmed then (s1, w)
  else
    match fetchWithAuth w url (.obj [("method", .str "DELETE")]) net with
    | (.error _, w1) =>
      ({ s1 with loading := false }, (w1.consoleError label).toast (.error failure))
    | (.ok response, w1) =>
      if !response.ok then
        ({ s1 with loading := false }, (w1.consoleError label).toast (.error failure))
      else
        ({ s1 with collection := s1.collection.filter keep, loading := false },
          w1.toast (.success success))

/-- The function `handleDeleteRoom` of the AdminRooms listing
(admin/rooms/page.js, lines 41 to 65). -/
def AdminRooms.handleDeleteRoom (roomId : Int) (confirmed : Bool) (s : Listing Room)
    (w : World) (net : FetchOutcome) : Listing Room × World :=
  removeAfterConfirm
    "Are you sure you want to delete this room? This action cannot be undone."
    ("/admin/rooms/" ++ toString roomId) "Room deleted successfully"
    "Error deleting room:" "Failed to delete room. Please try again later."
    (fun room => decide (room.id ≠ roomId)) confirmed s w net

/-- The function `handleToggleRoomStatus` of the AdminRooms listing (lines 67
to 91). -/
def AdminRooms.handleToggleRoomStatus (room : Room) (s : Listing Room) (w : World)
    (net : FetchOutcome) : Listing Room × World :=
  let options := JVal.obj [("method", .str "PATCH"),
    ("body", stringifyValue (.obj [("is_active", .bool (!room.is_active))]))]
  match fetchWithAuth w ("/admin/rooms/" ++ toString room.id) options net with
  | (.error _, w1) =>
    ({ s with loading := false },
      (w1.consoleError "Error updating room status:").toast
        (.error "Failed to update room status. Please try again later."))
  | (.ok response, w1) =>
    if !response.ok then
      ({ s with loading := false },
        (w1.consoleError "Error updating room status:").toast
          (.error "Failed to update room status. Please try again later."))
    else
      ({ s with
          collection := s.collection.map fun r =>
            if r.id = room.id then { r with is_active := !r.is_active } else r,
          loading := false },
        w1.toast (.success ("Room " ++
          (if !room.is_active then "activated" else "deactivated") ++ " successfully")))

/-- The function `handleDeleteBooking` of the AdminBookings listing
(admin/bookings/page.js, lines 52 to 76). -/
def AdminBookings.handleDeleteBooking (bookingId : Int) (confirmed : Bool)
    (s : Listing Booking) (w : World) (net : FetchOutcome) : Listing Booking × World :=
  removeAfterConfirm
    "Are you sure you want to delete this booking? This action cannot be undone."
    ("/admin/bookings/" ++ toString bookingId) "Booking deleted successfully"
    "Error deleting booking:" "Failed to delete booking. Please try again later."
    (fun booking => decide (booking.id ≠ bookingId)) confirmed s w net

/-- The function `handleCancelBooking` of the UserBookings listing
(user/bookings/page.js, lines 40 to 64). -/
def UserBookings.handleCancelBooking (bookingId : Int) (confirmed : Bool)
    (s : Listing Booking) (w : World) (net : FetchOutcome) : Listing Booking × World :=
  removeAfterConfirm "Are you sure you want to cancel this booking?"
    ("/bookings/" ++ toString bookingId) "Booking cancelled successfully"
    "Error cancelling booking:" "Failed to cancel booking. Please try again later."
    (fun booking => decide (booking.id ≠ bookingId)) confirmed s w net

/-- A user as the admin screens read it. -/
structure User where
  id : Int
  username : String
  email : String
  is_admin : Bool
  deriving DecidableEq, Repr

/-- The comparison `n === v` of a number with a value. -/
def JVal.strictEqNum : JVal → Int → Bool
  | .num m, n => decide (m = n)
  | _, _ => false

/-- The function `handleDeleteUser` of the AdminUsers listing
(admin/users/page.js, lines 40 to 70); an error is the exception thrown by
reading `currentUser.id` off an absent session, before anything is done. -/
def AdminUsers.handleDeleteUser (userId : Int) (confirmed : Bool) (s : Listing User)
    (w : World) (net : FetchOutcome) : Except JSError (Listing User × World) :=
  match JVal.getProp w.user "id" with
  | .error e => .error e
  | .ok currentId =>
    if currentId.strictEqNum userId then
      .ok (s, w.toast (.error "You cannot delete your own account"))
    else
      .ok (removeAfterConfirm
        "Are you sure you want to delete this user? This action cannot be undone."
        ("/admin/users/" ++ toString userId) "User deleted successfully"
        "Error deleting user:" "Failed to delete user. Please try again later."
        (fun user => decide (user.id ≠ userId)) confirmed s w net)

namespace UserDetails

/-- The state of the user details screen that `handleDeleteUser` reads and
writes: the user shown (`none` while it is `null`), the loading flag, the
questions put with `confirm`, and the `user_id` of the route. -/
structure State where
  userData : Option User
  loading : Bool
  asked : List String
  user_id : String

/-- The function `handleDeleteUser` of the user details screen
(admin/users/[user_id]/page.js, lines 63 to 92); an error is the exception
thrown by reading `id` off a user or a session that is `null`, before anything
is done. -/
def handleDeleteUser (confirmed : Bool) (s : State) (w : World) (net : FetchOutcome) :
    Except JSError (State × World) :=
  match s.userData with
  | none => .error (.typeError "id")
  | some userData =>
    match JVal.getProp w.user "id" with
    | .error e => .error e
    | .ok currentId =>
      if currentId.strictEqNum userData.id then
        .ok (s, w.toast (.error "You cannot delete your own account"))
      else
        let s1 : State := { s with asked := s.asked ++
          ["Are you sure you want to delete this user? This action cannot be undone."] }
        if !confirmed then .ok (s1, w)
        else
          match fetchWithAuth w ("/admin/users/" ++ s.user_id)
              (.obj [("method", .str "DELETE")]) net with
          | (.error _, w1) =>
            .ok ({ s1 with loading := false },
              (w1.consoleError "Error deleting user:").toast
                (.error "Failed to delete user. Please try again later."))
          | (.ok response, w1) =>
            if !response.ok then
              .ok ({ s1 with loading := false },
                (w1.consoleError "Error deleting user:").toast
                  (.error "Failed to delete user. Please try again later."))
            else
              .ok ({ s1 with loading := false },
                (w1.toast (.success "User deleted successfully")).push "/admin/users")

end UserDetails

/-- The recent bookings of the admin dashboard (admin/page.js, line 50):
`bookingsData.slice(0, 5)`. -/
def AdminDashboard.recentBookings (bookingsData : List α) : List α :=
  bookingsData.take 5

/-! ## EditRoom -/

namespace EditRoom

/-- What a numeric field of the edit form holds: the Number of the room that
the service sent, or, once the control was changed, the text of the control. -/
inductive Field where
  | number (x : JSNum)
  | text (s : String)

/-- The abstract operation ToNumber on a field, which the comparisons of
`validate` apply. -/
def Field.toNumber : Field → JSNum
  | .number x => x
  | .text s => RoomBooking.toNumber s

/-- The state `formData` of the edit form (admin/rooms/[room_id]/page.js, lines
13 to 20, 46 and 58 to 64), by the members that `validate` reads and the two
others of the initial state. -/
structure FormData where
  name : String
  description : String
  capacity : Field
  price_per_hour : Field
  is_active : Bool
  image_url : String

/-- The state of the edit form that `validate` and `handleSubmit` read and
write, and the `room_id` of the route. -/
structure State where
  formData : FormData
  errors : List (String × JVal)
  submitting : Bool
  room_id : String

/-- The function `validate` (lines 66 to 87): the object `newErrors` that it
stores with `setErrors`, and the value it returns,
`Object.keys(newErrors).length === 0`. -/
def validate (formData : FormData) : List (String × JVal) × Bool :=
  let e0 : List (String × JVal) := []
  let e1 := if !(JVal.str (trim formData.name)).truthy then
      JVal.objSet e0 "name" (.str "Room name is required") else e0
  let e2 := if !(JVal.str (trim formData.description)).truthy then
      JVal.objSet e1 "description" (.str "Description is required") else e1
  let e3 := if formData.capacity.toNumber < 1 then
      JVal.objSet e2 "capacity" (.str "Capacity must be at least 1") else e2
  let e4 := if formData.price_per_hour.toNumber ≤ 0 then
      JVal.objSet e3 "price_per_hour" (.str "Price must be greater than 0") else e3
  (e4, decide ((e4.map Prod.fst).length = 0))

/-- The `catch` block of `handleSubmit` (lines 118 to 120). -/
def submitFailed (w : World) (e : JSError) : World :=
  (w.consoleError "Error updating room:").toast
    (.error (if e.message ≠ "" then e.message
      else "Failed to update room. Please try again later."))

/-- The function `handleSubmit` (lines 89 to 124); `body` is the text that
`JSON.stringify(roomData)` returns for the form (lines 100 to 109), and `net` is
what `fetch` comes to if the gateway calls it. -/
def handleSubmit (body : String) (s : State) (w : World) (net : FetchOutcome) :
    State × World :=
  let checked := validate s.formData
  let s1 : State := { s with errors := checked.1 }
  if !checked.2 then (s1, w)
  else
    let options := JVal.obj [("method", .str "PATCH"), ("body", .str body)]
    let done : State := { s1 with submitting := false }
    match fetchWithAuth w ("/admin/rooms/" ++ s.room_id) options net with
    | (.error e, w1) => (done, submitFailed w1 e)
    | (.ok response, w1) =>
      if !response.ok then
        match response.json with
        | .error e => (done, submitFailed w1 e)
        | .ok errorData =>
          match JVal.getProp errorData "message" with
          | .error e => (done, submitFailed w1 e)
          | .ok message =>
            (done, submitFailed w1
              (.error (message.orElse (.str "Failed to update room")).toStr))
      else
        (done, ((w1.toast (.success "Room updated successfully!")).push "/admin/rooms"))

end EditRoom

/-! ## Navbar -/

/-- A JavaScript function of no arguments, given by what a call of it
returns. -/
structure JSFunction (α : Type) where
  call : Unit → α

/-- The abstract operation ToBoolean on a function: a function is an object,
and every object is truthy. -/
def JSFunction.truthy (_ : JSFunction α) : Bool := true

/-- What `useAuth()` hands to the Navbar (AuthContext.js, lines 169 to 178; the
members the Navbar reads): the session, and the functions `isAuthenticated` and
`isAdmin` themselves. -/
structure AuthValue where
  user : JVal
  isAuthenticated : JSFunction (Except JSError Bool)
  isAdmin : JSFunction (Except JSError Bool)

/-- The value of the provider in a given world. -/
def useAuth (w : World) : AuthValue :=
  { user := w.user,
    isAuthenticated := { call := fun _ => RoomBooking.isAuthenticated w.user },
    isAdmin := { call := fun _ => RoomBooking.isAdmin w.user } }

namespace Navbar

/-- An entry of a menu of the Navbar: a link, the greeting with the value that
follows "Hello, ", or the logout button. -/
inductive Item where
  | link (href label : String)
  | greeting (name : JVal)
  | button (label : String)

/-- The entries of a menu of the Navbar, the same expression for the desktop
menu (Navbar.js, lines 26 to 53) and the mobile menu (lines 69 to 96). -/
def menu (auth : AuthValue) : List Item :=
  [.link "/rooms" "Rooms"] ++
    (if auth.isAuthenticated.truthy then
      (if auth.isAdmin.truthy then [.link "/admin" "Admin Dashboard"] else []) ++
        [.link "/bookings/user" "My Bookings",
         .greeting ((auth.user.member "email").orElse (.str "User")),
         .button "Logout"]
    else [.link "/login" "Login", .link "/register" "Register"])

/-- What the Navbar renders: the desktop menu, and the mobile menu while
`isMenuOpen` holds (`none` while it is closed). -/
structure View where
  desktop : List Item
  mobile : Option (List Item)

/-- The component `Navbar` (lines 9 to 101). -/
def render (auth : AuthValue) (isMenuOpen : Bool) : View :=
  { desktop := menu auth, mobile := if isMenuOpen then some (menu auth) else none }

end Navbar

/-! ## The duration of a booking -/

namespace BookRoom

/-- The state of the booking page before any input (lines 17 to 19 of
user/bookings/[room_id]/page.js). -/
def initial (room_id : String) : State :=
  { bookingDate := "", startTime := "", duration := 1, submitting := false,
    room_id := room_id }

/-- The value that the change handler of the duration control stores (line
210): `Math.max(1, Number.parseInt(value) || 1)`. -/
def durationOf (value : String) : JSNum :=
  JSNum.mathMax 1 ((parseInt value).orElse 1)

/-- The change handler of the duration control. -/
def changeDuration (value : String) (s : State) : State :=
  { s with duration := durationOf value }

/-- The room of the booking page by the member that `totalPrice` reads. -/
structure RoomDetails where
  price_per_hour : JSNum

/-- The value `totalPrice` of a render (line 25); `room` is `none` while the
room is `null`. -/
def totalPrice (room : Option RoomDetails) (duration : JSNum) : JSNum :=
  match room with
  | some r => r.price_per_hour.mul duration
  | none => 0

/-- The states of the booking form that its handlers can bring about: the
change handlers of the three controls and `handleSubmit`. -/
inductive Reachable (room_id : String) : State → Prop
  | start : Reachable room_id (initial room_id)
  | changeDate (value : String) (s : State) :
      Reachable room_id s → Reachable room_id { s with bookingDate := value }
  | changeStart (value : String) (s : State) :
      Reachable room_id s → Reachable room_id { s with startTime := value }
  | changeDuration (value : String) (s : State) :
      Reachable room_id s → Reachable room_id (changeDuration value s)
  | submit (clock : Clock) (s : State) (w : World) (net : FetchOutcome) :
      Reachable room_id s → Reachable room_id (handleSubmit clock s w net).1

end BookRoom

/-! ## Reading and writing members -/

namespace JVal

theorem hasKey_cons (k : String) (p : String × JVal) (ms : List (String × JVal)) :
    hasKey k (p :: ms) = (decide (p.1 = k) || hasKey k ms) := by
  simp [hasKey]

theorem hasKey_append (k : String) (ms ns : List (String × JVal)) :
    hasKey k (ms ++ ns) = (hasKey k ms || hasKey k ns) := by
  simp [hasKey]

theorem lookup_of_not_hasKey (k : String) (ms : List (String × JVal))
    (h : hasKey k ms = false) : lookup k ms = undefined := by
  induction ms with
  | nil => rfl
  | cons p ms ih =>
    rw [hasKey_cons] at h
    simp only [Bool.or_eq_false_iff, decide_eq_false_iff_not] at h
    simp [lookup, h.1, h.2]

theorem lookup_append_single (k : String) (v : JVal) (ms : List (String × JVal)) :
    lookup k (ms ++ [(k, v)]) = v := by
  induction ms with
  | nil => simp [lookup, hasKey]
  | cons p ms ih =>
    simp [lookup, hasKey_append, hasKey_cons, ih]

theorem lookup_append_other (k l : String) (v : JVal) (ms : List (String × JVal))
    (h : l ≠ k) : lookup k (ms ++ [(l, v)]) = lookup k ms := by
  induction ms with
  | nil => simp [lookup, hasKey, h]
  | cons p ms ih =>
    have hk : hasKey k [(l, v)] = false := by simp [hasKey, h]
    simp [lookup, hasKey_append, ih, hk]

theorem hasKey_map_set (k l : String) (v : JVal) (ms : List (String × JVal)) :
    hasKey k (ms.map fun p => (p.1, if p.1 = l then v else p.2)) = hasKey k ms := by
  induction ms with
  | nil => rfl
  | cons p ms ih => simp only [List.map_cons, hasKey_cons, ih]

theorem lookup_map_set_same (k : String) (v : JVal) (ms : List (String × JVal))
    (h : hasKey k ms = true) :
    lookup k (ms.map fun p => (p.1, if p.1 = k then v else p.2)) = v := by
  induction ms with
  | nil => simp [hasKey] at h
  | cons p ms ih =>
    simp only [List.map_cons, lookup, hasKey_map_set]
    by_cases hk : hasKey k ms = true
    · simp [hk, ih hk]
    · rw [hasKey_cons] at h
      have hm : p.1 = k := by simpa [hk] using h
      simp [hk, hm]

theorem lookup_map_set_other (k l : String) (v : JVal) (ms : List (String × JVal))
    (h : l ≠ k) :
    lookup k (ms.map fun p => (p.1, if p.1 = l then v else p.2)) = lookup k ms := by
  induction ms with
  | nil => rfl
  | cons p ms ih =>
    simp only [List.map_cons, lookup, hasKey_map_set, ih]
    by_cases hm : p.1 = l
    · have hne : ¬ p.1 = k := fun e => h (hm ▸ e)
      simp [hne]
    · simp [hm]

theorem lookup_objSet_same (k : String) (v : JVal) (ms : List (String × JVal)) :
    lookup k (objSet ms k v) = v := by
  unfold objSet
  by_cases h : hasKey k ms = true
  · simp only [h, if_true]
    exact lookup_map_set_same k v ms h
  · simp only [h]
    exact lookup_append_single k v ms

theorem lookup_objSet_other (k l : String) (v : JVal) (ms : List (String × JVal))
    (h : l ≠ k) : lookup k (objSet ms l v) = lookup k ms := by
  unfold objSet
  by_cases hl : hasKey l ms = true
  · simp only [hl, if_true]
    exact lookup_map_set_other k l v ms h
  · simp only [hl]
    exact lookup_append_other k l v ms h

theorem lookup_foldl_objSet (k : String) (es ms : List (String × JVal)) :
    lookup k (es.foldl (fun acc kv => objSet acc kv.1 kv.2) ms) =
      if hasKey k es then lookup k es else lookup k ms := by
  induction es generalizing ms with
  | nil => simp [hasKey]
  | cons e es ih =>
    simp only [List.foldl_cons, ih, hasKey_cons, lookup]
    by_cases hes : hasKey k es = true
    · simp [hes]
    · by_cases hl : e.1 = k
      · subst hl
        simp [hes, lookup_objSet_same]
      · simp [hes, hl, lookup_objSet_other]

/-- A spread member reads as the source binds it, any other name as the object
under construction did before. -/
theorem lookup_objSpread (k : String) (ms : List (String × JVal)) (src : JVal) :
    lookup k (objSpread ms src) =
      if hasKey k (ownEntries src) then member src k else lookup k ms := by
  unfold objSpread member
  exact lookup_foldl_objSet k (ownEntries src) ms

theorem lookup_objSpread_nil (k : String) (src : JVal) :
    lookup k (objSpread [] src) = member src k := by
  rw [lookup_objSpread]
  by_cases h : hasKey k (ownEntries src) = true
  · simp [h]
  · simp only [h]
    simp only [Bool.not_eq_true] at h
    simp [member, lookup_of_not_hasKey k _ h, lookup]

end JVal

/-! ## Reading the log of effects -/

theorem navigationsOf_append (es fs : List Effect) :
    navigationsOf (es ++ fs) = navigationsOf es ++ navigationsOf fs := by
  induction es with
  | nil => rfl
  | cons e es ih => cases e <;> simp [navigationsOf, ih]

theorem toastsOf_append (es fs : List Effect) :
    toastsOf (es ++ fs) = toastsOf es ++ toastsOf fs := by
  induction es with
  | nil => rfl
  | cons e es ih => cases e <;> simp [toastsOf, ih]

theorem requestsOf_append (es fs : List Effect) :
    requestsOf (es ++ fs) = requestsOf es ++ requestsOf fs := by
  induction es with
  | nil => rfl
  | cons e es ih => cases e <;> simp [requestsOf, ih]

/-! ## Session checks -/

theorem getProp_of_truthy (user : JVal) (k : String) (h : user.truthy = true) :
    JVal.getProp user k = .ok (user.member k) := by
  cases user <;> simp_all [JVal.getProp, JVal.truthy]

theorem member_of_falsy (user : JVal) (k : String) (h : user.truthy = false) :
    user.member k = .undefined := by
  cases user <;> simp_all [JVal.truthy, JVal.member, JVal.ownEntries, JVal.lookup, JVal.indexed]

theorem isAuthenticated_eq (user : JVal) :
    isAuthenticated user = .ok (user.truthy && (user.member "token").truthy) := by
  unfold isAuthenticated
  by_cases h : user.truthy = true
  · simp [h, getProp_of_truthy user "token" h]
  · simp [h]

theorem isAdmin_eq (user : JVal) :
    isAdmin user = .ok (user.truthy && (user.member "token").truthy &&
      (user.member "role").strictEqStr "admin") := by
  unfold isAdmin
  rw [isAuthenticated_eq]
  by_cases h : user.truthy = true
  · by_cases ht : (user.member "token").truthy = true
    · simp [h, ht, getProp_of_truthy user "role" h]
    · simp [h, ht]
  · simp [h]

theorem lacksToken_eq (user : JVal) :
    lacksToken user = .ok (!(user.truthy && (user.member "token").truthy)) := by
  unfold lacksToken
  by_cases h : user.truthy = true
  · simp [h, getProp_of_truthy user "token" h]
  · simp [h]

/-- The session passes `isAuthenticated` exactly when it is truthy and so is its
token. -/
theorem isAuthenticated_true_iff (user : JVal) :
    isAuthenticated user = .ok true ↔
      user.truthy = true ∧ (user.member "token").truthy = true := by
  rw [isAuthenticated_eq]
  simp

theorem isAuthenticated_false_iff (user : JVal) :
    isAuthenticated user = .ok false ↔
      ¬ (user.truthy = true ∧ (user.member "token").truthy = true) := by
  rw [isAuthenticated_eq]
  simp

/-! ## Claims on the session checks and the gateway -/

/-- C1: `isAuthenticated` never throws; it is false for the absent session
(`null`) and for every session whose token is missing, `null` or the empty
string; it is true exactly when the session is not `null` and its token is
truthy. -/
theorem isAuthenticated_spec (user : JVal) :
    isAuthenticated .null = .ok false ∧
    ((user.member "token" = .undefined ∨ user.member "token" = .null ∨
        user.member "token" = .str "") → isAuthenticated user = .ok false) ∧
    (isAuthenticated user = .ok true ↔
      user ≠ .null ∧ (user.member "token").truthy = true) ∧
    (isAuthenticated user = .ok true ∨ isAuthenticated user = .ok false) := by
  refine ⟨rfl, ?_, ?_, ?_⟩
  · intro h
    rw [isAuthenticated_false_iff]
    rintro ⟨_, ht⟩
    rcases h with h | h | h <;> simp [h, JVal.truthy] at ht
  · rw [isAuthenticated_true_iff]
    constructor
    · rintro ⟨hu, ht⟩
      refine ⟨?_, ht⟩
      rintro rfl
      simp [JVal.truthy] at hu
    · rintro ⟨_, ht⟩
      refine ⟨?_, ht⟩
      by_contra hu
      simp only [Bool.not_eq_true] at hu
      rw [member_of_falsy user "token" hu] at ht
      simp [JVal.truthy] at ht
  · rw [isAuthenticated_eq]
    cases (user.truthy && (user.member "token").truthy) <;> simp

/-- C2: when the session is absent or has no truthy token, `fetchWithAuth` fails
with the error "No authentication token available" and leaves the world as it
was, for every path, options and network: no call of `fetch`, no navigation, no
change of the session or of storage. -/
theorem fetchWithAuth_no_session (w : World) (url : String) (options : JVal)
    (net : FetchOutcome)
    (h : w.user = .null ∨ (w.user.member "token").truthy = false) :
    fetchWithAuth w url options net =
      (.error (.error "No authentication token available"), w) := by
  have hl : lacksToken w.user = .ok true := by
    rw [lacksToken_eq]
    rcases h with h | h
    · simp [h, JVal.truthy]
    · simp [h]
  simp [fetchWithAuth, fetchWithAuthRequest, hl]

theorem fetchWithAuth_no_session_witness :
    ((World.start none).user = .null ∨
        ((World.start none).user.member "token").truthy = false) ∧
    fetchWithAuth (World.start none) "/rooms" (.obj [("method", .str "DELETE")])
        (.responds { status := 200, body := none }) =
      (.error (.error "No authentication token available"), World.start none) :=
  ⟨Or.inl rfl, fetchWithAuth_no_session _ _ _ _ (Or.inl rfl)⟩

theorem newSince_append (xs ys : List α) : newSince xs (xs ++ ys) = ys := by
  simp [newSince]

/-- With an authenticated session and options other than `null`, the gateway
reaches `fetch`, with the merged headers. -/
theorem fetchWithAuthRequest_ok (user : JVal) (url : String) (options : JVal)
    (hauth : isAuthenticated user = .ok true) (hopt : options ≠ .null) :
    fetchWithAuthRequest user url options =
      .ok (.plain (origin ++ url)
        (requestInit (optionsOrDefault options)
          (authHeaders (user.member "token")
            ((optionsOrDefault options).member "headers")))) := by
  rw [isAuthenticated_true_iff] at hauth
  have hl : lacksToken user = .ok false := by
    rw [lacksToken_eq]
    simp [hauth.1, hauth.2]
  have ho : JVal.getProp (optionsOrDefault options) "headers" =
      .ok ((optionsOrDefault options).member "headers") := by
    cases options <;> simp_all [optionsOrDefault, JVal.getProp]
  simp [fetchWithAuthRequest, hl, getProp_of_truthy user "token" hauth.1, ho]

/-- C3: when a gateway call is answered with status 401, afterwards the session
is absent in memory and in storage, and among the navigations issued by the call
(first to "/", by `logout`, then to "/login") there is exactly one to "/login",
the last. -/
theorem fetchWithAuth_unauthorized (w : World) (url : String) (options : JVal)
    (r : Response) (hauth : isAuthenticated w.user = .ok true)
    (hopt : options ≠ .null) (h401 : r.status = 401) :
    (fetchWithAuth w url options (.responds r)).2.user = .null ∧
    (fetchWithAuth w url options (.responds r)).2.storage = none ∧
    newSince w.navigations (fetchWithAuth w url options (.responds r)).2.navigations =
      ["/", "/login"] ∧
    (newSince w.navigations
      (fetchWithAuth w url options (.responds r)).2.navigations).count "/login" = 1 := by
  have hn : (fetchWithAuth w url options (.responds r)).2.navigations =
      w.navigations ++ ["/", "/login"] := by
    simp [fetchWithAuth, fetchWithAuthRequest_ok w.user url options hauth hopt, h401,
      logout, World.push, World.toast, World.call, World.consoleError, World.navigations,
      navigationsOf_append, navigationsOf]
  rw [hn, newSince_append]
  refine ⟨?_, ?_, rfl, by decide⟩ <;>
    simp [fetchWithAuth, fetchWithAuthRequest_ok w.user url options hauth hopt, h401,
      logout, World.push, World.toast, World.call, World.consoleError]

theorem fetchWithAuth_unauthorized_witness :
    (fetchWithAuth
      { World.start (some (.json (.obj [("token", .str "t")]))) with
        user := .obj [("token", .str "t")], loading := false }
      "/rooms" .undefined (.responds { status := 401, body := none })).2.user = .null :=
  (fetchWithAuth_unauthorized
    { World.start (some (.json (.obj [("token", .str "t")]))) with
      user := .obj [("token", .str "t")], loading := false }
    "/rooms" .undefined { status := 401, body := none }
    (by rfl) (by simp) rfl).1

/-- C4: with a session present and a response received, `fetchWithAuth` returns
a response to its caller exactly when the status is not 401. For every other
status it returns the very response it received, and session, storage,
navigations and notifications stay as they were; for 401 it returns nothing and
fails with the error "Authentication token expired". -/
theorem fetchWithAuth_returns_iff (w : World) (url : String) (options : JVal)
    (r : Response) (hauth : isAuthenticated w.user = .ok true)
    (hopt : options ≠ .null) :
    ((∃ r', (fetchWithAuth w url options (.responds r)).1 = .ok r') ↔ r.status ≠ 401) ∧
    (r.status ≠ 401 →
      (fetchWithAuth w url options (.responds r)).1 = .ok r ∧
      (fetchWithAuth w url options (.responds r)).2.user = w.user ∧
      (fetchWithAuth w url options (.responds r)).2.storage = w.storage ∧
      (fetchWithAuth w url options (.responds r)).2.navigations = w.navigations ∧
      (fetchWithAuth w url options (.responds r)).2.toasts = w.toasts) ∧
    (r.status = 401 →
      (fetchWithAuth w url options (.responds r)).1 =
        .error (.error "Authentication token expired")) := by
  have hreq := fetchWithAuthRequest_ok w.user url options hauth hopt
  by_cases h : r.status = 401
  · simp [fetchWithAuth, hreq, h]
  · simp [fetchWithAuth, hreq, h, World.call, World.navigations, World.toasts,
      navigationsOf_append, toastsOf_append, navigationsOf, toastsOf]

theorem fetchWithAuth_returns_iff_witness :
    (fetchWithAuth
      { World.start none with user := .obj [("token", .str "t")], loading := false }
      "/rooms/7" (.obj [("method", .str "DELETE")])
      (.responds { status := 404, body := none })).1 =
        .ok { status := 404, body := none } :=
  ((fetchWithAuth_returns_iff
    { World.start none with user := .obj [("token", .str "t")], loading := false }
    "/rooms/7" (.obj [("method", .str "DELETE")]) { status := 404, body := none }
    (by rfl) (by simp)).2.1 (by decide)).1

/-- Every way a gateway call that reaches `fetch` can end adds exactly that one
call to the log of requests. -/
theorem fetchWithAuth_requests (w : World) (url : String) (options : JVal)
    (net : FetchOutcome) (c : HttpCall)
    (hreq : fetchWithAuthRequest w.user url options = .ok c) :
    (fetchWithAuth w url options net).2.requests = w.requests ++ [c] := by
  cases net with
  | rejects e =>
    simp [fetchWithAuth, hreq, World.call, World.consoleError, World.requests,
      requestsOf_append, requestsOf]
  | responds r =>
    by_cases h : r.status = 401 <;>
      simp [fetchWithAuth, hreq, h, logout, World.push, World.toast, World.call,
        World.consoleError, World.requests, requestsOf_append, requestsOf]

/-- C5 (as stated, refuted): a caller whose options carry an `Authorization`
header has that header sent, not the bearer token of the session. -/
theorem fetchWithAuth_caller_authorization_wins :
    newSince ([] : List HttpCall)
      (fetchWithAuth
        { World.start none with user := .obj [("token", .str "t")], loading := false }
        "/rooms"
        (.obj [("headers", .obj [("Authorization", .str "Basic abc")])])
        (.responds { status := 200, body := none })).2.requests =
      [.plain "http://0.0.0.0:3000/rooms"
        (.obj [("headers", .obj [("Content-Type", .str "application/json"),
                                 ("Authorization", .str "Basic abc")])])] ∧
    JVal.str "Basic abc" ≠ JVal.str ("Bearer " ++ (JVal.str "t").toStr) := by
  refine ⟨rfl, ?_⟩
  simp [JVal.toStr]

/-- C5 (amended): for every session with a truthy token and every options
other than `null`, `fetchWithAuth` sends one request, to the fixed origin
followed by the path. Its `headers` member is the merged header object; every
header the caller supplied is sent with the caller's value; `Authorization` is
"Bearer " followed by the token and `Content-Type` is "application/json"
whenever the caller's headers do not carry a header of that name; every other
option of the caller is kept. -/
theorem fetchWithAuth_headers (w : World) (url : String) (options : JVal)
    (net : FetchOutcome) (hauth : isAuthenticated w.user = .ok true)
    (hopt : options ≠ .null) :
    ∃ init headers,
      newSince w.requests (fetchWithAuth w url options net).2.requests =
        [.plain (origin ++ url) init] ∧
      init.member "headers" = .obj headers ∧
      (∀ k, k ≠ "headers" → init.member k = (optionsOrDefault options).member k) ∧
      (∀ k, JVal.hasKey k
          (JVal.ownEntries ((optionsOrDefault options).member "headers")) = true →
        JVal.lookup k headers = ((optionsOrDefault options).member "headers").member k) ∧
      (JVal.hasKey "Authorization"
          (JVal.ownEntries ((optionsOrDefault options).member "headers")) = false →
        JVal.lookup "Authorization" headers =
          .str ("Bearer " ++ (w.user.member "token").toStr)) ∧
      (JVal.hasKey "Content-Type"
          (JVal.ownEntries ((optionsOrDefault options).member "headers")) = false →
        JVal.lookup "Content-Type" headers = .str "application/json") := by
  have hreq := fetchWithAuthRequest_ok w.user url options hauth hopt
  refine ⟨requestInit (optionsOrDefault options)
      (authHeaders (w.user.member "token") ((optionsOrDefault options).member "headers")),
    authHeaders (w.user.member "token") ((optionsOrDefault options).member "headers"),
    ?_, ?_, ?_, ?_, ?_, ?_⟩
  · rw [fetchWithAuth_requests w url options net _ hreq, newSince_append]
  · simp [requestInit, JVal.member, JVal.ownEntries, JVal.lookup_objSet_same]
  · intro k hk
    simp only [requestInit, JVal.member, JVal.ownEntries]
    rw [JVal.lookup_objSet_other k "headers" _ _ (Ne.symm hk), JVal.lookup_objSpread_nil]
    rfl
  · intro k hk
    simp [authHeaders, JVal.lookup_objSpread, hk]
  · intro hk
    rw [authHeaders, JVal.lookup_objSpread, hk]
    rfl
  · intro hk
    rw [authHeaders, JVal.lookup_objSpread, hk]
    rfl

theorem fetchWithAuth_headers_witness :
    ∃ init headers,
      newSince ([] : List HttpCall)
        (fetchWithAuth
          { World.start none with user := .obj [("token", .str "t")], loading := false }
          "/rooms" (.obj [("method", .str "DELETE")])
          (.responds { status := 200, body := none })).2.requests =
        [.plain (origin ++ "/rooms") init] ∧
      init.member "headers" = .obj headers ∧
      JVal.lookup "Authorization" headers = .str "Bearer t" := by
  obtain ⟨init, headers, h1, h2, _, _, h5, _⟩ :=
    fetchWithAuth_headers
      { World.start none with user := .obj [("token", .str "t")], loading := false }
      "/rooms" (.obj [("method", .str "DELETE")])
      (.responds { status := 200, body := none }) (by rfl) (by simp)
  exact ⟨init, headers, h1, h2, h5 (by rfl)⟩

/-! ## Claims on the access guard -/

theorem strictEqStr_eq_true_iff (v : JVal) (s : String) :
    v.strictEqStr s = true ↔ v = .str s := by
  cases v <;> simp [JVal.strictEqStr]

/-- A session whose role is not "admin" does not pass `isAdmin`. -/
theorem isAdmin_false_of_role (user : JVal) (hrole : user.member "role" ≠ .str "admin") :
    isAdmin user = .ok false := by
  rw [isAdmin_eq]
  have h : (user.member "role").strictEqStr "admin" = false := by
    rw [← Bool.not_eq_true, strictEqStr_eq_true_iff]
    exact hrole
  simp [h]

/-- C6: for every session whose role is not "admin" (the absent session
included), `ProtectedRoute` with `adminOnly` set never renders its children: it
renders the spinner while loading and nothing afterwards. Once loading has
finished its effect issues exactly one navigation: to "/user/dashboard" when the
session is authenticated, to "/login" when it is not. -/
theorem ProtectedRoute_adminOnly_non_admin (user : JVal)
    (hrole : user.member "role" ≠ .str "admin") :
    ProtectedRoute.render user true true = .ok .spinner ∧
    ProtectedRoute.render user false true = .ok .nothing ∧
    (∀ loading, ProtectedRoute.render user loading true ≠ .ok .children) ∧
    (isAuthenticated user = .ok true →
      ProtectedRoute.effect user false true = .ok ["/user/dashboard"]) ∧
    (isAuthenticated user = .ok false →
      ProtectedRoute.effect user false true = .ok ["/login"]) ∧
    (∃ path, ProtectedRoute.effect user false true = .ok [path]) := by
  have hadmin := isAdmin_false_of_role user hrole
  have hrender : ProtectedRoute.render user false true = .ok .nothing := by
    unfold ProtectedRoute.render
    rw [isAuthenticated_eq, hadmin]
    cases (user.truthy && (user.member "token").truthy) <;> simp
  have heff : ProtectedRoute.effect user false true =
      .ok [if user.truthy && (user.member "token").truthy then "/user/dashboard"
        else "/login"] := by
    unfold ProtectedRoute.effect
    rw [isAuthenticated_eq, hadmin]
    cases (user.truthy && (user.member "token").truthy) <;> simp
  refine ⟨rfl, hrender, ?_, ?_, ?_, ⟨_, heff⟩⟩
  · intro loading
    cases loading
    · rw [hrender]
      simp
    · simp [ProtectedRoute.render]
  · intro h
    rw [isAuthenticated_eq] at h
    simp only [Except.ok.injEq] at h
    rw [heff, h]
    rfl
  · intro h
    rw [isAuthenticated_eq] at h
    simp only [Except.ok.injEq] at h
    rw [heff, h]
    rfl

theorem ProtectedRoute_adminOnly_non_admin_witness :
    ProtectedRoute.render
        (.obj [("id", .num 7), ("token", .str "t"), ("role", .str "user")]) false true =
      .ok .nothing ∧
    ProtectedRoute.effect
        (.obj [("id", .num 7), ("token", .str "t"), ("role", .str "user")]) false true =
      .ok ["/user/dashboard"] :=
  have h := ProtectedRoute_adminOnly_non_admin
    (.obj [("id", .num 7), ("token", .str "t"), ("role", .str "user")])
    (by simp [JVal.member, JVal.ownEntries, JVal.lookup, JVal.hasKey])
  ⟨h.2.1, h.2.2.2.1 (by rfl)⟩

/-- C7: once loading has finished, for both values of `adminOnly`: with no
authenticated session the guard navigates to "/login" and renders nothing; with
an authenticated session that is not an admin and `adminOnly` set it navigates
to "/user/dashboard" and renders nothing; in every other case (authenticated,
and `adminOnly` unset or the role "admin") it issues no navigation and renders
its children. Neither the effect nor the render throws. -/
theorem ProtectedRoute_decision (user : JVal) (adminOnly : Bool) :
    (isAuthenticated user = .ok false →
      ProtectedRoute.effect user false adminOnly = .ok ["/login"] ∧
      ProtectedRoute.render user false adminOnly = .ok .nothing) ∧
    (isAuthenticated user = .ok true ∧ user.member "role" ≠ .str "admin" ∧
        adminOnly = true →
      ProtectedRoute.effect user false adminOnly = .ok ["/user/dashboard"] ∧
      ProtectedRoute.render user false adminOnly = .ok .nothing) ∧
    (isAuthenticated user = .ok true ∧
        (adminOnly = false ∨ user.member "role" = .str "admin") →
      ProtectedRoute.effect user false adminOnly = .ok [] ∧
      ProtectedRoute.render user false adminOnly = .ok .children) ∧
    (isAuthenticated user = .ok false ∨ isAuthenticated user = .ok true) := by
  refine ⟨?_, ?_, ?_, ?_⟩
  · intro h
    simp [ProtectedRoute.effect, ProtectedRoute.render, h]
  · rintro ⟨h, hrole, rfl⟩
    simp [ProtectedRoute.effect, ProtectedRoute.render, h, isAdmin_false_of_role user hrole]
  · rintro ⟨h, hcase⟩
    rcases hcase with rfl | hrole
    · simp [ProtectedRoute.effect, ProtectedRoute.render, h]
    · have hadmin : isAdmin user = .ok true := by
        rw [isAdmin_eq]
        rw [isAuthenticated_eq] at h
        simp only [Except.ok.injEq] at h
        simp [h, hrole, JVal.strictEqStr]
      cases adminOnly <;> simp [ProtectedRoute.effect, ProtectedRoute.render, h, hadmin]
  · rw [isAuthenticated_eq]
    cases (user.truthy && (user.member "token").truthy) <;> simp

/-! ## Claims on initialization from storage -/

/-- C8 (as stated, refuted): the empty string fails to deserialize, yet
initialization leaves that record in storage. -/
theorem initEffect_keeps_empty_record :
    (∃ e, JSONparse (.invalid "") = .error e) ∧
    (initEffect (World.start (some (.invalid "")))).storage = some (.invalid "") :=
  ⟨⟨_, rfl⟩, rfl⟩

/-- C8 (amended): for every stored record that fails to deserialize,
initialization ends (it is a total function, nothing is thrown), the session in
memory stays absent and the loading state is finished; the record is removed
from storage when it is not the empty string, and the empty string, which the
guard of line 29 takes for no record, is left in place. -/
theorem initEffect_malformed (t : JText) (e : JSError) (hparse : JSONparse t = .error e) :
    (initEffect (World.start (some t))).user = .null ∧
    (initEffect (World.start (some t))).loading = false ∧
    (t.truthy = true → (initEffect (World.start (some t))).storage = none) ∧
    (t.truthy = false → (initEffect (World.start (some t))).storage = some t) := by
  cases t with
  | json v => simp [JSONparse] at hparse
  | invalid raw =>
    by_cases hraw : raw = ""
    · subst hraw
      simp [initEffect, World.start, JText.truthy]
    · simp [initEffect, World.start, JText.truthy, hraw, JSONparse, World.consoleError]

theorem initEffect_malformed_witness :
    (initEffect (World.start (some (.invalid "not json")))).user = .null ∧
    (initEffect (World.start (some (.invalid "not json")))).loading = false ∧
    (initEffect (World.start (some (.invalid "not json")))).storage = none :=
  have h := initEffect_malformed (.invalid "not json") _ rfl
  ⟨h.1, h.2.1, h.2.2.1 (by decide)⟩

/-! ## What a login leaves behind -/

/-- A login that returns a session was answered with an ok status and a JSON
body other than `null`; its session is the `userData` literal, which it holds in
memory and has written to storage through `JSON.stringify`. -/
theorem login_ok (w : World) (credentials role : JVal) (net : FetchOutcome) (X : JVal)
    (h : (login w credentials role net).1 = .ok X) :
    ∃ r data, net = .responds r ∧ r.ok = true ∧ r.body = some data ∧
      X = userDataOf (data.member "user") (data.member "token") role ∧
      (login w credentials role net).2.user = X ∧
      (login w credentials role net).2.storage = some (.json X.toJSONValue) := by
  cases net with
  | rejects e => simp [login, loginTry] at h
  | responds r =>
    refine ⟨r, ?_⟩
    cases hok : r.ok with
    | false =>
      simp only [login, loginTry, hok] at h
      cases hj : r.json with
      | error e => simp [hj] at h
      | ok errorData =>
        cases hm : JVal.getProp errorData "message" <;> simp [hj, hm] at h
    | true =>
      cases hbody : r.body with
      | none => simp [login, loginTry, hok, Response.json, hbody] at h
      | some data =>
        refine ⟨data, rfl, rfl, rfl, ?_⟩
        cases data with
        | undefined => simp [login, loginTry, hok, Response.json, hbody, JVal.getProp] at h
        | null => simp [login, loginTry, hok, Response.json, hbody, JVal.getProp] at h
        | bool _ | num _ | str _ | arr _ | obj _ =>
          simp only [login, loginTry, hok, Response.json, hbody, JVal.getProp] at h ⊢
          by_cases hr : role.strictEqStr "admin" = true <;>
            simp [hr, World.push, World.toast, World.call] at h ⊢ <;>
            subst h <;>
            simp [userDataOf, JSONstringify, storedString]

/-! ## JSON values survive `JSON.stringify` -/

namespace JVal

mutual
theorem toJSONValue_of_isJSON : ∀ v : JVal, isJSON v = true → toJSONValue v = v
  | undefined, h => by simp [isJSON] at h
  | null, _ => rfl
  | bool _, _ => rfl
  | num _, _ => rfl
  | str _, _ => rfl
  | arr xs, h => by
    simp only [isJSON] at h
    simp [toJSONValue, toJSONElems_of_isJSON xs h]
  | obj ms, h => by
    simp only [isJSON] at h
    simp [toJSONValue, toJSONMembers_of_isJSON ms h]
theorem toJSONElems_of_isJSON : ∀ xs : List JVal, isJSONElems xs = true → toJSONElems xs = xs
  | [], _ => rfl
  | x :: xs, h => by
    simp only [isJSONElems, Bool.and_eq_true] at h
    have hx := toJSONValue_of_isJSON x h.1
    have hxs := toJSONElems_of_isJSON xs h.2
    cases x <;> simp_all [toJSONElems, isJSON]
theorem toJSONMembers_of_isJSON :
    ∀ ms : List (String × JVal), isJSONMembers ms = true → toJSONMembers ms = ms
  | [], _ => rfl
  | (k, v) :: ms, h => by
    simp only [isJSONMembers, Bool.and_eq_true] at h
    have hv := toJSONValue_of_isJSON v h.1
    have hms := toJSONMembers_of_isJSON ms h.2
    cases v <;> simp_all [toJSONMembers, isJSON]
end

theorem isJSONMembers_append (ms ns : List (String × JVal)) :
    isJSONMembers (ms ++ ns) = (isJSONMembers ms && isJSONMembers ns) := by
  induction ms with
  | nil => simp [isJSONMembers]
  | cons p ms ih => simp [isJSONMembers, ih, Bool.and_assoc]

theorem isJSONMembers_objSet (ms : List (String × JVal)) (k : String) (v : JVal)
    (hms : isJSONMembers ms = true) (hv : isJSON v = true) :
    isJSONMembers (objSet ms k v) = true := by
  unfold objSet
  by_cases h : hasKey k ms = true
  · simp only [h, if_true]
    clear h
    induction ms with
    | nil => rfl
    | cons p ms ih =>
      simp only [isJSONMembers, Bool.and_eq_true] at hms
      simp only [List.map_cons, isJSONMembers, Bool.and_eq_true]
      refine ⟨?_, ih hms.2⟩
      by_cases hp : p.1 = k
      · simp [hp, hv]
      · simp [hp, hms.1]
  · simp only [h, if_false, Bool.false_eq_true]
    rw [isJSONMembers_append, hms]
    simp [isJSONMembers, hv]

theorem isJSONMembers_foldl_objSet (es ms : List (String × JVal))
    (hes : isJSONMembers es = true) (hms : isJSONMembers ms = true) :
    isJSONMembers (es.foldl (fun acc kv => objSet acc kv.1 kv.2) ms) = true := by
  induction es generalizing ms with
  | nil => exact hms
  | cons e es ih =>
    simp only [isJSONMembers, Bool.and_eq_true] at hes
    exact ih _ hes.2 (isJSONMembers_objSet ms e.1 e.2 hms hes.1)

theorem isJSONMembers_indexed (i : Nat) (xs : List JVal) (h : isJSONElems xs = true) :
    isJSONMembers (indexed i xs) = true := by
  induction xs generalizing i with
  | nil => rfl
  | cons x xs ih =>
    simp only [isJSONElems, Bool.and_eq_true] at h
    simp [indexed, isJSONMembers, h.1, ih (i + 1) h.2]

theorem isJSONElems_map_str (cs : List Char) :
    isJSONElems (cs.map fun c => str (String.singleton c)) = true := by
  induction cs with
  | nil => rfl
  | cons c cs ih => simp [isJSONElems, isJSON, ih]

/-- The members that a spread copies out of a JSON value, or out of
`undefined`, are JSON values. -/
theorem isJSONMembers_ownEntries (v : JVal) (h : v = undefined ∨ isJSON v = true) :
    isJSONMembers (ownEntries v) = true := by
  cases v with
  | arr xs =>
    have hx : isJSONElems xs = true := by simpa [isJSON] using h
    exact isJSONMembers_indexed 0 xs hx
  | obj ms => simpa [isJSON, ownEntries] using h
  | str s => exact isJSONMembers_indexed 0 _ (isJSONElems_map_str s.toList)
  | undefined => rfl
  | null => rfl
  | bool _ => rfl
  | num _ => rfl

theorem lookup_isJSON (k : String) (ms : List (String × JVal))
    (h : isJSONMembers ms = true) :
    lookup k ms = undefined ∨ isJSON (lookup k ms) = true := by
  induction ms with
  | nil => exact Or.inl rfl
  | cons p ms ih =>
    simp only [isJSONMembers, Bool.and_eq_true] at h
    simp only [lookup]
    by_cases hk : hasKey k ms = true
    · simpa [hk] using ih h.2
    · by_cases hp : p.1 = k
      · simp [hk, hp, h.1]
      · simp [hk, hp]

/-- A member read off a JSON value is a JSON value, or `undefined` when the
value has no such member. -/
theorem member_isJSON (v : JVal) (k : String) (h : isJSON v = true) :
    member v k = undefined ∨ isJSON (member v k) = true :=
  lookup_isJSON k _ (isJSONMembers_ownEntries v (Or.inr h))

end JVal

/-- The session built by `login` from a JSON response that carries a token,
with a JSON value for the role, holds no `undefined`. -/
theorem userDataOf_isJSON (data role : JVal) (hdata : data.isJSON = true)
    (htoken : data.member "token" ≠ .undefined) (hrole : role.isJSON = true) :
    (userDataOf (data.member "user") (data.member "token") role).isJSON = true := by
  have ht : (data.member "token").isJSON = true := by
    rcases JVal.member_isJSON data "token" hdata with h | h
    · exact absurd h htoken
    · exact h
  simp only [userDataOf, JVal.isJSON]
  refine JVal.isJSONMembers_objSet _ _ _ (JVal.isJSONMembers_objSet _ _ _ ?_ ht) hrole
  exact JVal.isJSONMembers_foldl_objSet _ _
    (JVal.isJSONMembers_ownEntries _ (JVal.member_isJSON data "user" hdata)) rfl

/-! ## Claims on the round trip through storage -/

/-- Whatever session a login returns, a fresh provider initialized from the
storage that the login left behind holds what `JSON.stringify` keeps of it. -/
theorem login_restart_stored (w : World) (credentials role : JVal)
    (net : FetchOutcome) (X : JVal)
    (hlogin : (login w credentials role net).1 = .ok X) :
    (initEffect (World.start (login w credentials role net).2.storage)).user =
      X.toJSONValue := by
  obtain ⟨r, data, _, _, _, _, _, hst⟩ := login_ok w credentials role net X hlogin
  rw [hst]
  rfl

/-- A login answered with an ok status and a JSON body that carries a token
returns the `userData` literal. -/
theorem login_returns (w : World) (credentials role : JVal) (r : Response) (data : JVal)
    (hok : r.ok = true) (hbody : r.body = some data)
    (htoken : data.member "token" ≠ .undefined) :
    (login w credentials role (.responds r)).1 =
      .ok (userDataOf (data.member "user") (data.member "token") role) := by
  cases data with
  | undefined => exact absurd rfl htoken
  | null => exact absurd rfl htoken
  | bool _ | num _ | str _ | arr _ | obj _ =>
    simp only [login, loginTry, hok, Response.json, hbody, JVal.getProp]
    by_cases hr : role.strictEqStr "admin" = true <;> simp [hr]

/-- C9: round trip. A login answered with an ok status and a JSON body that
carries a token, for a role that is a JSON value (the screens pass "user" or
"admin"), returns a session X: the members of the user of the response, the
token and the role. A JSON body is one in which `undefined` occurs nowhere; its
numbers are whole numbers, as the ids of the service are. The login holds X in
memory and has written the text
`JSON.stringify(X)` to durable storage, and a fresh provider initialized from
that storage holds a session equal to X, with the same members, in the same
order, with the same values, and has ended its loading state. -/
theorem login_restart_roundtrip (w : World) (credentials role : JVal) (r : Response)
    (data : JVal) (hok : r.ok = true) (hbody : r.body = some data)
    (hdata : data.isJSON = true) (htoken : data.member "token" ≠ .undefined)
    (hrole : role.isJSON = true) :
    ∃ X : JVal, (login w credentials role (.responds r)).1 = .ok X ∧
      X = userDataOf (data.member "user") (data.member "token") role ∧
      (login w credentials role (.responds r)).2.user = X ∧
      (login w credentials role (.responds r)).2.storage = some (.json X) ∧
      (initEffect (World.start (login w credentials role (.responds r)).2.storage)).user = X ∧
      (initEffect (World.start
        (login w credentials role (.responds r)).2.storage)).loading = false := by
  have hX := login_returns w credentials role r data hok hbody htoken
  have hjson := userDataOf_isJSON data role hdata htoken hrole
  obtain ⟨_, _, _, _, _, _, hmem, hst⟩ := login_ok w credentials role (.responds r) _ hX
  rw [JVal.toJSONValue_of_isJSON _ hjson] at hst
  refine ⟨_, hX, rfl, hmem, hst, ?_, ?_⟩
  · rw [login_restart_stored w credentials role (.responds r) _ hX,
      JVal.toJSONValue_of_isJSON _ hjson]
  · rw [hst]
    rfl

theorem login_restart_roundtrip_witness :
    ∃ X : JVal, (login (World.start none)
        (.obj [("username", .str "ann"), ("password", .str "pw")]) (.str "user")
        (.responds { status := 200, body := some (.obj [
          ("user", .obj [("id", .num 1), ("username", .str "ann"), ("email", .str "a@b.c")]),
          ("token", .str "t0k")]) })).1 = .ok X ∧
      X = .obj [("id", .num 1), ("username", .str "ann"), ("email", .str "a@b.c"),
        ("token", .str "t0k"), ("role", .str "user")] ∧
      (initEffect (World.start (login (World.start none)
        (.obj [("username", .str "ann"), ("password", .str "pw")]) (.str "user")
        (.responds { status := 200, body := some (.obj [
          ("user", .obj [("id", .num 1), ("username", .str "ann"), ("email", .str "a@b.c")]),
          ("token", .str "t0k")]) })).2.storage)).user = X := by
  obtain ⟨X, h1, h2, _, _, h5, _⟩ := login_restart_roundtrip (World.start none)
    (.obj [("username", .str "ann"), ("password", .str "pw")]) (.str "user")
    { status := 200, body := some (.obj [
      ("user", .obj [("id", .num 1), ("username", .str "ann"), ("email", .str "a@b.c")]),
      ("token", .str "t0k")]) }
    (.obj [("user", .obj [("id", .num 1), ("username", .str "ann"), ("email", .str "a@b.c")]),
      ("token", .str "t0k")])
    rfl rfl rfl (fun h => JVal.noConfusion (show JVal.str "t0k" = .undefined from h)) rfl
  exact ⟨X, h1, h2.trans rfl, h5⟩

/-! ## The session invariant -/

namespace JVal

theorem toJSONValue_eq_undefined (v : JVal) (h : toJSONValue v = undefined) :
    v = undefined := by
  cases v <;> simp_all [toJSONValue]

theorem truthy_toJSONValue (v : JVal) : (toJSONValue v).truthy = v.truthy := by
  cases v <;> simp [toJSONValue, truthy]

theorem isGiven_toJSONValue (v : JVal) : (toJSONValue v).isGiven = v.isGiven := by
  cases v <;> simp [toJSONValue, isGiven]

theorem toJSONMembers_cons_undefined (p : String × JVal) (ms : List (String × JVal))
    (h : p.2 = undefined) : toJSONMembers (p :: ms) = toJSONMembers ms := by
  obtain ⟨k, v⟩ := p
  simp only at h
  subst h
  simp [toJSONMembers]

theorem toJSONMembers_cons_defined (p : String × JVal) (ms : List (String × JVal))
    (h : p.2 ≠ undefined) :
    toJSONMembers (p :: ms) = (p.1, toJSONValue p.2) :: toJSONMembers ms := by
  obtain ⟨k, v⟩ := p
  cases v <;> simp_all [toJSONMembers]

theorem hasKey_toJSONMembers (k : String) (ms : List (String × JVal))
    (h : hasKey k (toJSONMembers ms) = true) : hasKey k ms = true := by
  induction ms with
  | nil => simpa [toJSONMembers] using h
  | cons p ms ih =>
    rw [hasKey_cons]
    by_cases hp : p.2 = undefined
    · rw [toJSONMembers_cons_undefined p ms hp] at h
      simp [ih h]
    · rw [toJSONMembers_cons_defined p ms hp] at h
      simp only [hasKey_cons, Bool.or_eq_true, decide_eq_true_eq] at h
      rcases h with h | h
      · simp [h]
      · simp [ih h]

/-- A member with a value other than `undefined` is written by
`JSON.stringify`, as the written form of that value. -/
theorem lookup_toJSONMembers (k : String) (ms : List (String × JVal))
    (h : lookup k ms ≠ undefined) :
    lookup k (toJSONMembers ms) = toJSONValue (lookup k ms) := by
  induction ms with
  | nil => simp [lookup] at h
  | cons p ms ih =>
    simp only [lookup] at h ⊢
    by_cases hk : hasKey k ms = true
    · simp only [hk, if_true] at h ⊢
      have hrest := ih h
      have hkey : hasKey k (toJSONMembers ms) = true := by
        by_contra hno
        simp only [Bool.not_eq_true] at hno
        rw [lookup_of_not_hasKey k _ hno] at hrest
        exact h (toJSONValue_eq_undefined _ hrest.symm)
      by_cases hp : p.2 = undefined
      · rw [toJSONMembers_cons_undefined p ms hp, hrest]
      · rw [toJSONMembers_cons_defined p ms hp]
        simp [lookup, hkey, hrest]
    · have hno : hasKey k (toJSONMembers ms) = false := by
        rw [← Bool.not_eq_true]
        exact fun hyes => hk (hasKey_toJSONMembers k ms hyes)
      simp only [hk, Bool.false_eq_true, if_false] at h ⊢
      by_cases hpk : p.1 = k
      · simp only [hpk, if_true] at h
        rw [toJSONMembers_cons_defined p ms h]
        simp [lookup, hno, hpk]
      · simp [hpk] at h

end JVal

theorem ne_undefined_of_isGiven (v : JVal) (h : v.isGiven = true) : v ≠ .undefined := by
  rintro rfl
  simp [JVal.isGiven] at h

theorem ne_undefined_of_truthy (v : JVal) (h : v.truthy = true) : v ≠ .undefined := by
  rintro rfl
  simp [JVal.truthy] at h

/-- The members of the `userData` literal: the token and the role as given,
every other name as `data.user` binds it. -/
theorem member_userDataOf (dataUser dataToken role : JVal) (k : String) :
    (userDataOf dataUser dataToken role).member k =
      if k = "role" then role else if k = "token" then dataToken else dataUser.member k := by
  have hobj : ∀ ms, JVal.ownEntries (.obj ms) = ms := fun _ => rfl
  simp only [userDataOf, JVal.member, hobj]
  by_cases hr : k = "role"
  · subst hr
    simp [JVal.lookup_objSet_same]
  · rw [JVal.lookup_objSet_other k "role" _ _ (Ne.symm hr)]
    by_cases ht : k = "token"
    · subst ht
      simp [JVal.lookup_objSet_same]
    · rw [JVal.lookup_objSet_other k "token" _ _ (Ne.symm ht), JVal.lookup_objSpread_nil]
      simp [hr, ht, JVal.member]

theorem fullyPopulated_userDataOf (data role : JVal) (h : loginBodyComplete data = true) :
    fullyPopulated (userDataOf (data.member "user") (data.member "token") role) = true := by
  simp only [loginBodyComplete, Bool.and_eq_true] at h
  simp only [fullyPopulated, member_userDataOf, Bool.and_eq_true]
  simpa using h

/-- A fully populated session object is written to storage fully populated. -/
theorem fullyPopulated_toJSONValue_obj (ms : List (String × JVal))
    (h : fullyPopulated (.obj ms) = true) :
    fullyPopulated (JVal.toJSONValue (.obj ms)) = true := by
  simp only [fullyPopulated, JVal.member, JVal.ownEntries, Bool.and_eq_true,
    JVal.toJSONValue] at h ⊢
  obtain ⟨⟨⟨h1, h2⟩, h3⟩, h4⟩ := h
  rw [JVal.lookup_toJSONMembers "id" ms (ne_undefined_of_isGiven _ h1),
    JVal.lookup_toJSONMembers "username" ms (ne_undefined_of_isGiven _ h2),
    JVal.lookup_toJSONMembers "email" ms (ne_undefined_of_isGiven _ h3),
    JVal.lookup_toJSONMembers "token" ms (ne_undefined_of_truthy _ h4)]
  simp [JVal.isGiven_toJSONValue, JVal.truthy_toJSONValue, h1, h2, h3, h4]

/-- A login that fails leaves the session and the storage as they were. -/
theorem login_error_keeps (w : World) (credentials role : JVal) (net : FetchOutcome)
    (e : JSError) (h : (login w credentials role net).1 = .error e) :
    (login w credentials role net).2.user = w.user ∧
    (login w credentials role net).2.storage = w.storage := by
  cases net with
  | rejects e => simp [login, loginTry, World.call, World.toast]
  | responds r =>
    cases hok : r.ok with
    | false =>
      cases hj : r.json with
      | error e => simp [login, loginTry, hok, hj, World.call, World.toast]
      | ok errorData =>
        cases hm : JVal.getProp errorData "message" <;>
          simp [login, loginTry, hok, hj, hm, World.call, World.toast]
    | true =>
      cases hbody : r.body with
      | none => simp [login, loginTry, hok, Response.json, hbody, World.call, World.toast]
      | some data =>
        cases data with
        | undefined =>
          simp [login, loginTry, hok, Response.json, hbody, JVal.getProp, World.call,
            World.toast]
        | null =>
          simp [login, loginTry, hok, Response.json, hbody, JVal.getProp, World.call,
            World.toast]
        | bool _ | num _ | str _ | arr _ | obj _ =>
          simp only [login, loginTry, hok, Response.json, hbody, JVal.getProp] at h
          by_cases hr : role.strictEqStr "admin" = true <;> simp [hr] at h

/-- A gateway call leaves the session and the storage as they were, or clears
both. -/
theorem fetchWithAuth_keeps_or_clears (w : World) (url : String) (options : JVal)
    (net : FetchOutcome) :
    ((fetchWithAuth w url options net).2.user = w.user ∧
      (fetchWithAuth w url options net).2.storage = w.storage) ∨
    ((fetchWithAuth w url options net).2.user = .null ∧
      (fetchWithAuth w url options net).2.storage = none) := by
  cases hreq : fetchWithAuthRequest w.user url options with
  | error e => simp [fetchWithAuth, hreq]
  | ok c =>
    cases net with
    | rejects e => simp [fetchWithAuth, hreq, World.call, World.consoleError]
    | responds r =>
      by_cases h : r.status = 401 <;>
        simp [fetchWithAuth, hreq, h, logout, World.push, World.toast, World.call,
          World.consoleError]

theorem absentOrFull_iff (user : JVal) :
    absentOrFull user = true ↔ user = .null ∨ fullyPopulated user = true := by
  cases user <;> simp [absentOrFull, fullyPopulated, JVal.member, JVal.ownEntries,
    JVal.lookup, JVal.isGiven]

/-- Initialization over a storage that holds an absent or fully populated
session yields such a session, and keeps such a storage. -/
theorem initEffect_start_absentOrFull (stored : Option JText)
    (h : storedAbsentOrFull stored = true) :
    absentOrFull (initEffect (World.start stored)).user = true ∧
    storedAbsentOrFull (initEffect (World.start stored)).storage = true := by
  cases stored with
  | none => exact ⟨rfl, rfl⟩
  | some t =>
    cases t with
    | json v => exact ⟨h, h⟩
    | invalid raw =>
      by_cases hraw : raw = "" <;>
        simp [initEffect, World.start, JText.truthy, JSONparse, World.consoleError, hraw,
          absentOrFull, storedAbsentOrFull]

/-- Along every run in which storage starts with an absent or fully populated
session and every login is served a complete body, the session in memory and the
record in storage are both absent or fully populated. -/
theorem reachable_invariant (stored : Option JText) (served : FetchOutcome → Bool)
    (w : World) (hstored : storedAbsentOrFull stored = true)
    (hserved : ∀ net, served net = true → completeLogin net = true)
    (h : Reachable stored served w) :
    absentOrFull w.user = true ∧ storedAbsentOrFull w.storage = true := by
  induction h with
  | start => exact ⟨rfl, hstored⟩
  | mount => exact initEffect_start_absentOrFull stored hstored
  | reload w _ ih => exact initEffect_start_absentOrFull w.storage ih.2
  | login w credentials role net _ hnet ih =>
    cases hres : (login w credentials role net).1 with
    | error e =>
      obtain ⟨hu, hs⟩ := login_error_keeps w credentials role net e hres
      rw [hu, hs]
      exact ih
    | ok X =>
      obtain ⟨r, data, hresp, hok, hbody, hX, hu, hs⟩ :=
        login_ok w credentials role net X hres
      have hcomplete : loginBodyComplete data = true := by
        have hc := hserved net hnet
        rw [hresp] at hc
        simpa [completeLogin, hok, hbody] using hc
      have hfull : fullyPopulated X = true := by
        rw [hX]
        exact fullyPopulated_userDataOf data role hcomplete
      rw [hu, hs]
      refine ⟨(absentOrFull_iff X).2 (Or.inr hfull), ?_⟩
      rw [hX] at hfull ⊢
      exact (absentOrFull_iff _).2 (Or.inr (fullyPopulated_toJSONValue_obj _ hfull))
  | logout w _ _ => exact ⟨rfl, rfl⟩
  | gateway w url options net _ ih =>
    rcases fetchWithAuth_keeps_or_clears w url options net with ⟨hu, hs⟩ | ⟨hu, hs⟩
    · rw [hu, hs]
      exact ih
    · rw [hu, hs]
      exact ⟨rfl, rfl⟩

/-! ## Claims on the session invariant -/

/-- C10 (as stated, refuted): a session that is neither absent nor fully
populated is reachable, both by initialization from a stored record that is
valid JSON but not a session (the text of the empty object), and by a login that
is answered ok with a body that lacks the token and part of the identity. -/
theorem reachable_partly_populated :
    Reachable (some (.json (.obj []))) (fun _ => true)
      (initEffect (World.start (some (.json (.obj []))))) ∧
    (initEffect (World.start (some (.json (.obj []))))).user = .obj [] ∧
    absentOrFull (.obj []) = false ∧
    Reachable none (fun _ => true)
      (login (initEffect (World.start none))
        (.obj [("username", .str "ann"), ("password", .str "pw")]) (.str "user")
        (.responds { status := 200,
                     body := some (.obj [("user", .obj [("id", .num 1)])]) })).2 ∧
    (login (initEffect (World.start none))
        (.obj [("username", .str "ann"), ("password", .str "pw")]) (.str "user")
        (.responds { status := 200,
                     body := some (.obj [("user", .obj [("id", .num 1)])]) })).2.user =
      .obj [("id", .num 1), ("token", .undefined), ("role", .str "user")] ∧
    absentOrFull (.obj [("id", .num 1), ("token", .undefined), ("role", .str "user")]) =
      false :=
  ⟨Reachable.mount, rfl, by decide, Reachable.login _ _ _ _ Reachable.mount rfl, rfl,
    by decide⟩

/-- C10 (amended): in every state reachable from process start through
initialization from storage, page reloads, logins, logouts and gateway calls
(a 401 among their outcomes), the session in memory is absent or fully populated
with identity (`id`, `username`, `email`) and a truthy token, provided that the
record found in storage at process start is not a JSON text or reads as an
absent or fully populated session, and that every login answered ok with a JSON
body is answered with a user carrying `id`, `username` and `email` and with a
truthy token. -/
theorem reachable_absentOrFull (stored : Option JText) (served : FetchOutcome → Bool)
    (w : World) (hstored : storedAbsentOrFull stored = true)
    (hserved : ∀ net, served net = true → completeLogin net = true)
    (h : Reachable stored served w) :
    w.user = .null ∨ fullyPopulated w.user = true :=
  (absentOrFull_iff w.user).1 (reachable_invariant stored served w hstored hserved h).1

theorem reachable_absentOrFull_witness :
    (fetchWithAuth
        (login (initEffect (World.start (some (.invalid "not json"))))
          (.obj [("username", .str "ann"), ("password", .str "pw")]) (.str "admin")
          (.responds { status := 200, body := some (.obj [
            ("user", .obj [("id", .num 1), ("username", .str "ann"),
              ("email", .str "a@b.c")]),
            ("token", .str "t0k")]) })).2
        "/admin/rooms" .undefined (.responds { status := 403, body := none })).2.user =
      .null ∨
    fullyPopulated
      (fetchWithAuth
        (login (initEffect (World.start (some (.invalid "not json"))))
          (.obj [("username", .str "ann"), ("password", .str "pw")]) (.str "admin")
          (.responds { status := 200, body := some (.obj [
            ("user", .obj [("id", .num 1), ("username", .str "ann"),
              ("email", .str "a@b.c")]),
            ("token", .str "t0k")]) })).2
        "/admin/rooms" .undefined (.responds { status := 403, body := none })).2.user =
      true :=
  reachable_absentOrFull (some (.invalid "not json")) completeLogin _ rfl
    (fun _ hnet => hnet)
    (Reachable.gateway _ "/admin/rooms" .undefined
      (.responds { status := 403, body := none })
      (Reachable.login _
        (.obj [("username", .str "ann"), ("password", .str "pw")]) (.str "admin")
        (.responds { status := 200, body := some (.obj [
          ("user", .obj [("id", .num 1), ("username", .str "ann"),
            ("email", .str "a@b.c")]),
          ("token", .str "t0k")]) })
        Reachable.mount rfl))

/-! ## Claims on the session a login creates -/

/-- A login answered ok with a JSON body other than `null` returns the
`userData` literal. -/
theorem login_succeeds (w : World) (credentials role : JVal) (r : Response) (data : JVal)
    (hok : r.ok = true) (hbody : r.body = some data)
    (hnull : data ≠ .null) (hundef : data ≠ .undefined) :
    (login w credentials role (.responds r)).1 =
      .ok (userDataOf (data.member "user") (data.member "token") role) := by
  cases data with
  | undefined => exact absurd rfl hundef
  | null => exact absurd rfl hnull
  | bool _ | num _ | str _ | arr _ | obj _ =>
    simp only [login, loginTry, hok, Response.json, hbody, JVal.getProp]
    by_cases hr : role.strictEqStr "admin" = true <;> simp [hr]

/-- C11: after a login with role r that is answered ok with a body
`{user: u, token: t}` (a JSON value with a `token` member; r a JSON value such as
"user" or "admin"), `login` returns a session X, the session in memory is X, and
the record in storage deserializes to X; the token of X is t, its role is r, and
every other member of X is the member of u of that name, so a `token` or `role`
member of u is overridden. -/
theorem login_session (w : World) (credentials role : JVal) (r : Response) (data : JVal)
    (hok : r.ok = true) (hbody : r.body = some data) (hdata : data.isJSON = true)
    (htoken : data.member "token" ≠ .undefined) (hrole : role.isJSON = true) :
    ∃ X stored,
      (login w credentials role (.responds r)).1 = .ok X ∧
      (login w credentials role (.responds r)).2.user = X ∧
      (login w credentials role (.responds r)).2.storage = some stored ∧
      JSONparse stored = .ok X ∧
      X.member "token" = data.member "token" ∧
      X.member "role" = role ∧
      (∀ k, k ≠ "token" → k ≠ "role" → X.member k = (data.member "user").member k) := by
  have hnull : data ≠ .null := by
    rintro rfl
    exact htoken rfl
  have hundef : data ≠ .undefined := by
    rintro rfl
    exact htoken rfl
  have hres := login_succeeds w credentials role r data hok hbody hnull hundef
  obtain ⟨r', data', hnet, _, hbody', hX, hu, hs⟩ :=
    login_ok w credentials role (.responds r) _ hres
  have hjson := userDataOf_isJSON data role hdata htoken hrole
  refine ⟨_, _, hres, hu, hs, ?_, ?_, ?_, ?_⟩
  · rw [JVal.toJSONValue_of_isJSON _ hjson]
    rfl
  · rw [member_userDataOf]
    simp
  · rw [member_userDataOf]
    simp
  · intro k ht hr
    rw [member_userDataOf]
    simp [ht, hr]

theorem login_session_witness :
    ∃ X stored,
      (login (World.start none)
        (.obj [("username", .str "ann"), ("password", .str "pw")]) (.str "admin")
        (.responds { status := 200, body := some (.obj [
          ("user", .obj [("id", .num 1), ("username", .str "ann"), ("role", .str "guest")]),
          ("token", .str "t0k")]) })).1 = .ok X ∧
      (login (World.start none)
        (.obj [("username", .str "ann"), ("password", .str "pw")]) (.str "admin")
        (.responds { status := 200, body := some (.obj [
          ("user", .obj [("id", .num 1), ("username", .str "ann"), ("role", .str "guest")]),
          ("token", .str "t0k")]) })).2.storage = some stored ∧
      JSONparse stored = .ok X ∧
      X.member "role" = .str "admin" := by
  obtain ⟨X, stored, h1, _, h3, h4, _, h6, _⟩ :=
    login_session (World.start none)
      (.obj [("username", .str "ann"), ("password", .str "pw")]) (.str "admin")
      { status := 200, body := some (.obj [
        ("user", .obj [("id", .num 1), ("username", .str "ann"), ("role", .str "guest")]),
        ("token", .str "t0k")]) }
      (.obj [("user", .obj [("id", .num 1), ("username", .str "ann"), ("role", .str "guest")]),
        ("token", .str "t0k")])
      rfl rfl rfl (by simp [JVal.member, JVal.ownEntries, JVal.lookup, JVal.hasKey]) rfl
  exact ⟨X, stored, h1, h3, h4, h6⟩

/-! ## The Number value of a rational -/

theorem roundHalfEven_intCast (z : ℤ) : JSNum.roundHalfEven (z : ℚ) = z := by
  simp [JSNum.roundHalfEven]

theorem floor_le_roundHalfEven (q : ℚ) : ⌊q⌋ ≤ JSNum.roundHalfEven q := by
  unfold JSNum.roundHalfEven
  split_ifs <;> omega

theorem ofRat_of_dyadic (m j : ℤ) (hj : -1074 ≤ j) (hm : |m| < 2 ^ 53)
    (hq : |(m : ℚ) * 2 ^ j| < 2 ^ (1024 : ℕ)) :
    JSNum.ofRat ((m : ℚ) * 2 ^ j) = .finite ((m : ℚ) * 2 ^ j) := by
  have h2 : (0 : ℚ) < 2 := by norm_num
  by_cases hm0 : m = 0
  · simp [JSNum.ofRat, hm0]
  have hq0 : (m : ℚ) * 2 ^ j ≠ 0 := by
    have : (2 : ℚ) ^ j ≠ 0 := zpow_ne_zero _ (by norm_num)
    exact mul_ne_zero (by exact_mod_cast hm0) this
  have habs : |(m : ℚ) * 2 ^ j| = ((|m| : ℤ) : ℚ) * 2 ^ j := by
    rw [abs_mul, abs_of_pos (zpow_pos h2 j)]
    push_cast
    rfl
  have hpos : 0 < |(m : ℚ) * 2 ^ j| := abs_pos.mpr hq0
  have hlog : Int.log 2 |(m : ℚ) * 2 ^ j| < 53 + j := by
    rw [← Int.lt_zpow_iff_log_lt (by norm_num) hpos, habs]
    have : ((|m| : ℤ) : ℚ) < 2 ^ (53 : ℤ) := by
      have h53 : (2 : ℚ) ^ (53 : ℤ) = ((2 ^ 53 : ℤ) : ℚ) := by norm_num
      rw [h53]
      exact_mod_cast hm
    calc ((|m| : ℤ) : ℚ) * 2 ^ j < 2 ^ (53 : ℤ) * 2 ^ j :=
          mul_lt_mul_of_pos_right this (zpow_pos h2 j)
      _ = ((2 : ℕ) : ℚ) ^ (53 + j) := by
          rw [zpow_add₀ (by norm_num)]
          norm_num
  set k : ℤ := max (Int.log 2 |(m : ℚ) * 2 ^ j| - 52) (-1074) with hk
  have hkj : k ≤ j := by
    rw [hk]
    exact max_le (by omega) hj
  obtain ⟨d, hd⟩ : ∃ d : ℕ, j = k + d := ⟨(j - k).toNat, by omega⟩
  have hdiv : |(m : ℚ) * 2 ^ j| / 2 ^ k = ((|m| * 2 ^ d : ℤ) : ℚ) := by
    rw [habs, hd, zpow_add₀ (by norm_num)]
    have : (2 : ℚ) ^ k ≠ 0 := zpow_ne_zero _ (by norm_num)
    field_simp
    ring
  have hv : (JSNum.roundHalfEven (|(m : ℚ) * 2 ^ j| / 2 ^ k) : ℚ) * 2 ^ k = |(m : ℚ) * 2 ^ j| := by
    rw [hdiv, roundHalfEven_intCast, habs, hd, zpow_add₀ (by norm_num), zpow_natCast]
    push_cast
    ring
  unfold JSNum.ofRat
  rw [if_neg hq0]
  simp only []
  rw [← hk, hv, if_neg (not_le.mpr hq)]
  congr 1
  by_cases hs : 0 < (m : ℚ) * 2 ^ j
  · rw [if_pos hs, abs_of_pos hs]
  · rw [if_neg hs, abs_of_nonpos (not_lt.mp hs), neg_neg]

theorem ofRat_intCast (n : ℤ) (h : |n| < 2 ^ 53) : JSNum.ofRat (n : ℚ) = .finite n := by
  have := ofRat_of_dyadic n 0 (by norm_num) h (by
    simp only [zpow_zero, mul_one]
    have h1 : ((|n| : ℤ) : ℚ) < ((2 ^ 53 : ℤ) : ℚ) := by exact_mod_cast h
    have h2 : |(n : ℚ)| = ((|n| : ℤ) : ℚ) := by push_cast; rfl
    rw [h2]
    calc ((|n| : ℤ) : ℚ) < ((2 ^ 53 : ℤ) : ℚ) := h1
      _ ≤ 2 ^ 1024 := by norm_num)
  simpa using this

theorem two_zpow_split (e : ℤ) :
    (2 : ℚ) ^ e = ((2 ^ 52 : ℤ) : ℚ) * 2 ^ (e - 52) := by
  rw [zpow_sub₀ (by norm_num : (2 : ℚ) ≠ 0)]
  push_cast
  field_simp
  norm_num
  ring

/-- Above the subnormal range the rounded significand has 53 bits. -/
theorem two_pow_52_le_roundHalfEven (q : ℚ) (hq : 0 < q) :
    (2 : ℤ) ^ 52 ≤ JSNum.roundHalfEven (q / 2 ^ (Int.log 2 q - 52)) := by
  have h2 : (0 : ℚ) < 2 := by norm_num
  have hle : ((2 : ℕ) : ℚ) ^ Int.log 2 q ≤ q := Int.zpow_log_le_self (by norm_num) hq
  have hdiv : ((2 ^ 52 : ℤ) : ℚ) ≤ q / 2 ^ (Int.log 2 q - 52) := by
    rw [le_div_iff₀ (zpow_pos h2 _), zpow_sub₀ (by norm_num)]
    have h52 : ((2 ^ 52 : ℤ) : ℚ) = 2 ^ (52 : ℤ) := by norm_num
    rw [h52, mul_div_cancel₀ _ (zpow_ne_zero _ (by norm_num))]
    simpa using hle
  exact le_trans (Int.le_floor.mpr hdiv) (floor_le_roundHalfEven _)

/-- A rational of at least 2^1024 has no finite Number value. -/
theorem ofRat_overflow (q : ℚ) (h : 2 ^ (1024 : ℕ) ≤ q) : JSNum.ofRat q = .posInf := by
  have h2 : (0 : ℚ) < 2 := by norm_num
  have hq : 0 < q := lt_of_lt_of_le (pow_pos h2 1024) h
  have hlog : (1024 : ℤ) ≤ Int.log 2 q := by
    rw [← Int.zpow_le_iff_le_log (by norm_num) hq]
    have hc : (((2 : ℕ) : ℚ)) ^ (1024 : ℤ) = (2 : ℚ) ^ (1024 : ℕ) := by
      rw [← zpow_natCast]
      rfl
    rw [hc]
    exact h
  have hk : max (Int.log 2 q - 52) (-1074) = Int.log 2 q - 52 := max_eq_left (by omega)
  have hr := two_pow_52_le_roundHalfEven q hq
  have hv : (2 : ℚ) ^ (1024 : ℕ) ≤
      (JSNum.roundHalfEven (q / 2 ^ (Int.log 2 q - 52)) : ℚ) * 2 ^ (Int.log 2 q - 52) := by
    have h1 : ((2 ^ 52 : ℤ) : ℚ) ≤ (JSNum.roundHalfEven (q / 2 ^ (Int.log 2 q - 52)) : ℚ) := by
      exact_mod_cast hr
    calc (2 : ℚ) ^ (1024 : ℕ) = 2 ^ (1024 : ℤ) := by
          rw [← zpow_natCast]
          rfl
      _ ≤ 2 ^ Int.log 2 q := zpow_le_zpow_right₀ (by norm_num) hlog
      _ = ((2 ^ 52 : ℤ) : ℚ) * 2 ^ (Int.log 2 q - 52) := two_zpow_split _
      _ ≤ _ := mul_le_mul_of_nonneg_right h1 (le_of_lt (zpow_pos h2 _))
  unfold JSNum.ofRat
  rw [if_neg (ne_of_gt hq)]
  simp only [abs_of_pos hq, hk]
  rw [if_pos hv, if_pos hq]

/-- The Number value for a whole number of at least 1 is a whole number of at
least 1, or `Infinity`. -/
theorem ofRat_natCast_pos (n : ℕ) (hn : 1 ≤ n) :
    JSNum.ofRat (n : ℚ) = .posInf ∨ ∃ N : ℕ, 1 ≤ N ∧ JSNum.ofRat (n : ℚ) = .finite N := by
  have h2 : (0 : ℚ) < 2 := by norm_num
  by_cases hsmall : n < 2 ^ 53
  · right
    refine ⟨n, hn, ?_⟩
    have := ofRat_intCast (n : ℤ) (by
      rw [abs_of_nonneg (by positivity)]
      exact_mod_cast hsmall)
    simpa using this
  · have hq : (0 : ℚ) < n := by exact_mod_cast hn
    have hbig : ((2 : ℕ) : ℚ) ^ (53 : ℤ) ≤ (n : ℚ) := by
      have h53 : ((2 : ℕ) : ℚ) ^ (53 : ℤ) = ((2 ^ 53 : ℕ) : ℚ) := by norm_num
      rw [h53]
      exact_mod_cast not_lt.mp hsmall
    have hlog : (53 : ℤ) ≤ Int.log 2 (n : ℚ) :=
      (Int.zpow_le_iff_le_log (by norm_num) hq).mp hbig
    have hk : max (Int.log 2 (n : ℚ) - 52) (-1074) = Int.log 2 (n : ℚ) - 52 :=
      max_eq_left (by omega)
    obtain ⟨d, hd⟩ : ∃ d : ℕ, Int.log 2 (n : ℚ) - 52 = d :=
      ⟨(Int.log 2 (n : ℚ) - 52).toNat, by omega⟩
    have hr := two_pow_52_le_roundHalfEven (n : ℚ) hq
    obtain ⟨M, hM⟩ : ∃ M : ℕ, JSNum.roundHalfEven ((n : ℚ) / 2 ^ (Int.log 2 (n : ℚ) - 52)) = M :=
      ⟨(JSNum.roundHalfEven ((n : ℚ) / 2 ^ (Int.log 2 (n : ℚ) - 52))).toNat, by
        have : (0 : ℤ) ≤ JSNum.roundHalfEven ((n : ℚ) / 2 ^ (Int.log 2 (n : ℚ) - 52)) :=
          le_trans (by norm_num) hr
        omega⟩
    have hM1 : 1 ≤ M := by
      have : (2 : ℤ) ^ 52 ≤ (M : ℤ) := hM ▸ hr
      have h1 : (1 : ℤ) ≤ (M : ℤ) := le_trans (by norm_num) this
      exact_mod_cast h1
    have hv : (JSNum.roundHalfEven ((n : ℚ) / 2 ^ (Int.log 2 (n : ℚ) - 52)) : ℚ) *
        2 ^ (Int.log 2 (n : ℚ) - 52) = ((M * 2 ^ d : ℕ) : ℚ) := by
      rw [hM, hd, zpow_natCast]
      push_cast
      ring
    unfold JSNum.ofRat
    rw [if_neg (ne_of_gt hq)]
    simp only [abs_of_pos hq, hk, hv, if_pos hq]
    by_cases hov : (2 : ℚ) ^ (1024 : ℕ) ≤ ((M * 2 ^ d : ℕ) : ℚ)
    · left
      rw [if_pos hov]
    · right
      rw [if_neg hov]
      exact ⟨M * 2 ^ d, Nat.one_le_iff_ne_zero.mpr (by positivity), rfl⟩

/-- Rounding keeps a positive rational above every Number it is not below. -/
theorem ofRat_ge_of_le (p q : ℚ) (hp : 0 < p) (hrep : JSNum.ofRat p = .finite p) (hpq : p ≤ q) :
    JSNum.ofRat q = .posInf ∨ ∃ v : ℚ, p ≤ v ∧ JSNum.ofRat q = .finite v := by
  have h2 : (0 : ℚ) < 2 := by norm_num
  have hq : 0 < q := lt_of_lt_of_le hp hpq
  set kp : ℤ := max (Int.log 2 p - 52) (-1074) with hkp
  set kq : ℤ := max (Int.log 2 q - 52) (-1074) with hkq
  have hmono : Int.log 2 p ≤ Int.log 2 q := Int.log_mono_right hp hpq
  -- what it means for `p` to be a Number
  have hpv : (JSNum.roundHalfEven (p / 2 ^ kp) : ℚ) * 2 ^ kp = p := by
    unfold JSNum.ofRat at hrep
    rw [if_neg (ne_of_gt hp)] at hrep
    simp only [abs_of_pos hp, if_pos hp] at hrep
    rw [← hkp] at hrep
    split_ifs at hrep with h
    exact JSNum.finite.inj hrep
  have key : p ≤ (JSNum.roundHalfEven (q / 2 ^ kq) : ℚ) * 2 ^ kq := by
    by_cases hk : kp = kq
    · rw [← hk]
      have hint : p / 2 ^ kp = (JSNum.roundHalfEven (p / 2 ^ kp) : ℚ) := by
        rw [div_eq_iff (zpow_ne_zero _ (by norm_num))]
        exact hpv.symm
      have hle : (JSNum.roundHalfEven (p / 2 ^ kp) : ℚ) ≤ q / 2 ^ kp := by
        rw [← hint]
        exact div_le_div_of_nonneg_right hpq (le_of_lt (zpow_pos h2 _))
      have h1 : JSNum.roundHalfEven (p / 2 ^ kp) ≤ JSNum.roundHalfEven (q / 2 ^ kp) :=
        le_trans (Int.le_floor.mpr hle) (floor_le_roundHalfEven _)
      calc p = (JSNum.roundHalfEven (p / 2 ^ kp) : ℚ) * 2 ^ kp := hpv.symm
        _ ≤ (JSNum.roundHalfEven (q / 2 ^ kp) : ℚ) * 2 ^ kp :=
            mul_le_mul_of_nonneg_right (by exact_mod_cast h1) (le_of_lt (zpow_pos h2 _))
    · have hlt : kp < kq := lt_of_le_of_ne (max_le_max (by omega) le_rfl) hk
      have hkq' : kq = Int.log 2 q - 52 := by
        rw [hkq]
        apply max_eq_left
        by_contra hcon
        have : kq = -1074 := by rw [hkq]; exact max_eq_right (by omega)
        have : (-1074 : ℤ) ≤ kp := le_max_right _ _
        omega
      have hlogs : Int.log 2 p + 1 ≤ Int.log 2 q := by
        have : Int.log 2 p - 52 ≤ kp := le_max_left _ _
        omega
      have hr := two_pow_52_le_roundHalfEven q hq
      rw [← hkq'] at hr
      have h1 : ((2 ^ 52 : ℤ) : ℚ) ≤ (JSNum.roundHalfEven (q / 2 ^ kq) : ℚ) := by exact_mod_cast hr
      calc p ≤ ((2 : ℕ) : ℚ) ^ (Int.log 2 p + 1) := le_of_lt (Int.lt_zpow_succ_log_self (by norm_num) p)
        _ ≤ ((2 : ℕ) : ℚ) ^ Int.log 2 q := zpow_le_zpow_right₀ (by norm_num) hlogs
        _ = ((2 ^ 52 : ℤ) : ℚ) * 2 ^ kq := by
            rw [hkq']
            exact two_zpow_split _
        _ ≤ _ := mul_le_mul_of_nonneg_right h1 (le_of_lt (zpow_pos h2 _))
  unfold JSNum.ofRat
  rw [if_neg (ne_of_gt hq)]
  simp only [abs_of_pos hq, if_pos hq]
  rw [← hkq]
  by_cases hov : (2 : ℚ) ^ (1024 : ℕ) ≤ (JSNum.roundHalfEven (q / 2 ^ kq) : ℚ) * 2 ^ kq
  · left
    rw [if_pos hov]
  · right
    rw [if_neg hov]
    exact ⟨_, key, rfl⟩

/-! ## Claims on the booking form -/

set_option maxRecDepth 100000 in
/-- A time control value `HH:MM` is not empty and splits into its hour and its
minute. -/
theorem timeText_fields : ∀ h, h < 24 → ∀ m, m < 60 →
    (timeText h m ≠ "" ∧ numberAt (splitOn ':' (timeText h m).toList) 0 = some h ∧
      numberAt (splitOn ':' (timeText h m).toList) 1 = some m) := by
  decide

/-- The comparison of two Numbers written as numerals. -/
theorem lt_ofNat (a b : ℕ) :
    (OfNat.ofNat a : JSNum) < (OfNat.ofNat b : JSNum) ↔ a < b := by
  show JSNum.lt (.finite (a : ℚ)) (.finite (b : ℚ)) = true ↔ _
  simp [JSNum.lt]

theorem truncate_intCast (z : ℤ) : JSNum.truncate (z : ℚ) = z := by
  unfold JSNum.truncate
  split_ifs <;> simp

/-- The sum of an hour of the day and a whole duration below 2^52 in magnitude
is exact. -/
theorem add_hours (H d : ℤ) (hH : 0 ≤ H ∧ H < 24) (hd : |d| < 2 ^ 52) :
    (JSNum.ofTime (some H)).add (.finite d) = .finite ((H + d : ℤ) : ℚ) := by
  have hsum : |H + d| < 2 ^ 53 := by
    rw [abs_lt] at hd ⊢
    constructor <;> omega
  have := ofRat_intCast (H + d) hsum
  simp only [JSNum.ofTime, JSNum.add]
  rw [← this]
  push_cast
  rfl

/-- The end time for a start time that splits into hour `h` and minute `m` and a
whole duration below 2^52 in magnitude, by the two dates that the function
makes. -/
theorem calculateEndTime_int (clock : Clock) (startTime : String) (h m : Nat) (d : Int)
    (hne : startTime ≠ "")
    (hhour : numberAt (splitOn ':' startTime.toList) 0 = some h)
    (hmin : numberAt (splitOn ':' startTime.toList) 1 = some m)
    (hd : |d| < 2 ^ 52) :
    BookRoom.calculateEndTime clock startTime (.finite d) =
      match setHoursMinutes clock (some clock.now) (some (h : Int)) (some (m : Int)) with
      | none => "NaN:NaN"
      | some t =>
        padStart2 (numberText (getHours clock (timeClip (clock.utc
            (clock.localTime t / msPerDay * msPerDay +
              (clock.localTime t / msPerHour % 24 + d) * msPerHour +
              clock.localTime t % msPerHour))))) ++ ":" ++
          padStart2 (numberText (getMinutes clock (timeClip (clock.utc
            (clock.localTime t / msPerDay * msPerDay +
              (clock.localTime t / msPerHour % 24 + d) * msPerHour +
              clock.localTime t % msPerHour))))) := by
  simp only [BookRoom.calculateEndTime, hne, if_false, hhour, hmin, Option.map_some',
    Int.ofNat_eq_coe]
  cases hstart : setHoursMinutes clock (some clock.now) (some (h : Int)) (some (m : Int)) with
  | none => rfl
  | some t =>
    have hH : 0 ≤ clock.localTime t / msPerHour % 24 ∧ clock.localTime t / msPerHour % 24 < 24 :=
      ⟨Int.emod_nonneg _ (by decide), Int.emod_lt_of_pos _ (by decide)⟩
    simp only [getHours, Option.map_some']
    rw [add_hours _ d hH hd]
    simp only [setHours, truncate_intCast]

/-- The end time for a start time that splits into hour `h` and minute `m`,
when the zone keeps one offset around the start and the end and both are dates
in range. -/
theorem calculateEndTime_of_fields (clock : Clock) (startTime : String) (h m : Nat)
    (d o : Int) (hne : startTime ≠ "")
    (hhour : numberAt (splitOn ':' startTime.toList) 0 = some h)
    (hmin : numberAt (splitOn ':' startTime.toList) 1 = some m)
    (hh : h < 24) (hm : m < 60) (hd : 0 ≤ d)
    (hzone : clock.keepsOffset o (clock.now - 2 * msPerDay)
      (clock.now + 2 * msPerDay + d * msPerHour))
    (ho : -msPerDay ≤ o ∧ o ≤ msPerDay)
    (hlo : -maxTime + msPerDay ≤ clock.now)
    (hhi : clock.now + msPerDay + d * msPerHour ≤ maxTime) :
    BookRoom.calculateEndTime clock startTime (.finite d) =
      padStart2 (toString (((h : Int) + d) % 24)) ++ ":" ++ padStart2 (toString (m : Int)) := by
  simp only [maxTime, msPerDay, msPerHour, Clock.keepsOffset] at hlo hhi hzone ho
  have hdsmall : |d| < 2 ^ 52 := by
    rw [abs_lt]
    constructor <;> omega
  rw [calculateEndTime_int clock startTime h m d hne hhour hmin hdsmall]
  -- the start
  have hnow : clock.localTZA clock.now true = o := hzone _ _ (by omega) (by omega)
  have hl1 : clock.localTZA ((clock.now + o) / 86400000 * 86400000 + (h : Int) * 3600000 +
      (m : Int) * 60000 + (clock.now + o) % 1000) false = o :=
    hzone _ _ (by omega) (by omega)
  have hstart : setHoursMinutes clock (some clock.now) (some (h : Int)) (some (m : Int)) =
      some ((clock.now + o) / 86400000 * 86400000 + (h : Int) * 3600000 +
        (m : Int) * 60000 + (clock.now + o) % 1000 - o) := by
    simp only [setHoursMinutes, Clock.localTime, Clock.utc, hnow, hl1, timeClip, maxTime,
      msPerDay, msPerHour, msPerMinute]
    rw [if_pos]
    constructor <;> omega
  rw [hstart]
  simp only []
  -- the local time of the start
  have hu1 : clock.localTZA ((clock.now + o) / 86400000 * 86400000 + (h : Int) * 3600000 +
      (m : Int) * 60000 + (clock.now + o) % 1000 - o) true = o :=
    hzone _ _ (by omega) (by omega)
  have hloc : clock.localTime ((clock.now + o) / 86400000 * 86400000 + (h : Int) * 3600000 +
      (m : Int) * 60000 + (clock.now + o) % 1000 - o) =
      (clock.now + o) / 86400000 * 86400000 + (h : Int) * 3600000 +
        (m : Int) * 60000 + (clock.now + o) % 1000 := by
    simp only [Clock.localTime, hu1]
    omega
  rw [hloc]
  -- the end
  have hnew : ((clock.now + o) / 86400000 * 86400000 + (h : Int) * 3600000 +
        (m : Int) * 60000 + (clock.now + o) % 1000) / msPerDay * msPerDay +
      (((clock.now + o) / 86400000 * 86400000 + (h : Int) * 3600000 +
        (m : Int) * 60000 + (clock.now + o) % 1000) / msPerHour % 24 + d) * msPerHour +
      ((clock.now + o) / 86400000 * 86400000 + (h : Int) * 3600000 +
        (m : Int) * 60000 + (clock.now + o) % 1000) % msPerHour =
      (clock.now + o) / 86400000 * 86400000 + (h : Int) * 3600000 +
        (m : Int) * 60000 + (clock.now + o) % 1000 + d * 3600000 := by
    simp only [msPerDay, msPerHour]
    omega
  rw [hnew]
  have hl2 : clock.localTZA ((clock.now + o) / 86400000 * 86400000 + (h : Int) * 3600000 +
      (m : Int) * 60000 + (clock.now + o) % 1000 + d * 3600000) false = o :=
    hzone _ _ (by omega) (by omega)
  have hu2 : clock.localTZA ((clock.now + o) / 86400000 * 86400000 + (h : Int) * 3600000 +
      (m : Int) * 60000 + (clock.now + o) % 1000 + d * 3600000 - o) true = o :=
    hzone _ _ (by omega) (by omega)
  have hend : timeClip (clock.utc ((clock.now + o) / 86400000 * 86400000 + (h : Int) * 3600000 +
      (m : Int) * 60000 + (clock.now + o) % 1000 + d * 3600000)) =
      some ((clock.now + o) / 86400000 * 86400000 + (h : Int) * 3600000 +
        (m : Int) * 60000 + (clock.now + o) % 1000 + d * 3600000 - o) := by
    simp only [Clock.utc, hl2, timeClip, maxTime]
    rw [if_pos]
    constructor <;> omega
  rw [hend]
  simp only [getHours, getMinutes, Option.map_some', Clock.localTime, hu2, numberText,
    msPerHour, msPerMinute]
  have e1 : ((clock.now + o) / 86400000 * 86400000 + (h : Int) * 3600000 +
      (m : Int) * 60000 + (clock.now + o) % 1000 + d * 3600000 - o + o) / 3600000 % 24 =
      ((h : Int) + d) % 24 := by omega
  have e2 : ((clock.now + o) / 86400000 * 86400000 + (h : Int) * 3600000 +
      (m : Int) * 60000 + (clock.now + o) % 1000 + d * 3600000 - o + o) / 60000 % 60 =
      (m : Int) := by omega
  rw [e1, e2]

theorem toString_natCast (n : Nat) : toString (n : Int) = toString n := rfl

/-- What `parseInt` returns for a text whose whole number is below 2^53. -/
theorem parseInt_eq (s : String) (negative : Bool) (n : Nat)
    (h : parseIntDigits s = some (negative, n)) (hn : n < 2 ^ 53) :
    parseInt s = .finite (if negative then -(n : ℚ) else (n : ℚ)) := by
  have hpos := ofRat_intCast (n : ℤ) (by
    rw [abs_of_nonneg (by positivity)]
    exact_mod_cast hn)
  have hneg := ofRat_intCast (-(n : ℤ)) (by
    rw [abs_neg, abs_of_nonneg (by positivity)]
    exact_mod_cast hn)
  simp only [parseInt, h]
  cases negative
  · simpa using hpos
  · simpa using hneg

theorem toJSON_natCast (n : Nat) : (JSNum.finite (n : ℚ)).toJSON = .num n := by
  simp [JSNum.toJSON]

/-- C12 (the code at the failing input): for the booking date 2026-12-24, the
start time 23:00 and the duration 2, which pass the validation, `handleSubmit`
sends one request to the gateway, and the `end_time` it carries (01:00 of the
same day) is before its `start_time` (23:00). -/
theorem handleSubmit_end_before_start :
    BookRoom.bookingPayload { now := 1793750400000, localTZA := fixedZone 0 }
        { bookingDate := "2026-12-24", startTime := "23:00", duration := 2,
          submitting := false, room_id := "7" } =
      .obj [("room_id", .num 7), ("start_time", .str "2026-12-24T23:00:00"),
        ("end_time", .str "2026-12-24T01:00:00")] ∧
    newSince ([] : List HttpCall)
      (BookRoom.handleSubmit { now := 1793750400000, localTZA := fixedZone 0 }
        { bookingDate := "2026-12-24", startTime := "23:00", duration := 2,
          submitting := false, room_id := "7" }
        { World.start none with user := .obj [("token", .str "t")], loading := false }
        (.responds { status := 201, body := none })).2.requests =
      [.plain "http://0.0.0.0:3000/bookings"
        (.obj [("method", .str "POST"),
          ("body", .str (jsonText (.obj [("room_id", .num 7),
            ("start_time", .str "2026-12-24T23:00:00"),
            ("end_time", .str "2026-12-24T01:00:00")]))),
          ("headers", .obj [("Content-Type", .str "application/json"),
            ("Authorization", .str "Bearer t")])])] ∧
    earlierText "2026-12-24T01:00:00" "2026-12-24T23:00:00" = true := by
  have hend : BookRoom.calculateEndTime { now := 1793750400000, localTZA := fixedZone 0 }
      "23:00" 2 = "01:00" := by
    have h := calculateEndTime_int { now := 1793750400000, localTZA := fixedZone 0 }
      "23:00" 23 0 2 (by decide) (by decide) (by decide) (by decide)
    have h2 : (2 : JSNum) = .finite ((2 : ℤ) : ℚ) := by
      show JSNum.finite _ = _
      norm_num
    rw [h2, h]
    rfl
  have hroom : (parseInt "7").toJSON = .num 7 := by
    rw [parseInt_eq "7" false 7 (by rfl) (by norm_num)]
    exact toJSON_natCast 7
  have hpay : BookRoom.bookingPayload { now := 1793750400000, localTZA := fixedZone 0 }
      { bookingDate := "2026-12-24", startTime := "23:00", duration := 2,
        submitting := false, room_id := "7" } =
      .obj [("room_id", .num 7), ("start_time", .str "2026-12-24T23:00:00"),
        ("end_time", .str "2026-12-24T01:00:00")] := by
    simp only [BookRoom.bookingPayload, hend, hroom]
    rfl
  have hguard : ¬ ("2026-12-24" = "" ∨ "23:00" = "" ∨ (2 : JSNum) < 1) := by
    intro h
    rcases h with h | h | h
    · exact absurd h (by decide)
    · exact absurd h (by decide)
    · exact absurd ((lt_ofNat 2 1).mp h) (by decide)
  refine ⟨hpay, ?_, by decide⟩
  unfold BookRoom.handleSubmit
  rw [if_neg hguard]
  simp only [hpay]
  rfl

/-- C13 (as stated, refuted): in the zone of New York on the 8th of March 2026,
when the clocks skip the hour from 02:00 to 03:00, the start time 01:30 with the
duration 1 gives "03:30", not the time with hour (1 + 1) mod 24 = 2; and for a
duration so long that the end is not a date in range, here 10^13 hours,
`calculateEndTime` returns "NaN:NaN", not the time with hour
(9 + 10^13) mod 24 = 1. -/
theorem calculateEndTime_out_of_range :
    BookRoom.calculateEndTime { now := 1772947800000, localTZA := newYork2026 } "01:30" 1 =
      "03:30" ∧
    timeText ((((1 : Nat) : Int) + 1) % 24).toNat 30 = "02:30" ∧
    BookRoom.calculateEndTime { now := 1793750400000, localTZA := fixedZone 0 } "09:00"
      (.finite 10000000000000) = "NaN:NaN" ∧
    timeText ((((9 : Nat) : Int) + 10000000000000) % 24).toNat 0 = "01:00" := by
  refine ⟨?_, by decide, ?_, by decide⟩
  · have h := calculateEndTime_int { now := 1772947800000, localTZA := newYork2026 }
      "01:30" 1 30 1 (by decide) (by decide) (by decide) (by decide)
    have h1 : (1 : JSNum) = .finite ((1 : ℤ) : ℚ) := by
      show JSNum.finite _ = _
      norm_num
    rw [h1, h]
    rfl
  · have h := calculateEndTime_int { now := 1793750400000, localTZA := fixedZone 0 }
      "09:00" 9 0 10000000000000 (by decide) (by decide) (by decide) (by decide)
    have h1 : JSNum.finite 10000000000000 = .finite ((10000000000000 : ℤ) : ℚ) := by
      norm_num
    rw [h1, h]
    rfl

/-- C13 (amended): for every start time HH:MM (hour below 24, minute below 60)
and every whole duration d of at least 1, when no change of the clocks of the
host zone falls near the start or the end (the zone keeps one offset, of at most
a day, from two days before the clock to two days after the end) and the end is
a date in range (the clock at least a day inside the range of dates, and still
inside it d hours and a day later), `calculateEndTime` returns the zero-padded
time whose hour is (HH + d) mod 24 and whose minute is MM; start "09:00" with
duration 2 yields "11:00", and an empty start time yields the empty string. -/
theorem calculateEndTime_spec (clock : Clock) (h m : Nat) (d o : Int)
    (hh : h < 24) (hm : m < 60) (hd : 1 ≤ d)
    (hzone : clock.keepsOffset o (clock.now - 2 * msPerDay)
      (clock.now + 2 * msPerDay + d * msPerHour))
    (ho : -msPerDay ≤ o ∧ o ≤ msPerDay)
    (hlo : -maxTime + msPerDay ≤ clock.now)
    (hhi : clock.now + msPerDay + d * msPerHour ≤ maxTime) :
    BookRoom.calculateEndTime clock (timeText h m) (.finite d) =
      timeText (((h : Int) + d) % 24).toNat m ∧
    (2 ≤ d → BookRoom.calculateEndTime clock "09:00" 2 = "11:00") ∧
    BookRoom.calculateEndTime clock "" (.finite d) = "" := by
  have key : ∀ (h : Nat) (d' : Int), h < 24 → 0 ≤ d' → d' ≤ d →
      BookRoom.calculateEndTime clock (timeText h m) (.finite d') =
        timeText (((h : Int) + d') % 24).toNat m := by
    intro h d' hh hd' hle
    obtain ⟨hne, hhour, hmin⟩ := timeText_fields h hh m hm
    have hzone' : clock.keepsOffset o (clock.now - 2 * msPerDay)
        (clock.now + 2 * msPerDay + d' * msPerHour) := by
      intro t b h1 h2
      apply hzone t b h1
      simp only [msPerDay, msPerHour] at h2 ⊢
      omega
    have hhi' : clock.now + msPerDay + d' * msPerHour ≤ maxTime := by
      simp only [msPerDay, msPerHour, maxTime] at hhi ⊢
      omega
    rw [calculateEndTime_of_fields clock (timeText h m) h m d' o hne hhour hmin hh hm hd'
      hzone' ho hlo hhi']
    have hnn : (((((h : Int) + d') % 24).toNat : Nat) : Int) = ((h : Int) + d') % 24 := by
      omega
    rw [timeText, ← toString_natCast, hnn, toString_natCast]
  refine ⟨key h d hh (by omega) le_rfl, ?_, rfl⟩
  intro h2
  have h9 := key 9 2 (by decide) (by decide) h2
  have hm0 : m = m := rfl
  obtain ⟨hne, hhour, hmin⟩ := timeText_fields 9 (by decide) 0 (by decide)
  have hzone' : clock.keepsOffset o (clock.now - 2 * msPerDay)
      (clock.now + 2 * msPerDay + 2 * msPerHour) := by
    intro t b h1 h3
    apply hzone t b h1
    simp only [msPerDay, msPerHour] at h3 ⊢
    omega
  have hhi' : clock.now + msPerDay + 2 * msPerHour ≤ maxTime := by
    simp only [msPerDay, msPerHour, maxTime] at hhi ⊢
    omega
  have hres := calculateEndTime_of_fields clock "09:00" 9 0 2 o (by decide) hhour hmin
    (by decide) (by decide) (by decide) hzone' ho hlo hhi'
  have h2' : (2 : JSNum) = .finite ((2 : ℤ) : ℚ) := by
    show JSNum.finite _ = _
    norm_num
  rw [h2', hres]
  decide

theorem calculateEndTime_spec_witness :
    BookRoom.calculateEndTime { now := 1793750400000, localTZA := newYork2026 }
      (timeText 22 15) (.finite ((5 : ℤ) : ℚ)) = timeText 3 15 :=
  (calculateEndTime_spec { now := 1793750400000, localTZA := newYork2026 } 22 15 5
    (-18000000) (by decide) (by decide) (by decide)
    (by
      intro t isUTC h1 h2
      simp only [msPerDay, msPerHour] at h1 h2
      have hno : ¬ (1772953200000 ≤ t ∧ t < 1793512800000) := by omega
      have hno' : ¬ (1772953200000 - 14400000 ≤ t ∧ t < 1793512800000 - 14400000) := by omega
      cases isUTC
      · show (if _ then _ else _) = _
        rw [if_neg hno']
      · show (if _ then _ else _) = _
        rw [if_neg hno])
    (by decide) (by decide) (by decide)).1

/-- C14: whenever the booking date is empty, the start time is empty or the
duration is below 1, `handleSubmit` leaves the form state as it was and does
nothing but show the notification "Please fill in all booking details": no call
of `fetch`, no navigation, no change of the session or of storage. -/
theorem handleSubmit_rejects (clock : Clock) (s : BookRoom.State) (w : World)
    (net : FetchOutcome)
    (h : s.bookingDate = "" ∨ s.startTime = "" ∨ s.duration < 1) :
    BookRoom.handleSubmit clock s w net =
      (s, w.toast (.error "Please fill in all booking details")) ∧
    (BookRoom.handleSubmit clock s w net).2.requests = w.requests ∧
    (BookRoom.handleSubmit clock s w net).2.navigations = w.navigations ∧
    (BookRoom.handleSubmit clock s w net).2.toasts =
      w.toasts ++ [.error "Please fill in all booking details"] := by
  have hres : BookRoom.handleSubmit clock s w net =
      (s, w.toast (.error "Please fill in all booking details")) := by
    unfold BookRoom.handleSubmit
    rw [if_pos h]
  rw [hres]
  simp [World.toast, World.requests, World.navigations, World.toasts, requestsOf_append,
    navigationsOf_append, toastsOf_append, requestsOf, navigationsOf, toastsOf]

theorem handleSubmit_rejects_witness :
    (BookRoom.handleSubmit { now := 1793750400000, localTZA := fixedZone 0 }
      { bookingDate := "2026-12-24", startTime := "09:00", duration := 0,
        submitting := false, room_id := "7" }
      { World.start none with user := .obj [("token", .str "t")], loading := false }
      (.responds { status := 201, body := none })).2.requests = [] :=
  (handleSubmit_rejects { now := 1793750400000, localTZA := fixedZone 0 }
    { bookingDate := "2026-12-24", startTime := "09:00", duration := 0,
      submitting := false, room_id := "7" }
    { World.start none with user := .obj [("token", .str "t")], loading := false }
    (.responds { status := 201, body := none })
    (Or.inr (Or.inr ((lt_ofNat 0 1).mpr (by decide))))).2.1

/-! ## Searching and sorting -/

theorem infixOf_nil (s : List Char) : infixOf [] s = true := by
  cases s <;> simp [infixOf]

/-- The search test of `includes` is the infix relation on the characters. -/
theorem infixOf_iff (t s : List Char) : infixOf t s = true ↔ t <:+: s := by
  induction s with
  | nil => simp [infixOf]
  | cons c cs ih =>
    simp only [infixOf, Bool.or_eq_true, ih, List.isPrefixOf_iff_prefix]
    exact List.infix_cons_iff.symm

theorem includes_iff (s t : String) : includes s t = true ↔ t.toList <:+: s.toList :=
  infixOf_iff t.toList s.toList

theorem includes_empty (s : String) : includes s (toLowerCase "") = true :=
  infixOf_nil s.toList

theorem matchesSearch_empty (room : Room) : matchesSearch "" room = true := by
  simp [matchesSearch, includes_empty]

theorem matchesCapacity_empty (room : Room) : Rooms.matchesCapacity "" room = true := by
  simp [Rooms.matchesCapacity]

/-- A comparison function that always answers zero leaves a list as it is. -/
theorem sortBy_zero (compare : α → α → Int) (h : ∀ a b, compare a b = 0) (l : List α) :
    sortBy compare l = l := by
  unfold sortBy
  apply List.Sorted.insertionSort_eq
  exact List.pairwise_of_forall fun a b => by simp [h a b]

theorem sortBy_comparePrice_none (l : List Room) : sortBy (Rooms.comparePrice "") l = l :=
  sortBy_zero _ (fun _ _ => by simp [Rooms.comparePrice]) l

theorem sortBy_perm (compare : α → α → Int) (l : List α) : (sortBy compare l).Perm l :=
  List.perm_insertionSort _ l

/-- Without a price sort the Rooms listing is the filter alone. -/
theorem filteredRooms_unsorted (rooms : List Room) (searchTerm capacityFilter : String) :
    Rooms.filteredRooms rooms searchTerm capacityFilter "" =
      rooms.filter fun room =>
        matchesSearch searchTerm room && Rooms.matchesCapacity capacityFilter room := by
  simp [Rooms.filteredRooms, sortBy_comparePrice_none]

/-- The Rooms listing holds the rooms that pass both tests, whatever the sort. -/
theorem filteredRooms_perm (rooms : List Room) (searchTerm capacityFilter priceSort : String) :
    (Rooms.filteredRooms rooms searchTerm capacityFilter priceSort).Perm
      (rooms.filter fun room =>
        matchesSearch searchTerm room && Rooms.matchesCapacity capacityFilter room) :=
  sortBy_perm _ _

/-! ## Claims on the capacity filter of the Rooms listing -/

/-- C15: with an empty search term and the capacity filter "6-10" the Rooms
listing holds exactly the rooms whose capacity c satisfies 5 < c <= 10: without
a price sort it is those rooms in their original order, with a price sort a
rearrangement of them; for three rooms of capacities 3, 8 and 15 it is the room
of capacity 8 alone. -/
theorem filteredRooms_bucket_6_10 (rooms : List Room) (priceSort : String) :
    Rooms.filteredRooms rooms "" "6-10" "" =
      rooms.filter (fun room => decide (5 < room.capacity ∧ room.capacity ≤ 10)) ∧
    (Rooms.filteredRooms rooms "" "6-10" priceSort).Perm
      (rooms.filter (fun room => decide (5 < room.capacity ∧ room.capacity ≤ 10))) ∧
    (∀ a b c : Room, a.capacity = 3 → b.capacity = 8 → c.capacity = 15 →
      Rooms.filteredRooms [a, b, c] "" "6-10" "" = [b]) := by
  have hpred : (fun room : Room =>
      matchesSearch "" room && Rooms.matchesCapacity "6-10" room) =
      fun room => decide (5 < room.capacity ∧ room.capacity ≤ 10) := by
    funext room
    simp [matchesSearch_empty, Rooms.matchesCapacity]
  refine ⟨?_, ?_, ?_⟩
  · rw [filteredRooms_unsorted, hpred]
  · have h := filteredRooms_perm rooms "" "6-10" priceSort
    rwa [hpred] at h
  · intro a b c ha hb hc
    rw [filteredRooms_unsorted, hpred]
    simp [List.filter, ha, hb, hc]

/-- C16: with an empty search term, no capacity filter and no price sort the
Rooms listing is the fetched collection itself: the same rooms in the same
order. -/
theorem filteredRooms_no_filter (rooms : List Room) :
    Rooms.filteredRooms rooms "" "" "" = rooms := by
  rw [filteredRooms_unsorted]
  simp [matchesSearch_empty, matchesCapacity_empty]

theorem count_filter_ite [DecidableEq α] (p : α → Bool) (a : α) (l : List α) :
    (l.filter p).count a = if p a = true then l.count a else 0 := by
  by_cases h : p a = true
  · rw [if_pos h, List.count_filter h]
  · rw [if_neg h]
    exact List.count_eq_zero.2 fun hmem => h (List.mem_filter.1 hmem).2

/-- Every capacity falls into exactly one of the three buckets. -/
theorem matchesCapacity_exactly_one (room : Room) :
    (Rooms.matchesCapacity "1-5" room = true ∨ Rooms.matchesCapacity "6-10" room = true ∨
      Rooms.matchesCapacity "10+" room = true) ∧
    ¬ (Rooms.matchesCapacity "1-5" room = true ∧ Rooms.matchesCapacity "6-10" room = true) ∧
    ¬ (Rooms.matchesCapacity "1-5" room = true ∧ Rooms.matchesCapacity "10+" room = true) ∧
    ¬ (Rooms.matchesCapacity "6-10" room = true ∧ Rooms.matchesCapacity "10+" room = true) := by
  simp only [Rooms.matchesCapacity]
  simp
  omega

/-- C17: the three capacity buckets "1-5", "6-10" and "10+" of the Rooms listing
partition the capacities: every room is accepted by exactly one of them; so for
every collection, search term and price sort the three views are pairwise
disjoint and together they are a rearrangement of the view without capacity
filter, which for an empty search term is a rearrangement of the collection:
every room occurs exactly once in them. -/
theorem capacity_buckets_partition (rooms : List Room) (searchTerm priceSort : String)
    (room : Room) :
    ((Rooms.matchesCapacity "1-5" room = true ∨ Rooms.matchesCapacity "6-10" room = true ∨
        Rooms.matchesCapacity "10+" room = true) ∧
      ¬ (Rooms.matchesCapacity "1-5" room = true ∧
          Rooms.matchesCapacity "6-10" room = true) ∧
      ¬ (Rooms.matchesCapacity "1-5" room = true ∧
          Rooms.matchesCapacity "10+" room = true) ∧
      ¬ (Rooms.matchesCapacity "6-10" room = true ∧
          Rooms.matchesCapacity "10+" room = true)) ∧
    (Rooms.filteredRooms rooms searchTerm "1-5" priceSort).Disjoint
      (Rooms.filteredRooms rooms searchTerm "6-10" priceSort) ∧
    (Rooms.filteredRooms rooms searchTerm "1-5" priceSort).Disjoint
      (Rooms.filteredRooms rooms searchTerm "10+" priceSort) ∧
    (Rooms.filteredRooms rooms searchTerm "6-10" priceSort).Disjoint
      (Rooms.filteredRooms rooms searchTerm "10+" priceSort) ∧
    (Rooms.filteredRooms rooms searchTerm "1-5" priceSort ++
      Rooms.filteredRooms rooms searchTerm "6-10" priceSort ++
      Rooms.filteredRooms rooms searchTerm "10+" priceSort).Perm
      (Rooms.filteredRooms rooms searchTerm "" priceSort) ∧
    (Rooms.filteredRooms rooms "" "1-5" priceSort ++
      Rooms.filteredRooms rooms "" "6-10" priceSort ++
      Rooms.filteredRooms rooms "" "10+" priceSort).Perm rooms := by
  have hmem : ∀ (c : String) (x : Room),
      x ∈ Rooms.filteredRooms rooms searchTerm c priceSort →
      Rooms.matchesCapacity c x = true := by
    intro c x hx
    have hx' := (filteredRooms_perm rooms searchTerm c priceSort).mem_iff.1 hx
    have := (List.mem_filter.1 hx').2
    simp only [Bool.and_eq_true] at this
    exact this.2
  have hperm : ∀ s : String,
      (Rooms.filteredRooms rooms s "1-5" priceSort ++
        Rooms.filteredRooms rooms s "6-10" priceSort ++
        Rooms.filteredRooms rooms s "10+" priceSort).Perm
        (Rooms.filteredRooms rooms s "" priceSort) := by
    intro s
    rw [List.perm_iff_count]
    intro a
    rw [List.count_append, List.count_append,
      (filteredRooms_perm rooms s "1-5" priceSort).count_eq,
      (filteredRooms_perm rooms s "6-10" priceSort).count_eq,
      (filteredRooms_perm rooms s "10+" priceSort).count_eq,
      (filteredRooms_perm rooms s "" priceSort).count_eq,
      count_filter_ite, count_filter_ite, count_filter_ite, count_filter_ite]
    obtain ⟨hsome, h12, h13, h23⟩ := matchesCapacity_exactly_one a
    simp only [Bool.and_eq_true, matchesCapacity_empty, and_true]
    by_cases hs : matchesSearch s a = true
    · by_cases h1 : Rooms.matchesCapacity "1-5" a = true
      · have h2 : ¬ Rooms.matchesCapacity "6-10" a = true := fun h => h12 ⟨h1, h⟩
        have h3 : ¬ Rooms.matchesCapacity "10+" a = true := fun h => h13 ⟨h1, h⟩
        simp [hs, h1, h2, h3]
      · by_cases h2 : Rooms.matchesCapacity "6-10" a = true
        · have h3 : ¬ Rooms.matchesCapacity "10+" a = true := fun h => h23 ⟨h2, h⟩
          simp [hs, h1, h2, h3]
        · have h3 : Rooms.matchesCapacity "10+" a = true := by
            rcases hsome with h | h | h
            · exact absurd h h1
            · exact absurd h h2
            · exact h
          simp [hs, h1, h2, h3]
    · simp [hs]
  obtain ⟨_, h12, h13, h23⟩ := matchesCapacity_exactly_one room
  refine ⟨matchesCapacity_exactly_one room, ?_, ?_, ?_, hperm searchTerm, ?_⟩
  · intro x hx hy
    exact (matchesCapacity_exactly_one x).2.1 ⟨hmem _ x hx, hmem _ x hy⟩
  · intro x hx hy
    exact (matchesCapacity_exactly_one x).2.2.1 ⟨hmem _ x hx, hmem _ x hy⟩
  · intro x hx hy
    exact (matchesCapacity_exactly_one x).2.2.2 ⟨hmem _ x hx, hmem _ x hy⟩
  · refine (hperm "").trans ?_
    have h := filteredRooms_perm rooms "" "" priceSort
    simpa [matchesSearch_empty, matchesCapacity_empty] using h

/-! ## Letter case -/

theorem sameLetter_refl (c : Char) : sameLetter c c = true := by
  simp [sameLetter]

set_option maxRecDepth 100000 in
theorem sameLetter_ofNat_upper : ∀ n, 97 ≤ n → n ≤ 122 →
    sameLetter (Char.ofNat (n - 32)) (Char.ofNat n) = true := by
  decide

set_option maxRecDepth 100000 in
theorem sameLetter_ofNat_lower : ∀ n, 65 ≤ n → n ≤ 90 →
    sameLetter (Char.ofNat (n + 32)) (Char.ofNat n) = true := by
  decide

/-- A letter a to z put in upper case, as any other character left as it is,
reads the same to the lower-casing of a string. -/
theorem sameLetter_toUpper (c : Char) : sameLetter c.toUpper c = true := by
  by_cases h : 97 ≤ c.toNat ∧ c.toNat ≤ 122
  · have hu : c.toUpper = Char.ofNat (c.toNat - 32) := by
      simp only [Char.toUpper]
      rw [if_pos h]
    have := sameLetter_ofNat_upper c.toNat h.1 h.2
    rwa [Char.ofNat_toNat, ← hu] at this
  · have : c.toUpper = c := by
      simp only [Char.toUpper]
      rw [if_neg h]
    rw [this]
    exact sameLetter_refl c

/-- A letter A to Z put in lower case, as any other character left as it is,
reads the same to the lower-casing of a string. -/
theorem sameLetter_toLower (c : Char) : sameLetter c.toLower c = true := by
  by_cases h : 65 ≤ c.toNat ∧ c.toNat ≤ 90
  · have hl : c.toLower = Char.ofNat (c.toNat + 32) := by
      simp only [Char.toLower]
      rw [if_pos h]
    have := sameLetter_ofNat_lower c.toNat h.1 h.2
    rwa [Char.ofNat_toNat, ← hl] at this
  · have : c.toLower = c := by
      simp only [Char.toLower]
      rw [if_neg h]
    rw [this]
    exact sameLetter_refl c

theorem casedNext_congr (l l' : List Char)
    (h : List.Forall₂ (fun a b => sameLetter a b = true) l l') :
    casedNext l = casedNext l' := by
  induction h with
  | nil => rfl
  | cons hab _ ih =>
    simp only [sameLetter, Bool.and_eq_true, beq_iff_eq, decide_eq_true_eq] at hab
    simp only [casedNext, hab.1.2, hab.2, ih]

/-- Strings whose characters read the same, place by place, have the same
lower-case form. -/
theorem lowerFrom_congr (l l' : List Char)
    (h : List.Forall₂ (fun a b => sameLetter a b = true) l l') :
    ∀ before before' : List Char,
      List.Forall₂ (fun a b => sameLetter a b = true) before before' →
      lowerFrom before l = lowerFrom before' l' := by
  induction h with
  | nil => intro _ _ _; rfl
  | @cons a b l l' hab hl ih =>
    intro before before' hb
    have hab' := hab
    simp only [sameLetter, Bool.and_eq_true, beq_iff_eq, decide_eq_true_eq] at hab'
    have hsig : (a.toNat = 931) = (b.toNat = 931) := propext hab'.1.1.2
    simp only [lowerFrom, hab'.1.1.1, hsig, casedNext_congr _ _ hb, casedNext_congr _ _ hl,
      ih (a :: before) (b :: before') (List.Forall₂.cons hab hb)]

/-- Changing one character of a string into one that reads the same leaves the
lower-case form of the string as it is. -/
theorem toLowerCase_recase (before after : List Char) (c c' : Char)
    (h : sameLetter c' c = true) :
    toLowerCase (String.mk (before ++ c' :: after)) =
      toLowerCase (String.mk (before ++ c :: after)) := by
  have hrefl : ∀ l : List Char, List.Forall₂ (fun a b => sameLetter a b = true) l l := by
    intro l
    induction l with
    | nil => exact List.Forall₂.nil
    | cons x xs ih => exact List.Forall₂.cons (sameLetter_refl x) ih
  simp only [toLowerCase]
  congr 1
  exact lowerFrom_congr _ _
    (List.rel_append (hrefl before) (List.Forall₂.cons h (hrefl after))) [] [] List.Forall₂.nil

/-- The search test reads the term and the two fields in lower case only. -/
theorem matchesSearch_congr (term term' : String) (room room' : Room)
    (hterm : toLowerCase term' = toLowerCase term)
    (hname : toLowerCase room'.name = toLowerCase room.name)
    (hdesc : toLowerCase room'.description = toLowerCase room.description) :
    matchesSearch term' room' = matchesSearch term room := by
  simp [matchesSearch, hterm, hname, hdesc]

/-! ## Claims on the search filter -/

set_option maxRecDepth 100000 in
/-- C18, where the claim fails: the view is not unchanged under every change of
case. The capital form of the German word "stra\u00dfe" is "STRASSE" (the sharp
s has the capital form SS), and the capital form of the long s (U+017F) is S;
the lower-case forms are "strasse" and "s". So the search for "stra\u00dfe"
finds the room named "Stra\u00dfe" and loses it once the name is in capitals,
in both listings, and the search for "s" finds the room named "S" and not the
room named with the long s. -/
theorem matchesSearch_sharp_s :
    toLowerCase "Stra\u00dfe" = "stra\u00dfe" ∧ toLowerCase "STRASSE" = "strasse" ∧
    matchesSearch "stra\u00dfe"
      { id := 1, name := "Stra\u00dfe", description := "", capacity := 4,
        price_per_hour := 30, is_active := true } = true ∧
    matchesSearch "stra\u00dfe"
      { id := 1, name := "STRASSE", description := "", capacity := 4,
        price_per_hour := 30, is_active := true } = false ∧
    Rooms.filteredRooms
      [{ id := 1, name := "Stra\u00dfe", description := "", capacity := 4,
         price_per_hour := 30, is_active := true }] "stra\u00dfe" "" "" =
      [{ id := 1, name := "Stra\u00dfe", description := "", capacity := 4,
         price_per_hour := 30, is_active := true }] ∧
    Rooms.filteredRooms
      [{ id := 1, name := "STRASSE", description := "", capacity := 4,
         price_per_hour := 30, is_active := true }] "stra\u00dfe" "" "" = [] ∧
    AdminRooms.filteredRooms
      [{ id := 1, name := "Stra\u00dfe", description := "", capacity := 4,
         price_per_hour := 30, is_active := true }] "stra\u00dfe" "all" =
      [{ id := 1, name := "Stra\u00dfe", description := "", capacity := 4,
         price_per_hour := 30, is_active := true }] ∧
    AdminRooms.filteredRooms
      [{ id := 1, name := "STRASSE", description := "", capacity := 4,
         price_per_hour := 30, is_active := true }] "stra\u00dfe" "all" = [] ∧
    toLowerCase "\u017f" = "\u017f" ∧ toLowerCase "S" = "s" ∧
    matchesSearch "s"
      { id := 2, name := "S", description := "", capacity := 4,
        price_per_hour := 30, is_active := true } = true ∧
    matchesSearch "s"
      { id := 2, name := "\u017f", description := "", capacity := 4,
        price_per_hour := 30, is_active := true } = false := by
  refine ⟨?_, ?_, ?_, ?_, ?_, ?_, ?_, ?_, ?_, ?_, ?_, ?_⟩ <;> decide

set_option maxRecDepth 100000 in
/-- C18, amended: in the Rooms and the AdminRooms listings a room passes the
search test exactly when the lower-cased search term occurs as one run of
characters in the lower-cased name or in the lower-cased description, and with
the other filters off the listing holds exactly the rooms of the collection that
pass. So the test gives the same answer for any term, name and description that
have the same lower-case forms, both listings are the same for two such terms,
and for rooms changed in their names and descriptions in a way that keeps the
lower-case forms they hold the changed forms of the same rooms. Changing the
case of one letter A to Z or a to z of a string leaves its lower-case form as it
is. The lower-case form is the one of the Unicode tables: "CAF\u00c9 Room"
reads "caf\u00e9 room", the capital sigma at the end of a word reads as the
final sigma, the term "F\u00c9 r" finds the room named "Caf\u00e9 Room" and
the term "tea" does not. -/
theorem matchesSearch_spec (rooms : List Room) (searchTerm : String) (room : Room) :
    (matchesSearch searchTerm room = true ↔
      (toLowerCase searchTerm).toList <:+: (toLowerCase room.name).toList ∨
      (toLowerCase searchTerm).toList <:+: (toLowerCase room.description).toList) ∧
    (room ∈ Rooms.filteredRooms rooms searchTerm "" "" ↔
      room ∈ rooms ∧ matchesSearch searchTerm room = true) ∧
    (room ∈ AdminRooms.filteredRooms rooms searchTerm "all" ↔
      room ∈ rooms ∧ matchesSearch searchTerm room = true) ∧
    (∀ (term' : String) (room' : Room),
      toLowerCase term' = toLowerCase searchTerm →
      toLowerCase room'.name = toLowerCase room.name →
      toLowerCase room'.description = toLowerCase room.description →
      matchesSearch term' room' = matchesSearch searchTerm room) ∧
    (∀ term' : String, toLowerCase term' = toLowerCase searchTerm →
      (∀ capacityFilter priceSort,
        Rooms.filteredRooms rooms term' capacityFilter priceSort =
          Rooms.filteredRooms rooms searchTerm capacityFilter priceSort) ∧
      (∀ filter,
        AdminRooms.filteredRooms rooms term' filter =
          AdminRooms.filteredRooms rooms searchTerm filter)) ∧
    (∀ recase : Room → Room,
      (∀ r, toLowerCase (recase r).name = toLowerCase r.name ∧
        toLowerCase (recase r).description = toLowerCase r.description ∧
        (recase r).capacity = r.capacity ∧ (recase r).price_per_hour = r.price_per_hour ∧
        (recase r).is_active = r.is_active) →
      (∀ capacityFilter priceSort,
        Rooms.filteredRooms (rooms.map recase) searchTerm capacityFilter priceSort =
          (Rooms.filteredRooms rooms searchTerm capacityFilter priceSort).map recase) ∧
      (∀ filter,
        AdminRooms.filteredRooms (rooms.map recase) searchTerm filter =
          (AdminRooms.filteredRooms rooms searchTerm filter).map recase)) ∧
    (∀ (before after : List Char) (c : Char),
      toLowerCase (String.mk (before ++ c.toUpper :: after)) =
        toLowerCase (String.mk (before ++ c :: after)) ∧
      toLowerCase (String.mk (before ++ c.toLower :: after)) =
        toLowerCase (String.mk (before ++ c :: after))) ∧
    toLowerCase "CAF\u00c9 Room" = "caf\u00e9 room" ∧
    toLowerCase "\u039f\u0394\u039f\u03a3 \u03a3" = "\u03bf\u03b4\u03bf\u03c2 \u03c3" ∧
    matchesSearch "F\u00c9 r"
      { id := 1, name := "Caf\u00e9 Room", description := "Ground floor", capacity := 4,
        price_per_hour := 30, is_active := true } = true ∧
    matchesSearch "gROUND"
      { id := 1, name := "Caf\u00e9 Room", description := "Ground floor", capacity := 4,
        price_per_hour := 30, is_active := true } = true ∧
    matchesSearch "tea"
      { id := 1, name := "Caf\u00e9 Room", description := "Ground floor", capacity := 4,
        price_per_hour := 30, is_active := true } = false := by
  refine ⟨?_, ?_, ?_, ?_, ?_, ?_, ?_, ?_, ?_, ?_, ?_, ?_⟩
  · simp only [matchesSearch, Bool.or_eq_true, includes_iff]
  · rw [filteredRooms_unsorted, List.mem_filter]
    simp [matchesCapacity_empty]
  · simp [AdminRooms.filteredRooms, List.mem_filter, AdminRooms.matchesFilter]
  · intro term' room' hterm hname hdesc
    exact matchesSearch_congr searchTerm term' room room' hterm hname hdesc
  · intro term' hterm
    have hfun : ∀ r : Room, matchesSearch term' r = matchesSearch searchTerm r :=
      fun r => matchesSearch_congr searchTerm term' r r hterm rfl rfl
    constructor
    · intro capacityFilter priceSort
      simp [Rooms.filteredRooms, hfun]
    · intro filter
      simp [AdminRooms.filteredRooms, hfun]
  · intro recase hre
    have hsearch : ∀ r : Room, matchesSearch searchTerm (recase r) = matchesSearch searchTerm r :=
      fun r => matchesSearch_congr searchTerm searchTerm r (recase r) rfl (hre r).1 (hre r).2.1
    constructor
    · intro capacityFilter priceSort
      have hcap : ∀ r : Room, Rooms.matchesCapacity capacityFilter (recase r) =
          Rooms.matchesCapacity capacityFilter r := by
        intro r
        simp [Rooms.matchesCapacity, (hre r).2.2.1]
      have hcmp : ∀ a b : Room, Rooms.comparePrice priceSort (recase a) (recase b) =
          Rooms.comparePrice priceSort a b := by
        intro a b
        simp [Rooms.comparePrice, (hre a).2.2.2.1, (hre b).2.2.2.1]
      simp only [Rooms.filteredRooms, sortBy, List.filter_map]
      rw [List.map_insertionSort (fun a b => Rooms.comparePrice priceSort a b ≤ 0)
        (fun a b => Rooms.comparePrice priceSort a b ≤ 0) recase]
      · have hpred : ((fun room => matchesSearch searchTerm room &&
            Rooms.matchesCapacity capacityFilter room) ∘ recase) =
            fun room => matchesSearch searchTerm room &&
              Rooms.matchesCapacity capacityFilter room := by
          funext r
          simp [hsearch, hcap]
        rw [hpred]
      · intro a _ b _
        rw [hcmp]
    · intro filter
      have hact : ∀ r : Room, AdminRooms.matchesFilter filter (recase r) =
          AdminRooms.matchesFilter filter r := by
        intro r
        simp [AdminRooms.matchesFilter, (hre r).2.2.2.2]
      have hpred : ((fun room => matchesSearch searchTerm room &&
          AdminRooms.matchesFilter filter room) ∘ recase) =
          fun room => matchesSearch searchTerm room &&
            AdminRooms.matchesFilter filter room := by
        funext r
        simp [hsearch, hact]
      simp only [AdminRooms.filteredRooms, List.filter_map]
      rw [hpred]
  · intro before after c
    exact ⟨toLowerCase_recase before after c c.toUpper (sameLetter_toUpper c),
      toLowerCase_recase before after c c.toLower (sameLetter_toLower c)⟩
  all_goals decide

/-! ## Claims on the composition of filters -/

theorem matchesFilter_all (room : Room) : AdminRooms.matchesFilter "all" room = true := by
  simp [AdminRooms.matchesFilter]

theorem matchesTimeFilter_all (now : Int) (booking : Booking) :
    AdminBookings.matchesTimeFilter now "all" booking = true := by
  simp [AdminBookings.matchesTimeFilter]

theorem matchesRoomFilter_empty (booking : Booking) :
    AdminBookings.matchesRoomFilter "" booking = true := by
  simp [AdminBookings.matchesRoomFilter]

theorem bookings_matchesSearch_empty (booking : Booking) :
    AdminBookings.matchesSearch "" booking = true := by
  simp [AdminBookings.matchesSearch]

/-- Two filters in a row are one filter by the conjunction, in either order. -/
theorem filter_filter_and (p q : α → Bool) (l : List α) :
    (l.filter p).filter q = l.filter (fun a => p a && q a) ∧
    (l.filter q).filter p = l.filter (fun a => p a && q a) := by
  constructor
  · rw [List.filter_filter]
    congr 1
    funext a
    exact Bool.and_comm _ _
  · rw [List.filter_filter]

/-- C19: the filters of a listing compose by conjunction. In the Rooms listing
(search, capacity), the AdminRooms listing (search, status) and the
AdminBookings listing (search, time, room), an element is in the view exactly
when it is in the collection and passes every test, and the view for all the
filters together is the view for one filter alone, taken of the view for another
alone, in whatever order they are taken; in the Rooms listing the price sort,
applied last, gives the sorted view. -/
theorem filters_compose (rooms : List Room) (bookings : List Booking) (now : Int)
    (s c p f t r : String) :
    (∀ room, room ∈ Rooms.filteredRooms rooms s c p ↔
      room ∈ rooms ∧ matchesSearch s room = true ∧ Rooms.matchesCapacity c room = true) ∧
    Rooms.filteredRooms rooms s c "" =
      Rooms.filteredRooms (Rooms.filteredRooms rooms s "" "") "" c "" ∧
    Rooms.filteredRooms rooms s c "" =
      Rooms.filteredRooms (Rooms.filteredRooms rooms "" c "") s "" "" ∧
    Rooms.filteredRooms rooms s c p =
      Rooms.filteredRooms
        (Rooms.filteredRooms (Rooms.filteredRooms rooms s "" "") "" c "") "" "" p ∧
    (∀ room, room ∈ AdminRooms.filteredRooms rooms s f ↔
      room ∈ rooms ∧ matchesSearch s room = true ∧
        AdminRooms.matchesFilter f room = true) ∧
    AdminRooms.filteredRooms rooms s f =
      AdminRooms.filteredRooms (AdminRooms.filteredRooms rooms s "all") "" f ∧
    AdminRooms.filteredRooms rooms s f =
      AdminRooms.filteredRooms (AdminRooms.filteredRooms rooms "" f) s "all" ∧
    (∀ booking, booking ∈ AdminBookings.filteredBookings now bookings s t r ↔
      booking ∈ bookings ∧ AdminBookings.matchesSearch s booking = true ∧
        AdminBookings.matchesTimeFilter now t booking = true ∧
        AdminBookings.matchesRoomFilter r booking = true) ∧
    AdminBookings.filteredBookings now bookings s t r =
      AdminBookings.filteredBookings now
        (AdminBookings.filteredBookings now
          (AdminBookings.filteredBookings now bookings s "all" "") "" t "") "" "all" r ∧
    AdminBookings.filteredBookings now bookings s t r =
      AdminBookings.filteredBookings now
        (AdminBookings.filteredBookings now
          (AdminBookings.filteredBookings now bookings "" "all" r) "" t "") s "all" "" ∧
    AdminBookings.filteredBookings now bookings s t r =
      AdminBookings.filteredBookings now
        (AdminBookings.filteredBookings now
          (AdminBookings.filteredBookings now bookings "" t "") s "all" "") "" "all" r := by
  refine ⟨?_, ?_, ?_, ?_, ?_, ?_, ?_, ?_, ?_, ?_, ?_⟩
  · intro room
    rw [(filteredRooms_perm rooms s c p).mem_iff, List.mem_filter]
    simp
  · simp only [filteredRooms_unsorted, matchesSearch_empty, matchesCapacity_empty,
      Bool.and_true, Bool.true_and]
    rw [(filter_filter_and _ _ rooms).1]
  · simp only [filteredRooms_unsorted, matchesSearch_empty, matchesCapacity_empty,
      Bool.and_true, Bool.true_and]
    rw [(filter_filter_and _ _ rooms).2]
  · simp only [filteredRooms_unsorted, matchesSearch_empty, matchesCapacity_empty,
      Bool.and_true, Bool.true_and]
    simp only [Rooms.filteredRooms, matchesSearch_empty, matchesCapacity_empty,
      Bool.and_true, List.filter_true]
    rw [(filter_filter_and _ _ rooms).1]
  · intro room
    simp [AdminRooms.filteredRooms, List.mem_filter]
  · simp only [AdminRooms.filteredRooms, matchesSearch_empty, matchesFilter_all,
      Bool.and_true, Bool.true_and]
    rw [(filter_filter_and _ _ rooms).1]
  · simp only [AdminRooms.filteredRooms, matchesSearch_empty, matchesFilter_all,
      Bool.and_true, Bool.true_and]
    rw [(filter_filter_and _ _ rooms).2]
  · intro booking
    simp only [AdminBookings.filteredBookings, List.mem_filter, Bool.and_eq_true]
    tauto
  · simp only [AdminBookings.filteredBookings, bookings_matchesSearch_empty,
      matchesTimeFilter_all, matchesRoomFilter_empty, Bool.and_true, Bool.true_and]
    rw [List.filter_filter, List.filter_filter]
    congr 1
    funext b
    cases AdminBookings.matchesTimeFilter now t b <;>
      cases AdminBookings.matchesRoomFilter r b <;>
      cases AdminBookings.matchesSearch s b <;> rfl
  · simp only [AdminBookings.filteredBookings, bookings_matchesSearch_empty,
      matchesTimeFilter_all, matchesRoomFilter_empty, Bool.and_true, Bool.true_and]
    rw [List.filter_filter, List.filter_filter]
    congr 1
    funext b
    cases AdminBookings.matchesTimeFilter now t b <;>
      cases AdminBookings.matchesRoomFilter r b <;>
      cases AdminBookings.matchesSearch s b <;> rfl
  · simp only [AdminBookings.filteredBookings, bookings_matchesSearch_empty,
      matchesTimeFilter_all, matchesRoomFilter_empty, Bool.and_true, Bool.true_and]
    rw [List.filter_filter, List.filter_filter]
    congr 1
    funext b
    cases AdminBookings.matchesTimeFilter now t b <;>
      cases AdminBookings.matchesRoomFilter r b <;>
      cases AdminBookings.matchesSearch s b <;> rfl

/-! ## Claims on the price sort -/

/-- Inserting into a list in order does not move elements of one key past each
other: among the elements of a given key the new one comes first and the others
keep their order. -/
theorem filter_orderedInsert_key (r : α → α → Prop) [DecidableRel r] (key : α → Int)
    (hr : ∀ a b, key a = key b → r a b) (q : Int) (a : α) (l : List α) :
    (l.orderedInsert r a).filter (fun x => decide (key x = q)) =
      if key a = q then a :: l.filter (fun x => decide (key x = q))
      else l.filter (fun x => decide (key x = q)) := by
  induction l with
  | nil =>
    by_cases ha : key a = q <;> simp [List.orderedInsert, List.filter, ha]
  | cons b l ih =>
    by_cases hab : r a b
    · simp only [List.orderedInsert, if_pos hab]
      by_cases ha : key a = q <;> simp [List.filter_cons, ha]
    · have hne : key a ≠ key b := fun h => hab (hr a b h)
      simp only [List.orderedInsert, if_neg hab, List.filter_cons, ih]
      by_cases ha : key a = q
      · have hb : key b ≠ q := fun h => hne (ha.trans h.symm)
        simp [ha, hb]
      · by_cases hb : key b = q <;> simp [ha, hb]

/-- A stable sort keeps the elements of one key in their order. -/
theorem filter_insertionSort_key (r : α → α → Prop) [DecidableRel r] (key : α → Int)
    (hr : ∀ a b, key a = key b → r a b) (q : Int) (l : List α) :
    (l.insertionSort r).filter (fun x => decide (key x = q)) =
      l.filter (fun x => decide (key x = q)) := by
  induction l with
  | nil => rfl
  | cons a l ih =>
    rw [List.insertionSort, filter_orderedInsert_key r key hr q a, ih]
    by_cases ha : key a = q <;> simp [List.filter_cons, ha]

theorem sortBy_lowToHigh_sorted (l : List Room) :
    (sortBy (Rooms.comparePrice "low-to-high") l).Pairwise
      (fun a b => a.price_per_hour ≤ b.price_per_hour) := by
  have hrel : ∀ a b : Room, Rooms.comparePrice "low-to-high" a b ≤ 0 ↔
      a.price_per_hour ≤ b.price_per_hour := by
    intro a b
    simp only [Rooms.comparePrice, if_true]
    omega
  haveI : IsTotal Room (fun a b => Rooms.comparePrice "low-to-high" a b ≤ 0) :=
    ⟨fun a b => by
      simp only [hrel]
      omega⟩
  haveI : IsTrans Room (fun a b => Rooms.comparePrice "low-to-high" a b ≤ 0) :=
    ⟨fun a b c hab hbc => by
      simp only [hrel] at hab hbc ⊢
      omega⟩
  have h := List.sorted_insertionSort
    (fun a b : Room => Rooms.comparePrice "low-to-high" a b ≤ 0) l
  exact List.Pairwise.imp (fun {a b} hab => (hrel a b).1 hab) h

theorem sortBy_highToLow_sorted (l : List Room) :
    (sortBy (Rooms.comparePrice "high-to-low") l).Pairwise
      (fun a b => b.price_per_hour ≤ a.price_per_hour) := by
  have hrel : ∀ a b : Room, Rooms.comparePrice "high-to-low" a b ≤ 0 ↔
      b.price_per_hour ≤ a.price_per_hour := by
    intro a b
    have hne : ¬ ("high-to-low" = "low-to-high") := by decide
    simp only [Rooms.comparePrice, if_neg hne, if_true]
    omega
  haveI : IsTotal Room (fun a b => Rooms.comparePrice "high-to-low" a b ≤ 0) :=
    ⟨fun a b => by
      simp only [hrel]
      omega⟩
  haveI : IsTrans Room (fun a b => Rooms.comparePrice "high-to-low" a b ≤ 0) :=
    ⟨fun a b c hab hbc => by
      simp only [hrel] at hab hbc ⊢
      omega⟩
  have h := List.sorted_insertionSort
    (fun a b : Room => Rooms.comparePrice "high-to-low" a b ≤ 0) l
  exact List.Pairwise.imp (fun {a b} hab => (hrel a b).1 hab) h

/-- The rooms of one price are in the sorted view in the order in which the
filter left them, which is their order in the collection. -/
theorem sortBy_comparePrice_stable (priceSort : String) (q : Int) (l : List Room) :
    (sortBy (Rooms.comparePrice priceSort) l).filter
        (fun room => decide (room.price_per_hour = q)) =
      l.filter (fun room => decide (room.price_per_hour = q)) := by
  unfold sortBy
  apply filter_insertionSort_key _ (fun room : Room => room.price_per_hour)
  intro a b hab
  simp only [Rooms.comparePrice]
  split
  · omega
  · split
    · omega
    · exact le_refl 0

/-- C20: for every collection and every setting of the filters, the Rooms view
with the price sort "low-to-high" is a rearrangement of the filtered rooms in
which prices never decrease, and with "high-to-low" one in which prices never
increase; in both, the rooms of any one price stand in the order they have in
the filtered rooms, which is their order in the fetched collection. -/
theorem filteredRooms_price_sorted (rooms : List Room) (searchTerm capacityFilter : String) :
    (Rooms.filteredRooms rooms searchTerm capacityFilter "low-to-high").Perm
      (Rooms.filteredRooms rooms searchTerm capacityFilter "") ∧
    (Rooms.filteredRooms rooms searchTerm capacityFilter "low-to-high").Pairwise
      (fun a b => a.price_per_hour ≤ b.price_per_hour) ∧
    (Rooms.filteredRooms rooms searchTerm capacityFilter "high-to-low").Perm
      (Rooms.filteredRooms rooms searchTerm capacityFilter "") ∧
    (Rooms.filteredRooms rooms searchTerm capacityFilter "high-to-low").Pairwise
      (fun a b => b.price_per_hour ≤ a.price_per_hour) ∧
    (∀ (priceSort : String) (q : Int),
      (Rooms.filteredRooms rooms searchTerm capacityFilter priceSort).filter
          (fun room => decide (room.price_per_hour = q)) =
        (Rooms.filteredRooms rooms searchTerm capacityFilter "").filter
          (fun room => decide (room.price_per_hour = q))) ∧
    (Rooms.filteredRooms rooms searchTerm capacityFilter "").Sublist rooms := by
  refine ⟨?_, ?_, ?_, ?_, ?_, ?_⟩
  · rw [filteredRooms_unsorted]
    exact filteredRooms_perm rooms searchTerm capacityFilter "low-to-high"
  · exact sortBy_lowToHigh_sorted _
  · rw [filteredRooms_unsorted]
    exact filteredRooms_perm rooms searchTerm capacityFilter "high-to-low"
  · exact sortBy_highToLow_sorted _
  · intro priceSort q
    rw [filteredRooms_unsorted]
    exact sortBy_comparePrice_stable priceSort q _
  · rw [filteredRooms_unsorted]
    exact List.filter_sublist _

/-! ## Gateway calls of the screens -/

theorem status_ne_401_of_ok (r : Response) (h : r.ok = true) : r.status ≠ 401 := by
  simp only [Response.ok, decide_eq_true_eq] at h
  omega

/-- With a session, options that are an object and an ok response, the gateway
hands the response to the screen. -/
theorem fetchWithAuth_ok_response (w : World) (url : String) (options : JVal) (r : Response)
    (hauth : isAuthenticated w.user = .ok true) (hopt : options ≠ .null)
    (hok : r.ok = true) :
    ∃ c, fetchWithAuthRequest w.user url options = .ok c ∧
      fetchWithAuth w url options (.responds r) = (.ok r, w.call c) := by
  refine ⟨_, fetchWithAuthRequest_ok w.user url options hauth hopt, ?_⟩
  simp [fetchWithAuth, fetchWithAuthRequest_ok w.user url options hauth hopt,
    status_ne_401_of_ok r hok]

/-- Without a session the gateway fails whatever the network would answer. -/
theorem fetchWithAuth_error_of_not_auth (w : World) (url : String) (options : JVal)
    (net : FetchOutcome) (h : isAuthenticated w.user = .ok false) :
    ∃ e, (fetchWithAuth w url options net).1 = .error e := by
  have hl : lacksToken w.user = .ok true := by
    rw [lacksToken_eq]
    rw [isAuthenticated_eq] at h
    simp only [Except.ok.injEq] at h
    simp [h]
  exact ⟨.error "No authentication token available",
    by simp [fetchWithAuth, fetchWithAuthRequest, hl]⟩

/-- A rejected `fetch` makes the gateway fail. -/
theorem fetchWithAuth_error_of_rejects (w : World) (url : String) (options : JVal)
    (e : JSError) : ∃ e', (fetchWithAuth w url options (.rejects e)).1 = .error e' := by
  cases hreq : fetchWithAuthRequest w.user url options with
  | error e1 => exact ⟨e1, by simp [fetchWithAuth, hreq]⟩
  | ok c => exact ⟨e, by simp [fetchWithAuth, hreq]⟩

/-- What the gateway returns to the screen is the response of the network. -/
theorem fetchWithAuth_ok_eq (w : World) (url : String) (options : JVal) (r r' : Response)
    (h : (fetchWithAuth w url options (.responds r)).1 = .ok r') : r' = r := by
  cases hreq : fetchWithAuthRequest w.user url options with
  | error e1 => simp [fetchWithAuth, hreq] at h
  | ok c =>
    by_cases h401 : r.status = 401
    · simp [fetchWithAuth, hreq, h401] at h
    · simp [fetchWithAuth, hreq, h401] at h
      exact h.symm

/-! ## Deleting and cancelling -/

/-- After a delete or cancel handler whose question was answered yes and whose
gateway call came back ok, the collection is the old one without the elements
the handler drops. -/
theorem removeAfterConfirm_ok (question url success label failure : String)
    (keep : α → Bool) (s : Listing α) (w : World) (r : Response)
    (hauth : isAuthenticated w.user = .ok true) (hok : r.ok = true) :
    (removeAfterConfirm question url success label failure keep true s w
      (.responds r)).1.collection = s.collection.filter keep := by
  obtain ⟨c, _, hres⟩ := fetchWithAuth_ok_response w url (.obj [("method", .str "DELETE")]) r
    hauth (by simp) hok
  simp [removeAfterConfirm, hres, hok]

/-- A delete or cancel handler whose gateway call fails, or comes back with a
response that is not ok, or whose question was answered no, leaves the
collection as it was. -/
theorem removeAfterConfirm_unchanged (question url success label failure : String)
    (keep : α → Bool) (confirmed : Bool) (s : Listing α) (w : World) (net : FetchOutcome)
    (h : confirmed = false ∨
      (∃ e, (fetchWithAuth w url (.obj [("method", .str "DELETE")]) net).1 = .error e) ∨
      (∃ r, net = .responds r ∧ r.ok = false)) :
    (removeAfterConfirm question url success label failure keep confirmed s w
      net).1.collection = s.collection := by
  rcases h with h | ⟨e, h⟩ | ⟨r, rfl, h⟩
  · simp [removeAfterConfirm, h]
  · cases confirmed with
    | false => simp [removeAfterConfirm]
    | true =>
      simp only [removeAfterConfirm, Bool.not_true, Bool.false_eq_true, if_false]
      cases hres : fetchWithAuth w url (.obj [("method", .str "DELETE")]) net with
      | mk res w1 =>
        rw [hres] at h
        simp only at h
        subst h
        rfl
  · cases confirmed with
    | false => simp [removeAfterConfirm]
    | true =>
      simp only [removeAfterConfirm, Bool.not_true, Bool.false_eq_true, if_false]
      cases hres : fetchWithAuth w url (.obj [("method", .str "DELETE")]) (.responds r) with
      | mk res w1 =>
        cases res with
        | error e => rfl
        | ok r' =>
          have hr : r' = r := fetchWithAuth_ok_eq w url _ r r' (by rw [hres])
          subst hr
          simp [h]

/-- How a gateway call fails for a screen: there is no session, `fetch` rejects,
or the response is not ok. -/
theorem gateway_failure_cases (w : World) (url : String) (net : FetchOutcome)
    (h : isAuthenticated w.user = .ok false ∨ (∃ e, net = .rejects e) ∨
      (∃ r, net = .responds r ∧ r.ok = false)) :
    (∃ e, (fetchWithAuth w url (.obj [("method", .str "DELETE")]) net).1 = .error e) ∨
      (∃ r, net = .responds r ∧ r.ok = false) := by
  rcases h with h | ⟨e, rfl⟩ | h
  · exact Or.inl (fetchWithAuth_error_of_not_auth w url _ net h)
  · exact Or.inl (fetchWithAuth_error_of_rejects w url _ e)
  · exact Or.inr h

/-- C21: after a delete or cancel that was confirmed and whose gateway response
is ok, the collection of the screen is the previous one without the elements
whose id is the deleted id, all others kept as they were and in their order;
when there is no session, `fetch` rejects, the response is not ok, or the
question was answered no, the collection is unchanged. This holds for
`handleDeleteRoom`, `handleDeleteBooking` and `handleCancelBooking`. -/
theorem delete_cancel_collection (id : Int) (rooms : Listing Room)
    (bookings : Listing Booking) (w : World) :
    (∀ r : Response, isAuthenticated w.user = .ok true → r.ok = true →
      (AdminRooms.handleDeleteRoom id true rooms w (.responds r)).1.collection =
        rooms.collection.filter (fun room => decide (room.id ≠ id)) ∧
      (AdminBookings.handleDeleteBooking id true bookings w (.responds r)).1.collection =
        bookings.collection.filter (fun booking => decide (booking.id ≠ id)) ∧
      (UserBookings.handleCancelBooking id true bookings w (.responds r)).1.collection =
        bookings.collection.filter (fun booking => decide (booking.id ≠ id))) ∧
    (∀ (confirmed : Bool) (net : FetchOutcome),
      (confirmed = false ∨ isAuthenticated w.user = .ok false ∨ (∃ e, net = .rejects e) ∨
        (∃ r, net = .responds r ∧ r.ok = false)) →
      (AdminRooms.handleDeleteRoom id confirmed rooms w net).1.collection =
        rooms.collection ∧
      (AdminBookings.handleDeleteBooking id confirmed bookings w net).1.collection =
        bookings.collection ∧
      (UserBookings.handleCancelBooking id confirmed bookings w net).1.collection =
        bookings.collection) := by
  constructor
  · intro r hauth hok
    exact ⟨removeAfterConfirm_ok _ _ _ _ _ _ rooms w r hauth hok,
      removeAfterConfirm_ok _ _ _ _ _ _ bookings w r hauth hok,
      removeAfterConfirm_ok _ _ _ _ _ _ bookings w r hauth hok⟩
  · intro confirmed net h
    have hcase : ∀ url, confirmed = false ∨
        (∃ e, (fetchWithAuth w url (.obj [("method", .str "DELETE")]) net).1 = .error e) ∨
        (∃ r, net = .responds r ∧ r.ok = false) := by
      intro url
      rcases h with h | h
      · exact Or.inl h
      · exact Or.inr (gateway_failure_cases w url net h)
    exact ⟨removeAfterConfirm_unchanged _ _ _ _ _ _ confirmed rooms w net (hcase _),
      removeAfterConfirm_unchanged _ _ _ _ _ _ confirmed bookings w net (hcase _),
      removeAfterConfirm_unchanged _ _ _ _ _ _ confirmed bookings w net (hcase _)⟩

theorem delete_cancel_collection_witness :
    (AdminRooms.handleDeleteRoom 2 true
      { collection :=
          [{ id := 1, name := "Red", description := "Hall", capacity := 12,
             price_per_hour := 80, is_active := true },
           { id := 2, name := "Blue", description := "Corner room", capacity := 4,
             price_per_hour := 30, is_active := true },
           { id := 3, name := "Green", description := "Studio", capacity := 6,
             price_per_hour := 45, is_active := false }],
        loading := false, asked := [] }
      { World.start none with user := .obj [("token", .str "t")], loading := false }
      (.responds { status := 204, body := none })).1.collection =
      [{ id := 1, name := "Red", description := "Hall", capacity := 12,
         price_per_hour := 80, is_active := true },
       { id := 3, name := "Green", description := "Studio", capacity := 6,
         price_per_hour := 45, is_active := false }] :=
  ((delete_cancel_collection 2
    { collection :=
        [{ id := 1, name := "Red", description := "Hall", capacity := 12,
           price_per_hour := 80, is_active := true },
         { id := 2, name := "Blue", description := "Corner room", capacity := 4,
           price_per_hour := 30, is_active := true },
         { id := 3, name := "Green", description := "Studio", capacity := 6,
           price_per_hour := 45, is_active := false }],
      loading := false, asked := [] }
    { collection := [], loading := false, asked := [] }
    { World.start none with user := .obj [("token", .str "t")], loading := false }).1
    { status := 204, body := none } (by rfl) (by decide)).1

/-- C22: after a toggle of room `room` whose gateway response is ok, the
collection has the length and the order of ids it had, the element at every
position is the old one with `is_active` negated (every other field as it was)
when its id is that of `room`, and the old one itself otherwise; the one
request sent is a `PATCH` to the path of the room whose body is the JSON text of
an object with the one member `is_active`, the negation of `room.is_active`. -/
theorem handleToggleRoomStatus_spec (room : Room) (s : Listing Room) (w : World)
    (r : Response) (hauth : isAuthenticated w.user = .ok true) (hok : r.ok = true) :
    (AdminRooms.handleToggleRoomStatus room s w (.responds r)).1.collection.length =
      s.collection.length ∧
    (AdminRooms.handleToggleRoomStatus room s w (.responds r)).1.collection.map Room.id =
      s.collection.map Room.id ∧
    (∀ i : Nat,
      (AdminRooms.handleToggleRoomStatus room s w (.responds r)).1.collection.get? i =
        (s.collection.get? i).map fun x =>
          if x.id = room.id then
            { id := x.id, name := x.name, description := x.description,
              capacity := x.capacity, price_per_hour := x.price_per_hour,
              is_active := !x.is_active }
          else x) ∧
    (∃ init,
      newSince w.requests
          (AdminRooms.handleToggleRoomStatus room s w (.responds r)).2.requests =
        [.plain (origin ++ "/admin/rooms/" ++ toString room.id) init] ∧
      init.member "method" = .str "PATCH" ∧
      init.member "body" =
        .str (if room.is_active then "\x7b\"is_active\":false\x7d"
          else "\x7b\"is_active\":true\x7d")) := by
  obtain ⟨c, hreq, hres⟩ := fetchWithAuth_ok_response w ("/admin/rooms/" ++ toString room.id)
    (.obj [("method", .str "PATCH"),
      ("body", stringifyValue (.obj [("is_active", .bool (!room.is_active))]))]) r
    hauth (by simp) hok
  have hcoll : (AdminRooms.handleToggleRoomStatus room s w (.responds r)).1.collection =
      s.collection.map fun x =>
        if x.id = room.id then { x with is_active := !x.is_active } else x := by
    simp [AdminRooms.handleToggleRoomStatus, hres, hok]
  have hworld : (AdminRooms.handleToggleRoomStatus room s w (.responds r)).2.requests =
      w.requests ++ [c] := by
    simp [AdminRooms.handleToggleRoomStatus, hres, hok, World.toast, World.call,
      World.requests, requestsOf_append, requestsOf]
  refine ⟨?_, ?_, ?_, ?_⟩
  · rw [hcoll, List.length_map]
  · rw [hcoll, List.map_map]
    apply List.map_congr_left
    intro x _
    by_cases hx : x.id = room.id <;> simp [hx]
  · intro i
    rw [hcoll, List.get?_eq_getElem?, List.get?_eq_getElem?, List.getElem?_map]
  · rw [fetchWithAuthRequest_ok w.user _ _ hauth (by simp)] at hreq
    simp only [Except.ok.injEq] at hreq
    subst hreq
    refine ⟨requestInit
      (optionsOrDefault (.obj [("method", .str "PATCH"),
        ("body", stringifyValue (.obj [("is_active", .bool (!room.is_active))]))]))
      (authHeaders (w.user.member "token")
        ((optionsOrDefault (.obj [("method", .str "PATCH"),
          ("body", stringifyValue (.obj [("is_active", .bool (!room.is_active))]))])).member
            "headers")), ?_, ?_, ?_⟩
    · rw [hworld, newSince_append, String.append_assoc]
    · simp only [requestInit, JVal.member, JVal.ownEntries, optionsOrDefault]
      rw [JVal.lookup_objSet_other "method" "headers" _ _ (by decide),
        JVal.lookup_objSpread_nil]
      rfl
    · simp only [requestInit, JVal.member, JVal.ownEntries, optionsOrDefault]
      rw [JVal.lookup_objSet_other "body" "headers" _ _ (by decide),
        JVal.lookup_objSpread_nil]
      cases room.is_active <;> rfl

theorem handleToggleRoomStatus_spec_witness :
    (AdminRooms.handleToggleRoomStatus
      { id := 2, name := "Blue", description := "Corner room", capacity := 4,
        price_per_hour := 30, is_active := true }
      { collection :=
          [{ id := 1, name := "Red", description := "Hall", capacity := 12,
             price_per_hour := 80, is_active := true },
           { id := 2, name := "Blue", description := "Corner room", capacity := 4,
             price_per_hour := 30, is_active := true }],
        loading := false, asked := [] }
      { World.start none with user := .obj [("token", .str "t")], loading := false }
      (.responds { status := 200, body := none })).1.collection.get? 1 =
      some { id := 2, name := "Blue", description := "Corner room", capacity := 4,
             price_per_hour := 30, is_active := false } :=
  (handleToggleRoomStatus_spec
    { id := 2, name := "Blue", description := "Corner room", capacity := 4,
      price_per_hour := 30, is_active := true }
    { collection :=
        [{ id := 1, name := "Red", description := "Hall", capacity := 12,
           price_per_hour := 80, is_active := true },
         { id := 2, name := "Blue", description := "Corner room", capacity := 4,
           price_per_hour := 30, is_active := true }],
      loading := false, asked := [] }
    { World.start none with user := .obj [("token", .str "t")], loading := false }
    { status := 200, body := none } (by rfl) (by decide)).2.2.1 1

/-! ## The admin dashboard -/

/-- C25 (the code against its comment "last 5"): of six fetched bookings the
dashboard shows the first five, in the order fetched, and not the last five
(which leave out the first and hold the sixth); what does hold is that the list
shown never has more than five entries and is the whole list when that has at
most five. -/
theorem recentBookings_first_five (b1 b2 b3 b4 b5 b6 : Booking) :
    AdminDashboard.recentBookings [b1, b2, b3, b4, b5, b6] = [b1, b2, b3, b4, b5] ∧
    [b1, b2, b3, b4, b5, b6].drop ([b1, b2, b3, b4, b5, b6].length - 5) =
      [b2, b3, b4, b5, b6] ∧
    (b1.id ≠ b2.id →
      AdminDashboard.recentBookings [b1, b2, b3, b4, b5, b6] ≠ [b2, b3, b4, b5, b6]) ∧
    (∀ bookingsData : List Booking,
      (AdminDashboard.recentBookings bookingsData).length ≤ 5 ∧
      (bookingsData.length ≤ 5 →
        AdminDashboard.recentBookings bookingsData = bookingsData)) := by
  refine ⟨rfl, rfl, ?_, ?_⟩
  · intro h heq
    simp only [AdminDashboard.recentBookings, List.take, List.cons.injEq] at heq
    exact h (by rw [heq.1])
  · intro bookingsData
    refine ⟨?_, ?_⟩
    · simp only [AdminDashboard.recentBookings, List.length_take]
      omega
    · intro h
      exact List.take_of_length_le h

/-! ## Deleting a user -/

/-- Reading a member that holds a number off a session does not throw. -/
theorem getProp_of_member_num (user : JVal) (k : String) (n : Int)
    (h : user.member k = .num n) : JVal.getProp user k = .ok (.num n) := by
  cases user <;>
    simp_all [JVal.getProp, JVal.member, JVal.ownEntries, JVal.lookup]

/-- C26: `handleDeleteUser` called for the user of the current session (the id
it is called with, or the id of the user shown, is the number the session holds
as `id`) does nothing but show the notification "You cannot delete your own
account": no question is asked, no request is sent, the users collection and
the rest of the state are unchanged, on the users list and on the user details
screen alike, whatever the answer to a question or the network would have
been. -/
theorem handleDeleteUser_self (userId : Int) (confirmed : Bool) (s : Listing User)
    (d : UserDetails.State) (shown : User) (w : World) (net : FetchOutcome)
    (hid : w.user.member "id" = .num userId) (hshown : d.userData = some shown)
    (hsame : shown.id = userId) :
    AdminUsers.handleDeleteUser userId confirmed s w net =
      .ok (s, w.toast (.error "You cannot delete your own account")) ∧
    UserDetails.handleDeleteUser confirmed d w net =
      .ok (d, w.toast (.error "You cannot delete your own account")) ∧
    (w.toast (.error "You cannot delete your own account")).requests = w.requests ∧
    (w.toast (.error "You cannot delete your own account")).navigations = w.navigations ∧
    (w.toast (.error "You cannot delete your own account")).user = w.user := by
  have hget := getProp_of_member_num w.user "id" userId hid
  refine ⟨?_, ?_, ?_, ?_, rfl⟩
  · simp [AdminUsers.handleDeleteUser, hget, JVal.strictEqNum]
  · simp [UserDetails.handleDeleteUser, hshown, hget, JVal.strictEqNum, hsame]
  · simp [World.toast, World.requests, requestsOf_append, requestsOf]
  · simp [World.toast, World.navigations, navigationsOf_append, navigationsOf]

theorem handleDeleteUser_self_witness :
    AdminUsers.handleDeleteUser 3 true
      { collection :=
          [{ id := 3, username := "ada", email := "ada@example.org", is_admin := true },
           { id := 4, username := "bob", email := "bob@example.org", is_admin := false }],
        loading := false, asked := [] }
      { World.start none with
        user := .obj [("id", .num 3), ("token", .str "t"), ("role", .str "admin")],
        loading := false }
      (.responds { status := 200, body := none }) =
    .ok (Prod.mk
      { collection :=
          [{ id := 3, username := "ada", email := "ada@example.org", is_admin := true },
           { id := 4, username := "bob", email := "bob@example.org", is_admin := false }],
        loading := false, asked := [] }
      (World.toast
        { World.start none with
          user := .obj [("id", .num 3), ("token", .str "t"), ("role", .str "admin")],
          loading := false }
        (.error "You cannot delete your own account"))) :=
  (handleDeleteUser_self 3 true
    { collection :=
        [{ id := 3, username := "ada", email := "ada@example.org", is_admin := true },
         { id := 4, username := "bob", email := "bob@example.org", is_admin := false }],
      loading := false, asked := [] }
    { userData :=
        some { id := 3, username := "ada", email := "ada@example.org", is_admin := true },
      loading := false, asked := [], user_id := "3" }
    { id := 3, username := "ada", email := "ada@example.org", is_admin := true }
    { World.start none with
      user := .obj [("id", .num 3), ("token", .str "t"), ("role", .str "admin")],
      loading := false }
    (.responds { status := 200, body := none }) (by rfl) rfl rfl).1

/-! ## The session checks together -/

/-- C27: `isAdmin` never throws, and whenever it is true so is
`isAuthenticated`; it is true exactly when the session is not `null`, its token
is truthy and its role is the string "admin"; a session whose role is "admin"
and whose token is not truthy is not an admin. -/
theorem isAdmin_implies_isAuthenticated (user : JVal) :
    (∃ b, isAdmin user = .ok b) ∧
    (isAdmin user = .ok true → isAuthenticated user = .ok true) ∧
    (isAdmin user = .ok true ↔
      user ≠ .null ∧ (user.member "token").truthy = true ∧
        user.member "role" = .str "admin") ∧
    (user.member "role" = .str "admin" → (user.member "token").truthy = false →
      isAdmin user = .ok false) := by
  have htok : (user.member "token").truthy = true → user.truthy = true := by
    intro h
    by_contra hu
    simp only [Bool.not_eq_true] at hu
    rw [member_of_falsy user "token" hu] at h
    simp [JVal.truthy] at h
  refine ⟨⟨_, isAdmin_eq user⟩, ?_, ?_, ?_⟩
  · rw [isAdmin_eq, isAuthenticated_eq]
    simp only [Except.ok.injEq, Bool.and_eq_true]
    intro h
    exact h.1
  · rw [isAdmin_eq]
    simp only [Except.ok.injEq, Bool.and_eq_true, strictEqStr_eq_true_iff]
    constructor
    · rintro ⟨⟨hu, ht⟩, hr⟩
      refine ⟨?_, ht, hr⟩
      intro hnull
      rw [hnull] at hu
      simp [JVal.truthy] at hu
    · rintro ⟨_, ht, hr⟩
      exact ⟨⟨htok ht, ht⟩, hr⟩
  · intro _ ht
    rw [isAdmin_eq]
    simp [ht]

/-! ## The order of what a 401 does -/

/-- C28: on a response with status 401 the gateway, after the request, does
what `logout` does (the notification "Logged out successfully" and the
navigation to "/") and then shows the notification that the session has expired
and navigates to "/login"; so the call issues two navigations, the last of them
to "/login", and two notifications. -/
theorem fetchWithAuth_unauthorized_effects (w : World) (url : String) (options : JVal)
    (r : Response) (hauth : isAuthenticated w.user = .ok true)
    (hopt : options ≠ .null) (h401 : r.status = 401) :
    (∃ c, newSince w.effects (fetchWithAuth w url options (.responds r)).2.effects =
      [.fetch c, .toast (.success "Logged out successfully"), .push "/",
       .toast (.error "Your session has expired. Please login again."), .push "/login",
       .consoleError "API request failed:"]) ∧
    (fetchWithAuth w url options (.responds r)).2.effects =
      (logout (fetchWithAuth w url options (.responds { status := 200, body := none })).2
        ).effects ++
      [.toast (.error "Your session has expired. Please login again."), .push "/login",
       .consoleError "API request failed:"] ∧
    newSince w.navigations (fetchWithAuth w url options (.responds r)).2.navigations =
      ["/", "/login"] ∧
    newSince w.toasts (fetchWithAuth w url options (.responds r)).2.toasts =
      [.success "Logged out successfully",
       .error "Your session has expired. Please login again."] := by
  have hreq := fetchWithAuthRequest_ok w.user url options hauth hopt
  have heff : (fetchWithAuth w url options (.responds r)).2.effects =
      w.effects ++ [.fetch (.plain (origin ++ url)
        (requestInit (optionsOrDefault options)
          (authHeaders (w.user.member "token")
            ((optionsOrDefault options).member "headers")))),
        .toast (.success "Logged out successfully"), .push "/",
        .toast (.error "Your session has expired. Please login again."), .push "/login",
        .consoleError "API request failed:"] := by
    simp [fetchWithAuth, hreq, h401, logout, World.push, World.toast, World.call,
      World.consoleError]
  refine ⟨⟨_, by rw [heff, newSince_append]⟩, ?_, ?_, ?_⟩
  · rw [heff]
    simp [fetchWithAuth, hreq, logout, World.push, World.toast, World.call]
  · simp only [World.navigations, heff, navigationsOf_append, newSince_append]
    rfl
  · simp only [World.toasts, heff, toastsOf_append, newSince_append]
    rfl

theorem fetchWithAuth_unauthorized_effects_witness :
    newSince ([] : List String)
      (fetchWithAuth
        { World.start none with user := .obj [("token", .str "t")], loading := false }
        "/bookings" .undefined
        (.responds { status := 401, body := none })).2.navigations = ["/", "/login"] :=
  (fetchWithAuth_unauthorized_effects
    { World.start none with user := .obj [("token", .str "t")], loading := false }
    "/bookings" .undefined { status := 401, body := none }
    (by rfl) (by simp) rfl).2.2.1

/-! ## The edit form of a room -/

/-- For two Numbers that are not `NaN`, `a < b` fails exactly when `b <= a`. -/
theorem not_lt_iff_le (a b : JSNum) (ha : a ≠ .nan) (hb : b ≠ .nan) :
    ¬ a < b ↔ b ≤ a := by
  show ¬ JSNum.lt a b = true ↔ JSNum.le b a = true
  cases a <;> cases b <;> simp_all [JSNum.lt, JSNum.le]

/-- For two Numbers that are not `NaN`, `a <= b` fails exactly when `b < a`. -/
theorem not_le_iff_lt (a b : JSNum) (ha : a ≠ .nan) (hb : b ≠ .nan) :
    ¬ a ≤ b ↔ b < a := by
  show ¬ JSNum.le a b = true ↔ JSNum.lt b a = true
  cases a <;> cases b <;> simp_all [JSNum.lt, JSNum.le]

theorem ofNat_ne_nan (n : ℕ) : (OfNat.ofNat n : JSNum) ≠ .nan := by
  show JSNum.finite _ ≠ _
  simp

/-- What `validate` computes, by the four tests it makes. -/
theorem validate_eq (formData : EditRoom.FormData) :
    EditRoom.validate formData =
      ((if trim formData.name = "" then [("name", JVal.str "Room name is required")]
          else []) ++
        (if trim formData.description = "" then
          [("description", JVal.str "Description is required")] else []) ++
        (if formData.capacity.toNumber < 1 then
          [("capacity", JVal.str "Capacity must be at least 1")] else []) ++
        (if formData.price_per_hour.toNumber ≤ 0 then
          [("price_per_hour", JVal.str "Price must be greater than 0")] else []),
       decide (trim formData.name ≠ "" ∧ trim formData.description ≠ "" ∧
         ¬ formData.capacity.toNumber < 1 ∧ ¬ formData.price_per_hour.toNumber ≤ 0)) := by
  by_cases h1 : trim formData.name = "" <;>
  by_cases h2 : trim formData.description = "" <;>
  by_cases h3 : formData.capacity.toNumber < 1 <;>
  by_cases h4 : formData.price_per_hour.toNumber ≤ 0 <;>
  simp [EditRoom.validate, JVal.truthy, JVal.objSet, JVal.hasKey, h1, h2, h3, h4]

/-- The text "0.5" of a control reads as the Number one half. -/
theorem toNumber_half : toNumber "0.5" = .finite (1 / 2) := by
  have h : toNumber "0.5" = JSNum.ofRat (((5 : ℕ) : ℚ) * 10 ^ ((0 : ℤ) - ((1 : ℕ) : ℤ))) := rfl
  have hd := ofRat_of_dyadic 1 (-1) (by norm_num) (by norm_num) (by
    rw [abs_of_pos (by norm_num)]
    norm_num)
  rw [h]
  norm_num at hd ⊢
  exact hd

/-- The text of a control that holds a whole number below 2^53 reads as that
number. -/
theorem toNumber_four : toNumber "4" = .finite 4 := by
  have h : toNumber "4" = JSNum.ofRat (((4 : ℕ) : ℚ) * 10 ^ ((0 : ℤ) - ((0 : ℕ) : ℤ))) := rfl
  have hd := ofRat_intCast 4 (by norm_num)
  rw [h]
  norm_num at hd ⊢
  exact hd

theorem toNumber_zero : toNumber "0" = .finite 0 := by
  have h : toNumber "0" = JSNum.ofRat (((0 : ℕ) : ℚ) * 10 ^ ((0 : ℤ) - ((0 : ℕ) : ℤ))) := rfl
  rw [h]
  simp [JSNum.ofRat]

theorem toNumber_empty : toNumber "" = .finite 0 := by
  show (0 : JSNum) = _
  show JSNum.finite _ = _
  norm_num

/-- C23: `validate` accepts the form exactly when the name and the description
are not blank after trimming and neither numeric test of the code fires
(`capacity < 1`, `price_per_hour <= 0`, on the Numbers that the fields read as);
for fields that read as Numbers other than `NaN`, which is what the number
controls and the rooms of the service hold, that is: capacity at least 1 and
price per hour above 0. The errors record it stores has an entry for a field
exactly when that field fails its test, and for no other name; and when it
rejects, `handleSubmit` stores the errors and does nothing else: no gateway
call, no notification, no navigation. A price of "0.5" passes, a price of "0"
and a capacity left empty do not. -/
theorem validate_spec (body : String) (s : EditRoom.State) (w : World) (net : FetchOutcome) :
    ((EditRoom.validate s.formData).2 = true ↔
      trim s.formData.name ≠ "" ∧ trim s.formData.description ≠ "" ∧
        ¬ s.formData.capacity.toNumber < 1 ∧ ¬ s.formData.price_per_hour.toNumber ≤ 0) ∧
    (s.formData.capacity.toNumber ≠ .nan → s.formData.price_per_hour.toNumber ≠ .nan →
      ((EditRoom.validate s.formData).2 = true ↔
        trim s.formData.name ≠ "" ∧ trim s.formData.description ≠ "" ∧
          1 ≤ s.formData.capacity.toNumber ∧ 0 < s.formData.price_per_hour.toNumber)) ∧
    (JVal.hasKey "name" (EditRoom.validate s.formData).1 = true ↔
      trim s.formData.name = "") ∧
    (JVal.hasKey "description" (EditRoom.validate s.formData).1 = true ↔
      trim s.formData.description = "") ∧
    (JVal.hasKey "capacity" (EditRoom.validate s.formData).1 = true ↔
      s.formData.capacity.toNumber < 1) ∧
    (JVal.hasKey "price_per_hour" (EditRoom.validate s.formData).1 = true ↔
      s.formData.price_per_hour.toNumber ≤ 0) ∧
    (∀ k, JVal.hasKey k (EditRoom.validate s.formData).1 = true →
      k = "name" ∨ k = "description" ∨ k = "capacity" ∨ k = "price_per_hour") ∧
    ((EditRoom.validate s.formData).2 = false →
      (EditRoom.handleSubmit body s w net).2 = w ∧
      (EditRoom.handleSubmit body s w net).2.requests = w.requests ∧
      (EditRoom.handleSubmit body s w net).1.errors = (EditRoom.validate s.formData).1 ∧
      (EditRoom.handleSubmit body s w net).1.formData = s.formData) ∧
    EditRoom.validate
      { name := "Blue", description := "Corner room", capacity := .text "4",
        price_per_hour := .text "0.5", is_active := true, image_url := "" } = ([], true) ∧
    EditRoom.validate
      { name := "Blue", description := "Corner room", capacity := .text "4",
        price_per_hour := .text "0", is_active := true, image_url := "" } =
      ([("price_per_hour", .str "Price must be greater than 0")], false) ∧
    EditRoom.validate
      { name := "Blue", description := "Corner room", capacity := .text "",
        price_per_hour := .number (.finite (1 / 2)), is_active := true, image_url := "" } =
      ([("capacity", .str "Capacity must be at least 1")], false) := by
  have hname : trim "Blue" ≠ "" := by decide
  have hdesc : trim "Corner room" ≠ "" := by decide
  have hlt : ∀ (a : ℚ) (b : ℕ), (JSNum.finite a < (OfNat.ofNat b : JSNum)) ↔ a < (b : ℚ) := by
    intro a b
    show JSNum.lt (.finite a) (.finite (b : ℚ)) = true ↔ _
    simp [JSNum.lt]
  have hle : ∀ (a : ℚ) (b : ℕ), (JSNum.finite a ≤ (OfNat.ofNat b : JSNum)) ↔ a ≤ (b : ℚ) := by
    intro a b
    show JSNum.le (.finite a) (.finite (b : ℚ)) = true ↔ _
    simp [JSNum.le]
  refine ⟨?_, ?_, ?_, ?_, ?_, ?_, ?_, ?_, ?_, ?_, ?_⟩
  · rw [validate_eq]
    simp
  · intro hc hp
    rw [validate_eq]
    simp only [decide_eq_true_eq]
    rw [not_lt_iff_le _ _ hc (ofNat_ne_nan 1), not_le_iff_lt _ _ hp (ofNat_ne_nan 0)]
  · rw [validate_eq]
    by_cases h1 : trim s.formData.name = "" <;>
    by_cases h2 : trim s.formData.description = "" <;>
    by_cases h3 : s.formData.capacity.toNumber < 1 <;>
    by_cases h4 : s.formData.price_per_hour.toNumber ≤ 0 <;>
    simp [JVal.hasKey, h1, h2, h3, h4]
  · rw [validate_eq]
    by_cases h1 : trim s.formData.name = "" <;>
    by_cases h2 : trim s.formData.description = "" <;>
    by_cases h3 : s.formData.capacity.toNumber < 1 <;>
    by_cases h4 : s.formData.price_per_hour.toNumber ≤ 0 <;>
    simp [JVal.hasKey, h1, h2, h3, h4]
  · rw [validate_eq]
    by_cases h1 : trim s.formData.name = "" <;>
    by_cases h2 : trim s.formData.description = "" <;>
    by_cases h3 : s.formData.capacity.toNumber < 1 <;>
    by_cases h4 : s.formData.price_per_hour.toNumber ≤ 0 <;>
    simp [JVal.hasKey, h1, h2, h3, h4]
  · rw [validate_eq]
    by_cases h1 : trim s.formData.name = "" <;>
    by_cases h2 : trim s.formData.description = "" <;>
    by_cases h3 : s.formData.capacity.toNumber < 1 <;>
    by_cases h4 : s.formData.price_per_hour.toNumber ≤ 0 <;>
    simp [JVal.hasKey, h1, h2, h3, h4]
  · intro k
    rw [validate_eq]
    by_cases h1 : trim s.formData.name = "" <;>
    by_cases h2 : trim s.formData.description = "" <;>
    by_cases h3 : s.formData.capacity.toNumber < 1 <;>
    by_cases h4 : s.formData.price_per_hour.toNumber ≤ 0 <;>
    simp [JVal.hasKey, h1, h2, h3, h4] <;>
    intro h <;> simp only [@eq_comm _ k] <;> tauto
  · intro h
    have hres : EditRoom.handleSubmit body s w net =
        ({ s with errors := (EditRoom.validate s.formData).1 }, w) := by
      simp [EditRoom.handleSubmit, h]
    rw [hres]
    exact ⟨rfl, rfl, rfl, rfl⟩
  · rw [validate_eq]
    simp only [EditRoom.Field.toNumber, toNumber_four, toNumber_half, hlt, hle]
    norm_num [hname, hdesc]
  · rw [validate_eq]
    simp only [EditRoom.Field.toNumber, toNumber_four, toNumber_zero, hlt, hle]
    norm_num [hname, hdesc]
  · rw [validate_eq]
    simp only [EditRoom.Field.toNumber, toNumber_empty, hlt, hle]
    norm_num [hname, hdesc]

/-- A form that `validate` accepts is sent: with a session, `handleSubmit` of
the edit form makes one gateway call, whatever the network answers. -/
theorem EditRoom_handleSubmit_accepted (body : String) (s : EditRoom.State) (w : World)
    (net : FetchOutcome) (hvalid : (EditRoom.validate s.formData).2 = true)
    (hauth : isAuthenticated w.user = .ok true) :
    ∃ c, (EditRoom.handleSubmit body s w net).2.requests = w.requests ++ [c] := by
  have hreq := fetchWithAuthRequest_ok w.user ("/admin/rooms/" ++ s.room_id)
    (.obj [("method", .str "PATCH"), ("body", .str body)]) hauth (by simp)
  have hcall := fetchWithAuth_requests w ("/admin/rooms/" ++ s.room_id)
    (.obj [("method", .str "PATCH"), ("body", .str body)]) net _ hreq
  refine ⟨.plain (origin ++ ("/admin/rooms/" ++ s.room_id))
    (requestInit
      (optionsOrDefault (.obj [("method", .str "PATCH"), ("body", .str body)]))
      (authHeaders (w.user.member "token")
        ((optionsOrDefault (.obj [("method", .str "PATCH"),
          ("body", .str body)])).member "headers"))), ?_⟩
  rw [← hcall]
  simp only [EditRoom.handleSubmit, hvalid, Bool.not_true, Bool.false_eq_true, if_false]
  cases hres : fetchWithAuth w ("/admin/rooms/" ++ s.room_id)
    (.obj [("method", .str "PATCH"), ("body", .str body)]) net with
  | mk res w1 =>
    cases res with
    | error e =>
      simp [EditRoom.submitFailed, World.toast, World.consoleError, World.requests,
        requestsOf_append, requestsOf]
    | ok response =>
      simp only
      split
      · split
        · simp [EditRoom.submitFailed, World.toast, World.consoleError, World.requests,
            requestsOf_append, requestsOf]
        · split <;>
            simp [EditRoom.submitFailed, World.toast, World.consoleError, World.requests,
              requestsOf_append, requestsOf]
      · simp [World.toast, World.push, World.requests, requestsOf_append, requestsOf]

/-- A string is blank after trimming exactly when all its characters are white
space. -/
theorem trim_eq_empty_iff (s : String) :
    trim s = "" ↔ ∀ c ∈ s.toList, isWhiteSpace c = true := by
  have hmk : ∀ l : List Char, String.mk l = "" ↔ l = [] := by
    intro l
    constructor
    · intro h
      have := congrArg String.toList h
      simpa using this
    · intro h
      rw [h]
  unfold trim
  rw [hmk, List.reverse_eq_nil_iff, List.dropWhile_eq_nil_iff]
  constructor
  · intro h
    rw [← List.dropWhile_eq_nil_iff]
    cases hd : s.toList.dropWhile isWhiteSpace with
    | nil => rfl
    | cons c cs =>
      exfalso
      have hc : isWhiteSpace c = true := h c (by rw [hd]; simp)
      have hhead := List.head_dropWhile_not isWhiteSpace s.toList (by rw [hd]; simp)
      simp only [hd, List.head_cons] at hhead
      rw [hc] at hhead
      exact absurd hhead (by decide)
  · intro h c hc
    rw [List.mem_reverse] at hc
    exact h c ((List.dropWhile_sublist _).subset hc)

/-! ## The error shown for a response that is not ok -/

/-- Reading a member of a response body that is neither `null` nor `undefined`
does not throw. -/
theorem getProp_of_given (v : JVal) (k : String) (h : v ≠ .null ∧ v ≠ .undefined) :
    JVal.getProp v k = .ok (v.member k) := by
  cases v <;> simp_all [JVal.getProp]

/-- A value with a member that is a string is neither `null` nor `undefined`. -/
theorem given_of_member_str (v : JVal) (k m : String) (h : v.member k = .str m) :
    v ≠ .null ∧ v ≠ .undefined := by
  cases v <;> simp_all [JVal.member, JVal.ownEntries, JVal.lookup]

/-- The notification that `login` shows for a response that is not ok and whose
body is neither `null` nor `undefined`. -/
theorem login_not_ok_toasts (w : World) (credentials role : JVal) (r : Response)
    (errorData : JVal) (hnot : r.ok = false) (hbody : r.body = some errorData)
    (hdata : errorData ≠ .null ∧ errorData ≠ .undefined) :
    (login w credentials role (.responds r)).2.toasts =
      w.toasts ++ [.error
        (if ((errorData.member "message").orElse (.str "Login failed")).toStr ≠ "" then
          ((errorData.member "message").orElse (.str "Login failed")).toStr
        else "Login failed")] := by
  simp [login, loginTry, hnot, Response.json, hbody, getProp_of_given errorData "message" hdata,
    JSError.message, World.toast, World.call, World.toasts, toastsOf_append, toastsOf]

/-- The notification that `login` shows for a response that is not ok and whose
body cannot be read: the message of the exception, whether the body is not JSON
or is `null`. -/
theorem login_unreadable_toasts (w : World) (credentials role : JVal) (r : Response)
    (hnot : r.ok = false) :
    (r.body = none →
      (login w credentials role (.responds r)).2.toasts =
        w.toasts ++ [.error "Unexpected token or end of JSON input"]) ∧
    (r.body = some .null →
      (login w credentials role (.responds r)).2.toasts =
        w.toasts ++ [.error "Cannot read properties of undefined or null: message"]) := by
  constructor <;> intro hbody <;>
    simp [login, loginTry, hnot, Response.json, hbody, JVal.getProp, JSError.message,
      World.toast, World.call, World.toasts, toastsOf_append, toastsOf]

/-- The notification that the booking form shows for a response that is not ok,
is not a 401, and whose body is neither `null` nor `undefined`. -/
theorem handleSubmit_not_ok_toasts (clock : Clock) (s : BookRoom.State) (w : World)
    (r : Response) (errorData : JVal) (hnot : r.ok = false)
    (hbody : r.body = some errorData)
    (hdata : errorData ≠ .null ∧ errorData ≠ .undefined)
    (hauth : isAuthenticated w.user = .ok true) (h401 : r.status ≠ 401)
    (hform : ¬ (s.bookingDate = "" ∨ s.startTime = "" ∨ s.duration < 1)) :
    (BookRoom.handleSubmit clock s w (.responds r)).2.toasts =
      w.toasts ++ [.error
        (if ((errorData.member "message").orElse
            (.str "Failed to create booking")).toStr ≠ "" then
          ((errorData.member "message").orElse (.str "Failed to create booking")).toStr
        else "Failed to book room. Please try again later.")] := by
  have hreq := fetchWithAuthRequest_ok w.user "/bookings"
    (.obj [("method", .str "POST"), ("body", stringifyValue (BookRoom.bookingPayload clock s))])
    hauth (by simp)
  unfold BookRoom.handleSubmit
  rw [if_neg hform]
  simp [fetchWithAuth, hreq, h401, hnot, Response.json, hbody,
    getProp_of_given errorData "message" hdata, BookRoom.submitFailed, JSError.message,
    World.toast, World.call, World.consoleError, World.toasts, toastsOf_append, toastsOf]

/-- The notification that the booking form shows for a response that is not ok,
is not a 401, and whose body cannot be read. -/
theorem handleSubmit_unreadable_toasts (clock : Clock) (s : BookRoom.State) (w : World)
    (r : Response) (hnot : r.ok = false)
    (hauth : isAuthenticated w.user = .ok true) (h401 : r.status ≠ 401)
    (hform : ¬ (s.bookingDate = "" ∨ s.startTime = "" ∨ s.duration < 1)) :
    (r.body = none →
      (BookRoom.handleSubmit clock s w (.responds r)).2.toasts =
        w.toasts ++ [.error "Unexpected token or end of JSON input"]) ∧
    (r.body = some .null →
      (BookRoom.handleSubmit clock s w (.responds r)).2.toasts =
        w.toasts ++ [.error "Cannot read properties of undefined or null: message"]) := by
  have hreq := fetchWithAuthRequest_ok w.user "/bookings"
    (.obj [("method", .str "POST"), ("body", stringifyValue (BookRoom.bookingPayload clock s))])
    hauth (by simp)
  constructor <;> intro hbody <;>
  · unfold BookRoom.handleSubmit
    rw [if_neg hform]
    simp [fetchWithAuth, hreq, h401, hnot, Response.json, hbody, JVal.getProp,
      BookRoom.submitFailed, JSError.message,
      World.toast, World.call, World.consoleError, World.toasts, toastsOf_append, toastsOf]

/-- The notifications of a booking submission that is answered with status
401: those of the forced logout, then the error of the gateway; the body of the
response is not read. -/
theorem handleSubmit_unauthorized_toasts (clock : Clock) (s : BookRoom.State) (w : World)
    (r : Response) (hauth : isAuthenticated w.user = .ok true) (h401 : r.status = 401)
    (hform : ¬ (s.bookingDate = "" ∨ s.startTime = "" ∨ s.duration < 1)) :
    (BookRoom.handleSubmit clock s w (.responds r)).2.toasts =
      w.toasts ++ [.success "Logged out successfully",
        .error "Your session has expired. Please login again.",
        .error "Authentication token expired"] := by
  have hreq := fetchWithAuthRequest_ok w.user "/bookings"
    (.obj [("method", .str "POST"), ("body", stringifyValue (BookRoom.bookingPayload clock s))])
    hauth (by simp)
  unfold BookRoom.handleSubmit
  rw [if_neg hform]
  simp [fetchWithAuth, hreq, h401, logout, BookRoom.submitFailed, JSError.message,
    World.toast, World.call, World.push, World.consoleError, World.toasts, toastsOf_append,
    toastsOf]

/-- The form of the examples below is filled. -/
theorem filled_form :
    ¬ ("2026-12-24" = "" ∨ "09:00" = "" ∨ (2 : JSNum) < 1) := by
  intro h
  rcases h with h | h | h
  · exact absurd h (by decide)
  · exact absurd h (by decide)
  · exact absurd ((lt_ofNat 2 1).mp h) (by decide)

/-- C24 (as stated, refuted): a response with status 400 whose body has the
message field "" makes `login` show "Login failed", not the message; and a
response with status 401 to the booking submission whose body has the message
"Token rejected" is never read: the form shows the error of the gateway,
"Authentication token expired", after the two notifications of the forced
logout. -/
theorem login_empty_message_falls_back :
    JVal.hasKey "message" [("message", JVal.str "")] = true ∧
    (login { World.start none with loading := false }
      (.obj [("email", .str "ada@example.org"), ("password", .str "pw")]) (.str "user")
      (.responds { status := 400, body := some (.obj [("message", .str "")]) })).2.toasts =
      [.error "Login failed"] ∧
    (BookRoom.handleSubmit { now := 1793750400000, localTZA := fixedZone 0 }
      { bookingDate := "2026-12-24", startTime := "09:00", duration := 2,
        submitting := false, room_id := "7" }
      { World.start none with user := .obj [("token", .str "t")], loading := false }
      (.responds
        { status := 401,
          body := some (.obj [("message", .str "Token rejected")]) })).2.toasts =
      [.success "Logged out successfully",
       .error "Your session has expired. Please login again.",
       .error "Authentication token expired"] := by
  refine ⟨rfl, rfl, ?_⟩
  exact handleSubmit_unauthorized_toasts _ _ _ _ (by rfl) rfl filled_form

/-- C24 (amended): for a response to `login` that is not ok, the error shown is
the message of the body verbatim when the body is a JSON value with a message
that is a string other than the empty one; it is "Login failed" when the body is
a JSON value other than `null` whose message is absent or falsy (`null`,
`false`, 0, the empty string); and it is the message of the exception thrown
while reading the body when the body is not JSON or is `null`. With a session
and a filled form the booking submission does the same, with the text "Failed
to create booking", for every status that is not ok other than 401; for 401,
whatever the body, the notifications are those of the forced logout followed by
"Authentication token expired". -/
theorem error_message_surfaced (w : World) (credentials role : JVal) (clock : Clock)
    (s : BookRoom.State) (r : Response) (hnot : r.ok = false) :
    (∀ errorData m, r.body = some errorData → errorData.member "message" = .str m → m ≠ "" →
      newSince w.toasts (login w credentials role (.responds r)).2.toasts = [.error m]) ∧
    (∀ errorData, r.body = some errorData → errorData ≠ .null → errorData ≠ .undefined →
      (errorData.member "message").truthy = false →
      newSince w.toasts (login w credentials role (.responds r)).2.toasts =
        [.error "Login failed"]) ∧
    (r.body = none →
      newSince w.toasts (login w credentials role (.responds r)).2.toasts =
        [.error "Unexpected token or end of JSON input"]) ∧
    (r.body = some .null →
      newSince w.toasts (login w credentials role (.responds r)).2.toasts =
        [.error "Cannot read properties of undefined or null: message"]) ∧
    (isAuthenticated w.user = .ok true →
      ¬ (s.bookingDate = "" ∨ s.startTime = "" ∨ s.duration < 1) →
      (r.status ≠ 401 →
        (∀ errorData m, r.body = some errorData → errorData.member "message" = .str m →
          m ≠ "" →
          newSince w.toasts (BookRoom.handleSubmit clock s w (.responds r)).2.toasts =
            [.error m]) ∧
        (∀ errorData, r.body = some errorData → errorData ≠ .null →
          errorData ≠ .undefined → (errorData.member "message").truthy = false →
          newSince w.toasts (BookRoom.handleSubmit clock s w (.responds r)).2.toasts =
            [.error "Failed to create booking"]) ∧
        (r.body = none →
          newSince w.toasts (BookRoom.handleSubmit clock s w (.responds r)).2.toasts =
            [.error "Unexpected token or end of JSON input"]) ∧
        (r.body = some .null →
          newSince w.toasts (BookRoom.handleSubmit clock s w (.responds r)).2.toasts =
            [.error "Cannot read properties of undefined or null: message"])) ∧
      (r.status = 401 →
        newSince w.toasts (BookRoom.handleSubmit clock s w (.responds r)).2.toasts =
          [.success "Logged out successfully",
           .error "Your session has expired. Please login again.",
           .error "Authentication token expired"])) := by
  refine ⟨?_, ?_, ?_, ?_, ?_⟩
  · intro errorData m hbody hm hne
    rw [login_not_ok_toasts w credentials role r errorData hnot hbody
      (given_of_member_str errorData "message" m hm), newSince_append, hm]
    simp [JVal.orElse, JVal.truthy, JVal.toStr, hne]
  · intro errorData hbody h1 h2 hf
    rw [login_not_ok_toasts w credentials role r errorData hnot hbody ⟨h1, h2⟩,
      newSince_append]
    simp [JVal.orElse, hf, JVal.toStr]
  · intro hbody
    rw [(login_unreadable_toasts w credentials role r hnot).1 hbody, newSince_append]
  · intro hbody
    rw [(login_unreadable_toasts w credentials role r hnot).2 hbody, newSince_append]
  · intro hauth hform
    refine ⟨?_, ?_⟩
    · intro h401
      refine ⟨?_, ?_, ?_, ?_⟩
      · intro errorData m hbody hm hne
        rw [handleSubmit_not_ok_toasts clock s w r errorData hnot hbody
          (given_of_member_str errorData "message" m hm) hauth h401 hform,
          newSince_append, hm]
        simp [JVal.orElse, JVal.truthy, JVal.toStr, hne]
      · intro errorData hbody h1 h2 hf
        rw [handleSubmit_not_ok_toasts clock s w r errorData hnot hbody ⟨h1, h2⟩ hauth h401
          hform, newSince_append]
        simp [JVal.orElse, hf, JVal.toStr]
      · intro hbody
        rw [(handleSubmit_unreadable_toasts clock s w r hnot hauth h401 hform).1 hbody,
          newSince_append]
      · intro hbody
        rw [(handleSubmit_unreadable_toasts clock s w r hnot hauth h401 hform).2 hbody,
          newSince_append]
    · intro h401
      rw [handleSubmit_unauthorized_toasts clock s w r hauth h401 hform, newSince_append]

theorem error_message_surfaced_witness :
    newSince ([] : List Toast)
      (login { World.start none with loading := false }
        (.obj [("email", .str "ada@example.org"), ("password", .str "pw")]) (.str "user")
        (.responds
          { status := 403,
            body := some (.obj [("message", .str "Wrong password")]) })).2.toasts =
      [.error "Wrong password"] :=
  (error_message_surfaced { World.start none with loading := false }
    (.obj [("email", .str "ada@example.org"), ("password", .str "pw")]) (.str "user")
    { now := 1793750400000, localTZA := fixedZone 0 }
    { bookingDate := "2026-12-24", startTime := "09:00", duration := 2,
      submitting := false, room_id := "7" }
    { status := 403, body := some (.obj [("message", .str "Wrong password")]) }
    (by decide)).1
    (.obj [("message", .str "Wrong password")]) "Wrong password" rfl (by rfl) (by decide)

/-! ## The menus of the Navbar -/

/-- The menu of the Navbar is the signed-in one whatever the provider hands
over. -/
theorem menu_eq (auth : AuthValue) :
    Navbar.menu auth =
      [.link "/rooms" "Rooms", .link "/admin" "Admin Dashboard",
       .link "/bookings/user" "My Bookings",
       .greeting ((auth.user.member "email").orElse (.str "User")), .button "Logout"] := by
  simp [Navbar.menu, JSFunction.truthy]

/-- C29: the Navbar tests the functions `isAuthenticated` and `isAdmin`
themselves, which are truthy, so for every session state, the absent session
included, and whatever a call of the functions would return, the desktop menu
and the open mobile menu are the signed-in ones: Rooms, Admin Dashboard, My
Bookings, the greeting and Logout; the links Login and Register are never
rendered. For the absent session the functions, if called, would both return
false, and the greeting names "User". -/
theorem Navbar_menu_ignores_session (w : World) (isMenuOpen : Bool) :
    (Navbar.render (useAuth w) isMenuOpen).desktop =
      [.link "/rooms" "Rooms", .link "/admin" "Admin Dashboard",
       .link "/bookings/user" "My Bookings",
       .greeting ((w.user.member "email").orElse (.str "User")), .button "Logout"] ∧
    (Navbar.render (useAuth w) true).mobile =
      some [.link "/rooms" "Rooms", .link "/admin" "Admin Dashboard",
       .link "/bookings/user" "My Bookings",
       .greeting ((w.user.member "email").orElse (.str "User")), .button "Logout"] ∧
    (Navbar.render (useAuth w) false).mobile = none ∧
    (∀ auth : AuthValue,
      Navbar.Item.link "/login" "Login" ∉ Navbar.menu auth ∧
      Navbar.Item.link "/register" "Register" ∉ Navbar.menu auth ∧
      Navbar.Item.link "/admin" "Admin Dashboard" ∈ Navbar.menu auth ∧
      Navbar.Item.link "/bookings/user" "My Bookings" ∈ Navbar.menu auth ∧
      Navbar.Item.button "Logout" ∈ Navbar.menu auth) ∧
    (useAuth (World.start none)).isAuthenticated.call () = .ok false ∧
    (useAuth (World.start none)).isAdmin.call () = .ok false ∧
    (Navbar.render (useAuth (World.start none)) isMenuOpen).desktop =
      [.link "/rooms" "Rooms", .link "/admin" "Admin Dashboard",
       .link "/bookings/user" "My Bookings", .greeting (.str "User"), .button "Logout"] := by
  refine ⟨?_, ?_, rfl, ?_, rfl, rfl, ?_⟩
  · simp [Navbar.render, menu_eq, useAuth]
  · simp [Navbar.render, menu_eq, useAuth]
  · intro auth
    rw [menu_eq]
    simp
  · simp [Navbar.render, menu_eq, useAuth]
    rfl

/-! ## The duration of a booking and its price -/

theorem leadingDigits_zeros (acc k : Nat) :
    leadingDigits 10 (some acc) (List.replicate k '0') = some (acc * 10 ^ k) := by
  induction k generalizing acc with
  | zero => simp [leadingDigits]
  | succ k ih =>
    have h0 : hexDigit '0' = some 0 := by decide
    simp only [List.replicate_succ, leadingDigits, h0]
    rw [if_pos (by decide), Option.getD_some, ih]
    congr 1
    ring

theorem leadingDigits_hex_zeros (acc k : Nat) :
    leadingDigits 16 (some acc) (List.replicate k '0') = some (acc * 16 ^ k) := by
  induction k generalizing acc with
  | zero => simp [leadingDigits]
  | succ k ih =>
    have h0 : hexDigit '0' = some 0 := by decide
    simp only [List.replicate_succ, leadingDigits, h0]
    rw [if_pos (by decide), Option.getD_some, ih]
    congr 1
    ring

/-- The text of a one followed by `k` zeros is read as the whole number
`10 ^ k`. -/
theorem parseIntDigits_power (k : Nat) :
    parseIntDigits (String.mk ('1' :: List.replicate k '0')) = some (false, 10 ^ k) := by
  have h1 : hexDigit '1' = some 1 := by decide
  simp [parseIntDigits, isWhiteSpace, leadingDigits, h1, leadingDigits_zeros]

/-- The text `0x1` followed by `k` zeros is read as the whole number `16 ^ k`. -/
theorem parseIntDigits_hex_power (k : Nat) :
    parseIntDigits (String.mk ('0' :: 'x' :: '1' :: List.replicate k '0')) =
      some (false, 16 ^ k) := by
  have h1 : hexDigit '1' = some 1 := by decide
  simp [parseIntDigits, isWhiteSpace, leadingDigits, h1, leadingDigits_hex_zeros]

theorem one_eq : (1 : JSNum) = .finite 1 := by
  show JSNum.finite _ = _
  norm_num

/-- The Number value for the opposite of a rational is the opposite Number. -/
theorem ofRat_neg_pos (q : ℚ) (hq : 0 < q) :
    (JSNum.ofRat q = .posInf → JSNum.ofRat (-q) = .negInf) ∧
    (∀ v, JSNum.ofRat q = .finite v → JSNum.ofRat (-q) = .finite (-v) ∧ 0 ≤ v) := by
  have hne : q ≠ 0 := ne_of_gt hq
  have hneg : ¬ (0 < -q) := by linarith
  have hv : (0 : ℚ) ≤ (JSNum.roundHalfEven (q / 2 ^ max (Int.log 2 q - 52) (-1074)) : ℚ) *
      2 ^ max (Int.log 2 q - 52) (-1074) := by
    have h1 : (0 : ℚ) ≤ q / 2 ^ max (Int.log 2 q - 52) (-1074) :=
      div_nonneg (le_of_lt hq) (le_of_lt (zpow_pos (by norm_num) _))
    have h2 : (0 : ℤ) ≤ JSNum.roundHalfEven (q / 2 ^ max (Int.log 2 q - 52) (-1074)) :=
      le_trans (Int.floor_nonneg.mpr h1) (floor_le_roundHalfEven _)
    exact mul_nonneg (by exact_mod_cast h2) (le_of_lt (zpow_pos (by norm_num) _))
  unfold JSNum.ofRat
  rw [if_neg hne, if_neg (neg_ne_zero.mpr hne)]
  simp only [abs_neg, abs_of_pos hq, if_pos hq, if_neg hneg]
  constructor
  · intro h
    split_ifs at h ⊢
    rfl
  · intro v h
    split_ifs at h ⊢
    have := JSNum.finite.inj h
    subst this
    exact ⟨rfl, hv⟩

/-- What the change handler of the duration control stores: 1 for a text
without digits, for zero and for a negative number; the Number value of the
whole number read otherwise. -/
theorem durationOf_eq (value : String) :
    (parseIntDigits value = none → BookRoom.durationOf value = 1) ∧
    (∀ n, parseIntDigits value = some (true, n) → BookRoom.durationOf value = 1) ∧
    (parseIntDigits value = some (false, 0) → BookRoom.durationOf value = 1) ∧
    (∀ n, 1 ≤ n → parseIntDigits value = some (false, n) →
      BookRoom.durationOf value = JSNum.ofRat n) := by
  refine ⟨?_, ?_, ?_, ?_⟩
  · intro h
    simp [BookRoom.durationOf, parseInt, h, JSNum.orElse, JSNum.truthy, one_eq, JSNum.mathMax,
      JSNum.lt]
  · intro n h
    rcases Nat.eq_zero_or_pos n with h0 | hpos
    · subst h0
      simp [BookRoom.durationOf, parseInt, h, JSNum.ofRat, JSNum.orElse, JSNum.truthy, one_eq,
        JSNum.mathMax, JSNum.lt]
    · have hq : (0 : ℚ) < n := by exact_mod_cast hpos
      obtain ⟨hinf, hfin⟩ := ofRat_neg_pos (n : ℚ) hq
      rcases ofRat_natCast_pos n hpos with hp | ⟨N, hN, hp⟩
      · simp [BookRoom.durationOf, parseInt, h, hinf hp, JSNum.orElse, JSNum.truthy, one_eq,
          JSNum.mathMax, JSNum.lt]
      · have hN0 : (N : ℚ) ≠ 0 := by
          have : (0 : ℚ) < N := by exact_mod_cast hN
          exact ne_of_gt this
        have hlt : ¬ ((1 : ℚ) < -(N : ℚ)) := by
          have : (0 : ℚ) ≤ N := by positivity
          linarith
        simp [BookRoom.durationOf, parseInt, h, (hfin N hp).1, JSNum.orElse, JSNum.truthy,
          one_eq, JSNum.mathMax, JSNum.lt, hN0, hlt]
  · intro h
    simp [BookRoom.durationOf, parseInt, h, JSNum.ofRat, JSNum.orElse, JSNum.truthy, one_eq,
      JSNum.mathMax, JSNum.lt]
  · intro n hn h
    rcases ofRat_natCast_pos n hn with hp | ⟨N, hN, hp⟩
    · simp [BookRoom.durationOf, parseInt, h, hp, JSNum.orElse, JSNum.truthy, one_eq,
        JSNum.mathMax, JSNum.lt]
    · have hN0 : (N : ℚ) ≠ 0 := by
        have : (0 : ℚ) < N := by exact_mod_cast hN
        exact ne_of_gt this
      have hN1 : (1 : ℚ) ≤ N := by exact_mod_cast hN
      simp only [BookRoom.durationOf, parseInt, h, hp, JSNum.orElse, JSNum.truthy, one_eq,
        JSNum.mathMax, JSNum.lt, hN0, ne_eq, not_false_eq_true, decide_True, if_true,
        Bool.false_eq_true, if_false]
      by_cases h1 : (1 : ℚ) < N
      · simp [h1]
      · have : (N : ℚ) = 1 := le_antisymm (not_lt.mp h1) hN1
        simp [this]

/-- The duration stored for any text is a whole number of at least 1, or
`Infinity`. -/
theorem durationOf_cases (value : String) :
    BookRoom.durationOf value = .posInf ∨
      ∃ N : ℕ, 1 ≤ N ∧ BookRoom.durationOf value = .finite N := by
  obtain ⟨h1, h2, h3, h4⟩ := durationOf_eq value
  have hone : ∃ N : ℕ, 1 ≤ N ∧ (1 : JSNum) = .finite N := ⟨1, le_rfl, by rw [one_eq]; norm_num⟩
  cases hp : parseIntDigits value with
  | none => right; rw [h1 hp]; exact hone
  | some sn =>
    obtain ⟨negative, n⟩ := sn
    cases negative with
    | true => right; rw [h2 n hp]; exact hone
    | false =>
      rcases Nat.eq_zero_or_pos n with h0 | hpos
      · subst h0
        right; rw [h3 hp]; exact hone
      · rw [h4 n hpos hp]
        exact ofRat_natCast_pos n hpos

/-- The duration that `handleSubmit` leaves behind is the one it found. -/
theorem handleSubmit_duration (clock : Clock) (s : BookRoom.State) (w : World)
    (net : FetchOutcome) : (BookRoom.handleSubmit clock s w net).1.duration = s.duration := by
  unfold BookRoom.handleSubmit
  split
  · rfl
  · simp only
    split
    · rfl
    · split
      · split
        · rfl
        · split <;> rfl
      · rfl

/-- In every state of the booking form that its handlers can bring about, the
duration is a whole number of at least 1, or `Infinity`. -/
theorem reachable_duration (room_id : String) (s : BookRoom.State)
    (hs : BookRoom.Reachable room_id s) :
    s.duration = .posInf ∨ ∃ N : ℕ, 1 ≤ N ∧ s.duration = .finite N := by
  induction hs with
  | start => exact Or.inr ⟨1, le_rfl, by simp [BookRoom.initial, one_eq]⟩
  | changeDate value s _ ih => exact ih
  | changeStart value s _ ih => exact ih
  | changeDuration value s _ _ => exact durationOf_cases value
  | submit clock s w net _ ih =>
    rw [handleSubmit_duration]
    exact ih

/-- The Number value for 2^53 + 1, which lies half way between two doubles, is
2^53. -/
theorem ofRat_tie : JSNum.ofRat (9007199254740993 : ℚ) = .finite 9007199254740992 := by
  have hq : (0 : ℚ) < 9007199254740993 := by norm_num
  have hlog : Int.log 2 (9007199254740993 : ℚ) = 53 := by
    have h1 : (53 : ℤ) ≤ Int.log 2 (9007199254740993 : ℚ) := by
      rw [← Int.zpow_le_iff_le_log (by norm_num) hq]
      norm_num
    have h2 : Int.log 2 (9007199254740993 : ℚ) < 54 := by
      rw [← Int.lt_zpow_iff_log_lt (by norm_num) hq]
      norm_num
    omega
  have hfloor : ⌊(9007199254740993 : ℚ) / 2⌋ = 4503599627370496 := by
    rw [Int.floor_eq_iff]
    norm_num
  have hround : JSNum.roundHalfEven ((9007199254740993 : ℚ) / 2) = 4503599627370496 := by
    unfold JSNum.roundHalfEven
    rw [hfloor]
    norm_num
  unfold JSNum.ofRat
  rw [if_neg (ne_of_gt hq)]
  simp only [abs_of_pos hq, hlog]
  have hk : max ((53 : ℤ) - 52) (-1074) = 1 := by decide
  rw [hk]
  simp only [zpow_one, hround, if_pos hq]
  rw [if_neg]
  · norm_num
  · norm_num

/-- The price of a booking: the product of the price per hour, when that is a
Number above 0, and a duration that is a whole number of at least 1 or
`Infinity` is at least the price per hour. -/
theorem price_le_totalPrice (p : ℚ) (duration : JSNum) (hp : 0 < p)
    (hrep : JSNum.ofRat p = .finite p)
    (hd : duration = .posInf ∨ ∃ N : ℕ, 1 ≤ N ∧ duration = .finite N) :
    JSNum.finite p ≤ BookRoom.totalPrice (some { price_per_hour := .finite p }) duration := by
  show JSNum.le _ _ = true
  rcases hd with hd | ⟨N, hN, hd⟩
  · subst hd
    simp [BookRoom.totalPrice, JSNum.mul, ne_of_gt hp, hp, JSNum.le]
  · subst hd
    have hN1 : (1 : ℚ) ≤ N := by exact_mod_cast hN
    have hle : p ≤ p * N := by nlinarith
    rcases ofRat_ge_of_le p (p * N) hp hrep hle with h | ⟨v, hv, h⟩
    · simp [BookRoom.totalPrice, JSNum.mul, h, JSNum.le]
    · simp [BookRoom.totalPrice, JSNum.mul, h, JSNum.le, hv]

set_option exponentiation.threshold 512 in
/-- C30 (as stated, refuted): the text of a one followed by 400 zeros makes the
change handler store `Infinity`, which is not a whole number, and with a price
per hour of 0 the total price is then `NaN`, which is not at least the price;
the text "9007199254740993" stores 9007199254740992, and with the price per hour
30 the total price is 270215977642229760, not 30 times the number written. -/
theorem duration_infinite :
    BookRoom.durationOf (String.mk ('1' :: List.replicate 400 '0')) = .posInf ∧
    (∀ N : ℤ, JSNum.posInf ≠ .finite N) ∧
    BookRoom.totalPrice (some { price_per_hour := .finite 0 }) .posInf = .nan ∧
    ¬ (JSNum.finite 0 ≤ JSNum.nan) ∧
    BookRoom.durationOf "9007199254740993" = .finite 9007199254740992 ∧
    BookRoom.totalPrice (some { price_per_hour := .finite 30 })
      (.finite 9007199254740992) = .finite 270215977642229760 ∧
    (30 : ℚ) * 9007199254740993 ≠ 270215977642229760 := by
  refine ⟨?_, ?_, ?_, ?_, ?_, ?_, ?_⟩
  · rw [(durationOf_eq _).2.2.2 (10 ^ 400) (Nat.one_le_pow _ _ (by norm_num))
      (parseIntDigits_power 400)]
    apply ofRat_overflow
    rw [Nat.cast_pow]
    calc (2 : ℚ) ^ 1024 = (2 ^ 64) ^ 16 := by rw [← pow_mul]
      _ ≤ (10 ^ 25) ^ 16 := pow_le_pow_left₀ (by norm_num) (by norm_num) 16
      _ = ((10 : ℕ) : ℚ) ^ 400 := by
          rw [← pow_mul]
          norm_cast
  · intro N h
    cases h
  · simp [BookRoom.totalPrice, JSNum.mul]
  · intro h
    cases h
  · rw [(durationOf_eq _).2.2.2 9007199254740993 (by norm_num) (by rfl)]
    have := ofRat_tie
    norm_num at this ⊢
    exact this
  · have hd := ofRat_of_dyadic 15 54 (by norm_num) (by norm_num) (by
      rw [abs_of_pos (by norm_num)]
      norm_num)
    simp only [BookRoom.totalPrice, JSNum.mul]
    norm_num at hd ⊢
    exact hd
  · norm_num

/-- C30 (amended): the duration of the booking form starts at 1 and, in every
state that the handlers of the form can bring about, is never `NaN` and never
below 1: it is a whole number of at least 1, or `Infinity`, which the change
handler stores for a text of digits from about 309 digits on. The change handler
stores 1 for the inputs "", "abc", "0" and "-3", 5 for "5" after a no-break
space, and 25 for "25" although the control names 24 as its maximum; no bound
above is enforced: the text `0x1` followed by k zeros stores 16^k for every k up
to 255. With a room loaded the total price is the product of the price per hour
and the duration as Numbers; it is at least the price per hour whenever that is
a Number above 0, and it is 0 for a price of 0 and a finite duration. -/
theorem duration_at_least_one (room_id : String) :
    (BookRoom.initial room_id).duration = 1 ∧
    (∀ s, BookRoom.Reachable room_id s →
      (s.duration = .posInf ∨ ∃ N : ℕ, 1 ≤ N ∧ s.duration = .finite N) ∧
      1 ≤ s.duration ∧ s.duration ≠ .nan) ∧
    (∀ value, BookRoom.durationOf value = .posInf ∨
      ∃ N : ℕ, 1 ≤ N ∧ BookRoom.durationOf value = .finite N) ∧
    BookRoom.durationOf "" = 1 ∧ BookRoom.durationOf "abc" = 1 ∧
    BookRoom.durationOf "0" = 1 ∧ BookRoom.durationOf "-3" = 1 ∧
    BookRoom.durationOf "\u00a05" = 5 ∧
    BookRoom.durationOf "25" = 25 ∧
    (∀ k ≤ 255, BookRoom.durationOf (String.mk ('0' :: 'x' :: '1' :: List.replicate k '0')) =
      .finite (16 ^ k)) ∧
    (∀ s (room : BookRoom.RoomDetails), BookRoom.Reachable room_id s →
      BookRoom.totalPrice (some room) s.duration = room.price_per_hour.mul s.duration ∧
      (∀ p : ℚ, room.price_per_hour = .finite p → JSNum.ofRat p = .finite p → 0 < p →
        JSNum.finite p ≤ BookRoom.totalPrice (some room) s.duration) ∧
      (room.price_per_hour = .finite 0 → s.duration ≠ .posInf →
        BookRoom.totalPrice (some room) s.duration = .finite 0)) := by
  have hsmall : ∀ n : ℕ, n < 2 ^ 53 → JSNum.ofRat (n : ℚ) = .finite n := by
    intro n hn
    have := ofRat_intCast (n : ℤ) (by
      rw [abs_of_nonneg (by positivity)]
      exact_mod_cast hn)
    simpa using this
  refine ⟨rfl, ?_, durationOf_cases, ?_, ?_, ?_, ?_, ?_, ?_, ?_, ?_⟩
  · intro s hs
    have h := reachable_duration room_id s hs
    refine ⟨h, ?_, ?_⟩
    · show JSNum.le 1 s.duration = true
      rcases h with h | ⟨N, hN, h⟩
      · rw [h, one_eq]
        rfl
      · have hN1 : (1 : ℚ) ≤ N := by exact_mod_cast hN
        rw [h, one_eq]
        simp [JSNum.le, hN1]
    · rcases h with h | ⟨N, _, h⟩ <;> rw [h] <;> simp
  · exact (durationOf_eq "").1 (by rfl)
  · exact (durationOf_eq "abc").1 (by rfl)
  · exact (durationOf_eq "0").2.2.1 (by rfl)
  · exact (durationOf_eq "-3").2.1 3 (by rfl)
  · rw [(durationOf_eq "\u00a05").2.2.2 5 (by norm_num) (by rfl), hsmall 5 (by norm_num)]
    show _ = JSNum.finite _
    norm_num
  · rw [(durationOf_eq "25").2.2.2 25 (by norm_num) (by rfl), hsmall 25 (by norm_num)]
    show _ = JSNum.finite _
    norm_num
  · intro k hk
    rw [(durationOf_eq _).2.2.2 (16 ^ k) (Nat.one_le_pow _ _ (by norm_num))
      (parseIntDigits_hex_power k)]
    have h16 : ((16 ^ k : ℕ) : ℚ) = ((1 : ℤ) : ℚ) * 2 ^ ((4 * k : ℕ) : ℤ) := by
      rw [zpow_natCast, pow_mul]
      norm_num
    have hlt : ((1 : ℤ) : ℚ) * 2 ^ ((4 * k : ℕ) : ℤ) < 2 ^ (1024 : ℕ) := by
      rw [zpow_natCast, Int.cast_one, one_mul]
      exact pow_lt_pow_right₀ (by norm_num) (by omega)
    have hd := ofRat_of_dyadic 1 ((4 * k : ℕ) : ℤ) (by omega) (by norm_num) (by
      rw [abs_of_pos (by positivity)]
      exact hlt)
    rw [h16, hd]
    congr 1
    rw [zpow_natCast, pow_mul]
    norm_num
  · intro s room hs
    have h := reachable_duration room_id s hs
    refine ⟨rfl, ?_, ?_⟩
    · intro p hp hrep hpos
      have := price_le_totalPrice p s.duration hpos hrep h
      cases room with
      | mk price =>
        simp only at hp
        subst hp
        exact this
    · intro hp hfin
      cases room with
      | mk price =>
        simp only at hp
        subst hp
        rcases h with h | ⟨N, _, h⟩
        · exact absurd h hfin
        · rw [h]
          simp [BookRoom.totalPrice, JSNum.mul, JSNum.ofRat]

end RoomBooking
